import Mathlib

/-!
# SHADERed project parser: a shallow embedding of `src/Objects/ProjectParser.cpp`

The development follows the source file top to bottom: the XML handles the parser reads
and writes, `Open` and its version dispatch, the writer `SaveAs`, the value codec
(`m_exportVariableValue`, `m_parseVariableValue`) and the version 2 reader `m_parseV2`.

Conventions of the embedding.
* An XML element is a name, a list of attributes, a text and a list of children. A null
  handle of the XML library is `none`.
* A C `int` is an `Int`; the attribute and text conversions clamp to the 32 bit range as the
  XML library does, and the one `int` sum that can leave that range, `slot + 1`, is taken in
  32 bits (`wrapInt`). Conversions of an `int` to `size_t` are explicit (`toSizeT`). Strings
  and vectors are unbounded lists: buffer lengths and allocation limits are not represented,
  except that a vector asked to hold 2^63 elements or more throws.
* An exception that leaves the object loop of a reader ends the run: the state of the loop
  carries a flag `thrown`, and the statements after the throw are not executed.
* A `float` is a value of an abstract carrier `F`; its text form is given by a `FloatText F`.
* Pointers that serve as identities (a pass in the pipeline list, the key of a `std::map`)
  are natural numbers.
-/

namespace ed

/-! ## OpenGL constants used by the parser -/

abbrev GLenum := Nat

def GL_ZERO : GLenum := 0
def GL_POINT : GLenum := 0x1B00
def GL_LINE : GLenum := 0x1B01
def GL_FILL : GLenum := 0x1B02
def GL_FRONT : GLenum := 0x0404
def GL_BACK : GLenum := 0x0405
def GL_FRONT_AND_BACK : GLenum := 0x0408
def GL_CW : GLenum := 0x0900
def GL_CCW : GLenum := 0x0901
def GL_RGBA : GLenum := 0x1908
def GL_KEEP : GLenum := 0x1E00
def GL_ALWAYS : GLenum := 0x0207
def GL_CONSTANT_COLOR : GLenum := 0x8001
def GL_FUNC_ADD : GLenum := 0x8006

/-! ## The XML tree and its handles -/

/-- An element of the document: tag name, attributes in document order, the text of its
first text child (empty when there is none) and its child elements in document order. -/
inductive XmlNode where
  | mk (name : String) (attrs : List (String × String)) (text : String)
      (children : List XmlNode)

namespace XmlNode

def name : XmlNode → String
  | mk n _ _ _ => n

def attrs : XmlNode → List (String × String)
  | mk _ a _ _ => a

def text : XmlNode → String
  | mk _ _ t _ => t

def children : XmlNode → List XmlNode
  | mk _ _ _ c => c

/-- The handle `node.attribute(a)`: the value of the first attribute called `a`, `none` for
the empty handle. -/
def attr (n : XmlNode) (a : String) : Option String :=
  (n.attrs.find? (fun p => p.1 = a)).map Prod.snd

/-- The handle `node.child(c)`: the first child element called `c`. -/
def child (n : XmlNode) (c : String) : Option XmlNode :=
  n.children.find? (fun x => x.name = c)

/-- The range `node.children(c)`: every child element called `c`, in document order. -/
def childrenNamed (n : XmlNode) (c : String) : List XmlNode :=
  n.children.filter (fun x => x.name = c)

/-- An element with text only, as built by `append_child(name).text().set(text)`. -/
def leaf (name text : String) : XmlNode := mk name [] text []

end XmlNode

/-- The test `handle.empty()` on an attribute handle. -/
def attrEmpty (a : Option String) : Bool := a.isNone

/-- The conversion `as_string()`: the empty string on an empty handle. -/
def as_string (a : Option String) : String := a.getD ""

/-- The range `children(c)` of a possibly null node handle. -/
def childrenOf (n : Option XmlNode) (c : String) : List XmlNode :=
  match n with
  | some x => x.childrenNamed c
  | none => []

/-- The handle `child(c)` of a possibly null node handle. -/
def childOf (n : Option XmlNode) (c : String) : Option XmlNode :=
  match n with
  | some x => x.child c
  | none => none

/-- The handle `attribute(a)` of a possibly null node handle. -/
def attributeOf (n : Option XmlNode) (a : String) : Option String :=
  match n with
  | some x => x.attr a
  | none => none

/-! ## Text conversions of the XML library

The library is not part of `src/`; the conversions follow its documented behaviour:
`as_bool` looks at the first character only, `as_int` and `as_uint` skip leading white
space, accept a sign and a `0x` marker, read digits up to the first other character and
clamp to the range of the result type. -/

def isXmlSpace (c : Char) : Bool :=
  c = ' ' || c = '\t' || c = '\n' || c = '\r'

def decDigit? (c : Char) : Option Nat :=
  if '0' ≤ c ∧ c ≤ '9' then some (c.toNat - 48) else none

def hexDigit? (c : Char) : Option Nat :=
  if '0' ≤ c ∧ c ≤ '9' then some (c.toNat - 48)
  else if 'a' ≤ c ∧ c ≤ 'f' then some (c.toNat - 87)
  else if 'A' ≤ c ∧ c ≤ 'F' then some (c.toNat - 55)
  else none

/-- Reads digits of the given base up to the first character that is not a digit. -/
def readDigits (digit : Char → Option Nat) (base : Nat) : List Char → Nat → Nat
  | [], acc => acc
  | c :: cs, acc =>
    match digit c with
    | some d => readDigits digit base cs (acc * base + d)
    | none => acc

/-- The magnitude read after white space and sign: hexadecimal after a `0x` or `0X`
marker, decimal otherwise. -/
def readMagnitude (cs : List Char) : Nat :=
  if cs.head? = some '0' ∧ (cs.tail.head? = some 'x' ∨ cs.tail.head? = some 'X') then
    readDigits hexDigit? 16 cs.tail.tail 0
  else readDigits decDigit? 10 cs 0

/-- Sign and magnitude of a number text. -/
def string_to_integer (value : String) : Bool × Nat :=
  let cs := value.data.dropWhile isXmlSpace
  if cs.head? = some '-' then (true, readMagnitude cs.tail)
  else if cs.head? = some '+' then (false, readMagnitude cs.tail)
  else (false, readMagnitude cs)

def INT_MAX : Int := 2147483647
def INT_MIN : Int := -2147483648
def UINT_MAX : Nat := 4294967295

/-- The conversion `as_int` of a text. -/
def textAsInt (value : String) : Int :=
  match string_to_integer value with
  | (true, m) => if (m : Int) > -INT_MIN then INT_MIN else -(m : Int)
  | (false, m) => if (m : Int) > INT_MAX then INT_MAX else (m : Int)

/-- The conversion `as_uint` of a text. -/
def textAsUInt (value : String) : Nat :=
  match string_to_integer value with
  | (true, _) => 0
  | (false, m) => if m > UINT_MAX then UINT_MAX else m

/-- The conversion `as_bool` of a text: true when the first character is one of
`1 t T y Y`. -/
def textAsBool (value : String) : Bool :=
  match value.data with
  | c :: _ => c = '1' || c = 't' || c = 'T' || c = 'y' || c = 'Y'
  | [] => false

/-- The conversion `attribute.as_int()`, 0 on an empty handle. -/
def as_int (a : Option String) : Int :=
  match a with
  | some v => textAsInt v
  | none => 0

/-- The conversion `attribute.as_bool()`, false on an empty handle. -/
def as_bool (a : Option String) : Bool :=
  match a with
  | some v => textAsBool v
  | none => false

/-- The text written by `set(bool)`. -/
def boolText (b : Bool) : String := if b then "true" else "false"

/-- Decimal digits of a number, least significant first. -/
def decDigitsRev : Nat → Nat → List Nat
  | 0, _ => []
  | fuel + 1, n => (n % 10) :: (if n / 10 = 0 then [] else decDigitsRev fuel (n / 10))

def digitChar (d : Nat) : Char := Char.ofNat (48 + d)

/-- The text written by `set(unsigned)`. -/
def natText (n : Nat) : String :=
  String.mk ((decDigitsRev (n + 1) n).reverse.map digitChar)

/-- The text written by `set(int)`. -/
def intText (i : Int) : String :=
  if i < 0 then String.mk ('-' :: (natText i.natAbs).data) else natText i.natAbs

/-- Text form of `float` values. `set` is what `text().set(float)` and
`set_value(float)` write, `as_float` the conversion back, `to_string` is
`std::to_string`, `ofInt` the conversion of an integer to `float` and `div` the
division of floats. -/
structure FloatText (F : Type) where
  set : F → String
  as_float : String → F
  to_string : F → String
  ofInt : Int → F
  div : F → F → F

/-- A `glm::vec4`. -/
structure Vec4 (F : Type) where
  r : F
  g : F
  b : F
  a : F
deriving DecidableEq

/-! ## Path helper -/

/-- The function `toGenericPath`: every backslash becomes a forward slash. -/
def toGenericPath (p : String) : String :=
  String.mk (p.data.map (fun c => if c = '\\' then '/' else c))

/-! ## The live model: pipeline list, object registry, parser fields -/

/-- A pass as held by the pipeline list (`m_pipe->GetList()`): the address of the
`PipelineItem`, which is its identity, and its name. -/
structure PipelineItem where
  ptr : Nat
  Name : String
deriving DecidableEq

/-- A render texture as the parser reads and writes it. -/
structure RenderTextureObject (F : Type) where
  Format : GLenum
  FixedSize : Int × Int
  RatioSize : F × F
  Clear : Bool
  ClearColor : Vec4 F

/-- A uniform buffer: size in bytes, format text and contents. -/
structure BufferObject where
  Size : Int
  ViewFormat : String
  Data : List Nat

/-- The five kinds of object the registry holds. A cubemap carries the six face paths in
the order of the arguments of `CreateCubemap`: left, top, front, bottom, right, back. -/
inductive ObjectKind (F : Type) where
  | texture
  | cubemap (texmaps : List String)
  | renderTexture (rt : RenderTextureObject F)
  | audio
  | buffer (buf : BufferObject)

/-- An object of the registry: its name, its texture handle (`GetTexture(name)`) and what
it is. -/
structure SceneObject (F : Type) where
  name : String
  tex : Nat
  kind : ObjectKind F

/-- Modelled from the spec: the class `ObjectManager` is declared outside `src/`. The
registry holds the named objects in insertion order (`GetObjects`), and for every pass a
table of bound texture handles by slot (`GetBindList`) and a table of bound buffer names by
slot (`GetUniformBindList`); passes are identified by address. -/
structure ObjectManager (F : Type) where
  objects : List (SceneObject F)
  bindList : List (Nat × List Nat)
  uniformBindList : List (Nat × List String)

/-- Modelled from the spec: `ObjectManager::Clear` is defined outside `src/`; it removes
every object and every binding table. -/
def ObjectManager.Clear {F : Type} (_ : ObjectManager F) : ObjectManager F :=
  { objects := [], bindList := [], uniformBindList := [] }

/-- Modelled from the spec: `PipelineManager::Clear` is defined outside `src/`; it removes
every pass from the pipeline list. -/
def PipelineManager.Clear (_ : List PipelineItem) : List PipelineItem := []

/-- The state `Open` works on: the parser fields `m_file`, `m_projectPath`, `m_models`
(file and address of the loaded model), the message stack, the pipeline list, the object
registry, the two project settings `Open` resets, the number of resets of the system
variable manager and the log. -/
structure ProjectState (F : Type) where
  m_file : String
  m_projectPath : String
  m_msgs : List (String × String)
  m_models : List (String × Nat)
  pipe : List PipelineItem
  objects : ObjectManager F
  FPCamera : Bool
  ClearColor : Vec4 F
  systemResets : Nat
  log : List String

/-! ## `ProjectParser::Open` -/

/-- The position `find_last_of("/\\")`: the index of the last slash or backslash. -/
def find_last_of_slash (cs : List Char) : Option Nat :=
  let n := (cs.reverse.takeWhile (fun c => !(c = '/' || c = '\\'))).length
  if n < cs.length then some (cs.length - 1 - n) else none

/-- The text `file.substr(0, file.find_last_of("/\\"))`; the whole text when there is no
slash. -/
def projectDirectoryOf (file : String) : String :=
  match find_last_of_slash file.data with
  | some i => String.mk (file.data.take i)
  | none => file

/-- The two readers `Open` can call. -/
inductive Reader where
  | V1
  | V2
deriving DecidableEq

/-- The local `projectVersion` of `Open`: 1 unless the root carries a `version` attribute,
else the attribute read as an `int`. -/
def projectVersion (projectNode : Option XmlNode) : Int :=
  if attrEmpty (attributeOf projectNode "version") then 1
  else as_int (attributeOf projectNode "version")

/-- The `switch (projectVersion)` of `Open`: case 1, case 2, default. -/
def selectReader (version : Int) : Option Reader :=
  if version = 1 then some Reader.V1
  else if version = 2 then some Reader.V2
  else none

/-- The statements of `Open` up to the call of `doc.load_file`. -/
def Open_begin {F : Type} (file : String) (s : ProjectState F) : ProjectState F :=
  { s with
    log := s.log ++ ["Openning a project file " ++ file]
    m_file := file
    m_projectPath := projectDirectoryOf file
    m_msgs := []
    m_models := [] }

/-- The statements of `Open` between a successful `load_file` and the `switch`. -/
def Open_clear {F : Type} (T : FloatText F) (s : ProjectState F) : ProjectState F :=
  { s with
    pipe := PipelineManager.Clear s.pipe
    objects := s.objects.Clear
    FPCamera := false
    ClearColor := ⟨T.ofInt 0, T.ofInt 0, T.ofInt 0, T.ofInt 0⟩ }

/-- The statements of `Open` after the `switch`. -/
def Open_end {F : Type} (s : ProjectState F) : ProjectState F :=
  { s with
    systemResets := s.systemResets + 1
    log := s.log ++ ["Finished with parsing a project file"] }

/-- The function `ProjectParser::Open`. `load_file` is the result of `doc.load_file`:
`none` when the file does not parse, else the document node. The two readers are the
member functions `m_parseV1` and `m_parseV2`, taken as state transformers. -/
def Open {F : Type} (T : FloatText F)
    (m_parseV1 m_parseV2 : Option XmlNode → ProjectState F → ProjectState F)
    (load_file : String → Option XmlNode) (file : String) (s : ProjectState F) :
    ProjectState F :=
  let s1 := Open_begin file s
  match load_file file with
  | none => { s1 with log := s1.log ++ ["Failed to parse a project file"] }
  | some doc =>
    let s2 := Open_clear T s1
    let projectNode := doc.child "project"
    let s3 :=
      match selectReader (projectVersion projectNode) with
      | some Reader.V1 => m_parseV1 projectNode s2
      | some Reader.V2 => m_parseV2 projectNode s2
      | none => { s2 with log := s2.log ++ ["Tried to open a project that is newer version"] }
    Open_end s3

/-! ## Name tables

The tables of `Names.h` and the functions of `gl::String` are declared outside `src/`;
the parser is embedded over an arbitrary choice of them. -/

/-- The name and value tables the parser consults, and the functions of `gl::String` the
writer calls. A name table and its value table are arrays of the same length. -/
structure Names where
  BLEND_NAMES : List String
  BLEND_VALUES : List GLenum
  BLEND_OPERATOR_NAMES : List String
  BLEND_OPERATOR_VALUES : List GLenum
  COMPARISON_FUNCTION_NAMES : List String
  COMPARISON_FUNCTION_VALUES : List GLenum
  STENCIL_OPERATION_NAMES : List String
  STENCIL_OPERATION_VALUES : List GLenum
  CULL_MODE_NAMES : List String
  CULL_MODE_VALUES : List GLenum
  FORMAT_NAMES : List String
  FORMAT_VALUES : List GLenum
  BlendFactor : GLenum → String
  BlendFunction : GLenum → String
  ComparisonFunction : GLenum → String
  StencilOperation : GLenum → String
  Format : GLenum → String

/-- The loop `for k: if (strcmp(text, NAMES[k]) == 0) return VALUES[k]`: the value paired
with the first name equal to the text. -/
def findValue : List String → List GLenum → String → Option GLenum
  | n :: ns, v :: vs, text => if text = n then some v else findValue ns vs text
  | _, _, _ => none

def m_toBlend (N : Names) (text : String) : GLenum :=
  (findValue N.BLEND_NAMES N.BLEND_VALUES text).getD GL_CONSTANT_COLOR

def m_toBlendOp (N : Names) (text : String) : GLenum :=
  (findValue N.BLEND_OPERATOR_NAMES N.BLEND_OPERATOR_VALUES text).getD GL_FUNC_ADD

def m_toComparisonFunc (N : Names) (str : String) : GLenum :=
  (findValue N.COMPARISON_FUNCTION_NAMES N.COMPARISON_FUNCTION_VALUES str).getD GL_ALWAYS

def m_toStencilOp (N : Names) (str : String) : GLenum :=
  (findValue N.STENCIL_OPERATION_NAMES N.STENCIL_OPERATION_VALUES str).getD GL_KEEP

def m_toCullMode (N : Names) (str : String) : GLenum :=
  (findValue N.CULL_MODE_NAMES N.CULL_MODE_VALUES str).getD GL_BACK

/-! ## Slot tables: `std::map<PipelineItem*, std::vector<std::string>>` -/

/-- A map from pass address to a vector of names, as a list of entries in increasing key
order, which is the order a `std::map` is iterated in. -/
abbrev BindMap := List (Nat × List String)

/-- The vector stored under a key; the empty vector when the key is absent. -/
def BindMap.get (m : BindMap) (k : Nat) : List String :=
  match m.find? (fun e => e.1 = k) with
  | some e => e.2
  | none => []

/-- Insertion of an absent key at its place in key order. -/
def BindMap.insert (m : BindMap) (k : Nat) (v : List String) : BindMap :=
  match m with
  | [] => [(k, v)]
  | e :: rest => if k < e.1 then (k, v) :: e :: rest else e :: BindMap.insert rest k v

/-- The update `m[k] = f(m[k])`: `operator[]` finds the entry of the key, or inserts an
empty vector under the key at its place in key order. -/
def BindMap.modify (m : BindMap) (k : Nat) (f : List String → List String) : BindMap :=
  if m.any (fun e => e.1 = k) then m.map (fun e => if e.1 = k then (e.1, f e.2) else e)
  else m.insert k (f [])

/-- The conversion of an `int` to `size_t` (64 bit). -/
def toSizeT (i : Int) : Nat := (i % 18446744073709551616).toNat

/-- The call `v.resize(n)`: keeps the first `n` names and fills up with empty names. -/
def resize (v : List String) (n : Nat) : List String :=
  v.take n ++ List.replicate (n - v.length) ""

/-- The value of an `int` expression whose exact value is `i`: the value itself when it
fits 32 bits, else the value reduced modulo 2^32 into the range of `int`. An `int` sum
that overflows is undefined in the source; the model takes what two's complement hardware
computes, so that `INT_MAX + 1` is `INT_MIN`. -/
def wrapInt (i : Int) : Int := (i + 2147483648) % 4294967296 - 2147483648

/-- The two statements `if (v.size() <= slot) v.resize(slot + 1);` when `resize` returns.
The comparison is made in `size_t`; `slot + 1` is the `int` sum (`wrapInt`) converted to
`size_t`. -/
def growFor (v : List String) (slot : Int) : List String :=
  if v.length ≤ toSizeT slot then resize v (toSizeT (wrapInt (slot + 1))) else v

/-- Whether the call `v.resize(slot + 1)` is made and throws `std::length_error`. A vector
cannot hold 2^63 elements or more (`max_size()` is below that on every implementation),
and the sizes the readers ask for are either below 2^31 or, for a sum that is negative as
an `int`, at least 2^64 - 2^31. -/
def resizeThrows (v : List String) (slot : Int) : Bool :=
  decide (v.length ≤ toSizeT slot) &&
    decide (9223372036854775808 ≤ toSizeT (wrapInt (slot + 1)))

/-- Whether the store `v[slot] = name` that follows `growFor` falls inside the vector. -/
def slotInRange (v : List String) (slot : Int) : Bool :=
  toSizeT slot < (growFor v slot).length

/-- The three statements that record a name in a slot table: grow, then `v[slot] = name`.
A store outside the vector is undefined in the source; here it leaves the vector as it
is, and `slotInRange` tells the two cases apart. -/
def storeName (v : List String) (slot : Int) (name : String) : List String :=
  (growFor v slot).set (toSizeT slot) name

/-! ## Calls on the object registry -/

/-- The calls the readers issue on `m_objects`, with the names they pass. `Bind` and
`BindUniform` carry the address of the pass. `ResolveTarget` is the call
`m_objects->GetTexture(rtName)` of the closing loop, whose result is stored in the render
target chain of a pass; `GetTexture` is the same call made in the object loop. -/
inductive RegCall where
  | CreateTexture (name : String)
  | CreateCubemap (name left top front bottom right back : String)
  | CreateRenderTexture (name : String)
  | CreateAudio (name : String)
  | CreateBuffer (name : String)
  | GetTexture (name : String)
  | GetRenderTexture (name : String)
  | ResizeRenderTexture (name : String)
  | GetBuffer (name : String)
  | Bind (name : String) (pass : Nat)
  | BindUniform (name : String) (pass : Nat)
  | ResolveTarget (pass : Nat) (index : Nat) (name : String)
deriving DecidableEq

namespace RegCall

/-- A call that creates an object. -/
def isCreate : RegCall → Bool
  | CreateTexture _ => true
  | CreateCubemap _ _ _ _ _ _ _ => true
  | CreateRenderTexture _ => true
  | CreateAudio _ => true
  | CreateBuffer _ => true
  | _ => false

/-- A call that resolves a recorded name: a bind, a uniform bind, or the lookup that fills
a render target chain. -/
def isResolve : RegCall → Bool
  | Bind _ _ => true
  | BindUniform _ _ => true
  | ResolveTarget _ _ _ => true
  | _ => false

/-- A call that creates the object of the given name. -/
def createsName (n : String) : RegCall → Bool
  | CreateTexture m => m = n
  | CreateCubemap m _ _ _ _ _ _ => m = n
  | CreateRenderTexture m => m = n
  | CreateAudio m => m = n
  | CreateBuffer m => m = n
  | _ => false

/-- The name bound by a call `Bind(name, pass)` on the given pass. -/
def boundTo (pass : Nat) : RegCall → Option String
  | Bind n q => if q = pass then some n else none
  | _ => none

/-- The name bound by a call `BindUniform(name, pass)` on the given pass. -/
def uniformBoundTo (pass : Nat) : RegCall → Option String
  | BindUniform n q => if q = pass then some n else none
  | _ => none

end RegCall

/-! ## The conversions `std::stoi` and `std::stof` -/

/-- The white space `strtol` and `strtof` skip. -/
def isCSpace (c : Char) : Bool :=
  c = ' ' || c = '\t' || c = '\n' || c = '\r' || c = Char.ofNat 11 || c = Char.ofNat 12

/-- The function `std::stoi` on a text: white space, an optional sign and decimal digits
up to the first other character. `none` stands for the exception it throws, when there is
no digit (`std::invalid_argument`) or when the number does not fit an `int`
(`std::out_of_range`). -/
def stdStoi (s : String) : Option Int :=
  let cs := s.data.dropWhile isCSpace
  let negative := cs.head? = some '-'
  let digits := if cs.head? = some '-' ∨ cs.head? = some '+' then cs.tail else cs
  match digits with
  | [] => none
  | d :: _ =>
    if (decDigit? d).isSome then
      let m : Int := readDigits decDigit? 10 digits 0
      let v := if negative then -m else m
      if INT_MIN ≤ v ∧ v ≤ INT_MAX then some v else none
    else none

/-- The function `std::stof` of the standard library, on the abstract floats: `none`
stands for the exception it throws when the text does not convert. -/
structure StdText (F : Type) where
  stof : String → Option F

/-- The text `rtSize.substr(0, rtSize.find(','))`: the part before the first comma, the
whole text when there is no comma. -/
def beforeComma (rtSize : String) : String :=
  String.mk (rtSize.data.takeWhile (fun c => c ≠ ','))

/-- The text `rtSize.substr(rtSize.find(',') + 1)`: the part after the first comma, the
whole text when there is no comma (`npos + 1` is 0). -/
def afterComma (rtSize : String) : String :=
  if ',' ∈ rtSize.data then String.mk ((rtSize.data.dropWhile (fun c => c ≠ ',')).tail)
  else rtSize

/-- Whether the statements `load size` of the `rendertexture` branch throw: without an
`fsize` attribute both parts of the `rsize` text are converted with `std::stof`, with it
both parts of the `fsize` text with `std::stoi`; a conversion that fails throws, and
nothing in the parser catches the exception. -/
def renderTextureSizeThrows {F : Type} (S : StdText F) (objectNode : XmlNode) : Bool :=
  if attrEmpty (objectNode.attr "fsize") then
    (S.stof (beforeComma (as_string (objectNode.attr "rsize")))).isNone ||
      (S.stof (afterComma (as_string (objectNode.attr "rsize")))).isNone
  else
    (stdStoi (beforeComma (as_string (objectNode.attr "fsize")))).isNone ||
      (stdStoi (afterComma (as_string (objectNode.attr "fsize")))).isNone

/-! ## `m_parseV2`: the object loop and the binding loops -/

/-- What the object loop of a reader builds: the calls issued so far and the two locals
`boundTextures` and `boundUBOs`. The flag `thrown` is set when an exception has left the
loop; nothing of the loop is executed after that, and the two locals are gone with it. -/
structure ObjectsPhase where
  calls : List RegCall
  boundTextures : BindMap
  boundUBOs : BindMap
  thrown : Bool := false

/-- The table a `bind` child writes to: `boundUBOs` for a buffer, else `boundTextures`. -/
def ObjectsPhase.table (st : ObjectsPhase) (ubo : Bool) : BindMap :=
  if ubo then st.boundUBOs else st.boundTextures

/-- The first pass of the list whose name equals the text (`strcmp` loop with `break`). -/
def findPass (passes : List PipelineItem) (passBindName : String) : Option PipelineItem :=
  passes.find? (fun pass => pass.Name = passBindName)

/-- One `bind` child of an object node. When a pass of that name exists the table of the
pass is grown to hold the slot and the name of the object is recorded at the slot, in
`boundUBOs` for a buffer and in `boundTextures` otherwise, and the calls `onMatch` are
issued (the texture branch creates its object here); when growing the table throws, the
run ends with this node; when no pass has that name nothing happens. -/
def bindNodeStep (passes : List PipelineItem) (name : String) (onMatch : List RegCall)
    (ubo : Bool) (st : ObjectsPhase) (bindNode : XmlNode) : ObjectsPhase :=
  let passBindName := as_string (bindNode.attr "name")
  let slot := as_int (bindNode.attr "slot")
  if st.thrown then st
  else
    match findPass passes passBindName with
    | some pass =>
      if resizeThrows ((st.table ubo).get pass.ptr) slot then { st with thrown := true }
      else if ubo then
        { st with
          boundUBOs := st.boundUBOs.modify pass.ptr (fun v => storeName v slot name)
          calls := st.calls ++ onMatch }
      else
        { st with
          boundTextures := st.boundTextures.modify pass.ptr (fun v => storeName v slot name)
          calls := st.calls ++ onMatch }
    | none => st

/-- The loop over the `bind` children of an object node. -/
def bindNodes (passes : List PipelineItem) (name : String) (onMatch : List RegCall)
    (ubo : Bool) (st : ObjectsPhase) (objectNode : XmlNode) : ObjectsPhase :=
  (objectNode.childrenNamed "bind").foldl (bindNodeStep passes name onMatch ubo) st

/-- The call that creates the texture or cubemap described by a `texture` node, and the
name it is known by. -/
def textureCreateCall (objectNode : XmlNode) : String × RegCall :=
  let isCube :=
    if !attrEmpty (objectNode.attr "cube") then as_bool (objectNode.attr "cube") else false
  if isCube then
    let name := as_string (objectNode.attr "name")
    (name, RegCall.CreateCubemap name
      (toGenericPath (as_string (objectNode.attr "left")))
      (toGenericPath (as_string (objectNode.attr "top")))
      (toGenericPath (as_string (objectNode.attr "front")))
      (toGenericPath (as_string (objectNode.attr "bottom")))
      (toGenericPath (as_string (objectNode.attr "right")))
      (toGenericPath (as_string (objectNode.attr "back"))))
  else
    let name := toGenericPath (as_string (objectNode.attr "path"))
    (name, RegCall.CreateTexture name)

/-- The body of the object loop of `m_parseV2` for one `object` node: the registry calls
it issues and the names it records. A render texture is created and looked up, then its
size is read, which throws when the size text does not convert, and only after that it is
resized and its `bind` children are read. The fields read into a render texture or a
buffer (format, size, clear colour, contents) are not part of this record. -/
def m_parseV2_object {F : Type} (S : StdText F) (passes : List PipelineItem)
    (st : ObjectsPhase) (objectNode : XmlNode) : ObjectsPhase :=
  let objType := as_string (objectNode.attr "type")
  if st.thrown then st
  else if objType = "texture" then
    let nc := textureCreateCall objectNode
    bindNodes passes nc.1 [nc.2] false st objectNode
  else if objType = "rendertexture" then
    let objName := as_string (objectNode.attr "name")
    let st1 := { st with calls := st.calls ++
      [RegCall.CreateRenderTexture objName, RegCall.GetTexture objName,
       RegCall.GetRenderTexture objName] }
    if renderTextureSizeThrows S objectNode then { st1 with thrown := true }
    else
      bindNodes passes objName [] false
        { st1 with calls := st1.calls ++ [RegCall.ResizeRenderTexture objName] } objectNode
  else if objType = "audio" then
    let objPath := toGenericPath (as_string (objectNode.attr "path"))
    let st1 := { st with calls := st.calls ++ [RegCall.CreateAudio objPath] }
    bindNodes passes objPath [] false st1 objectNode
  else if objType = "buffer" then
    let objName := as_string (objectNode.attr "name")
    let st1 := { st with calls := st.calls ++
      [RegCall.CreateBuffer objName, RegCall.GetBuffer objName] }
    bindNodes passes objName [] true st1 objectNode
  else st

/-- The object loop of `m_parseV2`, started with no calls and empty tables. `passes` is
the pipeline list read at its start (`m_pipe->GetList()`), `S` the conversion
`std::stof`. -/
def m_parseV2_objects {F : Type} (S : StdText F) (passes : List PipelineItem)
    (projectNode : Option XmlNode) : ObjectsPhase :=
  (childrenOf (childOf projectNode "objects") "object").foldl (m_parseV2_object S passes)
    { calls := [], boundTextures := [], boundUBOs := [] }

/-- The loop `for (auto b : boundTextures) for (auto id : b.second) if (!id.empty())
m_objects->Bind(id, b.first);`. -/
def bindObjects (boundTextures : BindMap) : List RegCall :=
  (boundTextures.map (fun b =>
    (b.2.filter (fun id => id ≠ "")).map (fun id => RegCall.Bind id b.1))).flatten

/-- The loop `for (auto b : boundUBOs) for (auto id : b.second) if (!id.empty())
m_objects->BindUniform(id, b.first);`. -/
def bindBuffers (boundUBOs : BindMap) : List RegCall :=
  (boundUBOs.map (fun b =>
    (b.2.filter (fun id => id ≠ "")).map (fun id => RegCall.BindUniform id b.1))).flatten

/-- The local `fbos` after the pass loop of `m_parseV2`: under the address of each pass
record, the names of its `rendertexture` children in document order, empty when the child
has no `name` attribute. `dataAddr i` is the address of the record allocated for the
pass node number `i`. -/
def m_parseV2_fbos (dataAddr : Nat → Nat) (projectNode : Option XmlNode) : BindMap :=
  (childrenOf (childOf projectNode "pipeline") "pass").enum.foldl
    (fun fbos ip =>
      (ip.2.childrenNamed "rendertexture").foldl
        (fun fbos rtNode =>
          let rtName :=
            if !attrEmpty (rtNode.attr "name") then as_string (rtNode.attr "name") else ""
          fbos.modify (dataAddr ip.1) (fun v => v ++ [rtName]))
        fbos)
    []

/-- The registry lookups of the closing loop of `m_parseV2` for one pass: one for every
name that is not empty, with the index of the chain it fills. -/
def resolveTargetsOf (pass : Nat) (names : List String) : List RegCall :=
  (names.enum.filter (fun p => p.2 ≠ "")).map
    (fun p => RegCall.ResolveTarget pass p.1 p.2)

/-- The registry lookups of the closing loop `for (auto& pass : fbos)`. -/
def resolveTargets (fbos : BindMap) : List RegCall :=
  (fbos.map (fun pass => resolveTargetsOf pass.1 pass.2)).flatten

/-- The calls `m_parseV2` issues on the object registry, in the order it issues them:
object loop, texture binds, buffer binds, render target chains. When an exception leaves
the object loop the run ends there, and the calls are those of the loop up to the throw:
the binding loops and the closing loop are not reached. The pass loop, which comes first,
and the settings loop, which stands between the binding loops and the closing loop, issue
no call on the registry; both are taken to come to an end. -/
def m_parseV2_calls {F : Type} (S : StdText F) (passes : List PipelineItem)
    (dataAddr : Nat → Nat) (projectNode : Option XmlNode) : List RegCall :=
  let st := m_parseV2_objects S passes projectNode
  if st.thrown then st.calls
  else
    st.calls ++ bindObjects st.boundTextures ++ bindBuffers st.boundUBOs
      ++ resolveTargets (m_parseV2_fbos dataAddr projectNode)

/-! ## `SaveAs`: the objects section -/

namespace ObjectManager

variable {F : Type}

/-- The first object of the given name. -/
def find (om : ObjectManager F) (name : String) : Option (SceneObject F) :=
  om.objects.find? (fun o => o.name = name)

/-- The list `GetObjects()`: the names in insertion order. -/
def GetObjects (om : ObjectManager F) : List String := om.objects.map (fun o => o.name)

def IsRenderTexture (om : ObjectManager F) (name : String) : Bool :=
  match om.find name with
  | some { kind := ObjectKind.renderTexture _, .. } => true
  | _ => false

def IsAudio (om : ObjectManager F) (name : String) : Bool :=
  match om.find name with
  | some { kind := ObjectKind.audio, .. } => true
  | _ => false

def IsCubeMap (om : ObjectManager F) (name : String) : Bool :=
  match om.find name with
  | some { kind := ObjectKind.cubemap _, .. } => true
  | _ => false

def IsBuffer (om : ObjectManager F) (name : String) : Bool :=
  match om.find name with
  | some { kind := ObjectKind.buffer _, .. } => true
  | _ => false

/-- The handle `GetTexture(name)`, 0 when there is no such object. -/
def GetTexture (om : ObjectManager F) (name : String) : Nat :=
  match om.find name with
  | some o => o.tex
  | none => 0

def GetRenderTexture (om : ObjectManager F) (name : String) :
    Option (RenderTextureObject F) :=
  match om.find name with
  | some { kind := ObjectKind.renderTexture rt, .. } => some rt
  | _ => none

def GetCubemapTextures (om : ObjectManager F) (name : String) : List String :=
  match om.find name with
  | some { kind := ObjectKind.cubemap texmaps, .. } => texmaps
  | _ => []

def GetBuffer (om : ObjectManager F) (name : String) : Option BufferObject :=
  match om.find name with
  | some { kind := ObjectKind.buffer buf, .. } => some buf
  | _ => none

/-- The vector `GetBindList(pass)`: texture handles bound to the pass, by slot. -/
def GetBindList (om : ObjectManager F) (pass : Nat) : List Nat :=
  match om.bindList.find? (fun e => e.1 = pass) with
  | some e => e.2
  | none => []

/-- The vector `GetUniformBindList(pass)`: buffer names bound to the pass, by slot. -/
def GetUniformBindList (om : ObjectManager F) (pass : Nat) : List String :=
  match om.uniformBindList.find? (fun e => e.1 = pass) with
  | some e => e.2
  | none => []

end ObjectManager

/-- The `bind` children written for one object: for every pass in pipeline order and every
slot of its table that holds the object, a node with the slot and the name of the pass. -/
def SaveAs_binds {α : Type} (passItems : List PipelineItem) (bound : Nat → List α)
    (mine : α → Bool) : List XmlNode :=
  (passItems.map (fun pass =>
    ((bound pass.ptr).enum.filter (fun p => mine p.2)).map (fun p =>
      XmlNode.mk "bind" [("slot", intText p.1), ("name", pass.Name)] "" []))).flatten

/-- The attributes `SaveAs` writes for a render texture. -/
def SaveAs_renderTextureAttrs {F : Type} [DecidableEq F] (N : Names) (T : FloatText F)
    (rtObj : RenderTextureObject F) : List (String × String) :=
  (if rtObj.Format ≠ GL_RGBA then [("format", N.Format rtObj.Format)] else []) ++
  (if rtObj.FixedSize.1 ≠ -1 then
    [("fsize", intText rtObj.FixedSize.1 ++ "," ++ intText rtObj.FixedSize.2)]
   else
    [("rsize", T.to_string rtObj.RatioSize.1 ++ "," ++ T.to_string rtObj.RatioSize.2)]) ++
  [("clear", boolText rtObj.Clear)] ++
  (if rtObj.ClearColor.r ≠ T.ofInt 0 then [("r", T.set rtObj.ClearColor.r)] else []) ++
  (if rtObj.ClearColor.g ≠ T.ofInt 0 then [("g", T.set rtObj.ClearColor.g)] else []) ++
  (if rtObj.ClearColor.b ≠ T.ofInt 0 then [("b", T.set rtObj.ClearColor.b)] else []) ++
  (if rtObj.ClearColor.a ≠ T.ofInt 0 then [("a", T.set rtObj.ClearColor.a)] else [])

/-- The attributes `SaveAs` writes for the six faces of a cubemap, from the vector
`texmaps = GetCubemapTextures(name)`. The `back` attribute is written from
`texmaps[4]`, as in the source. -/
def SaveAs_cubemapAttrs (texmaps : List String) : List (String × String) :=
  [("left", texmaps.getD 0 ""), ("top", texmaps.getD 1 ""), ("front", texmaps.getD 2 ""),
   ("bottom", texmaps.getD 3 ""), ("right", texmaps.getD 4 ""),
   ("back", texmaps.getD 4 "")]

/-- The `object` node `SaveAs` writes for the object of the given name. The side file of
a buffer is not part of this node. -/
def SaveAs_object {F : Type} [DecidableEq F] (N : Names) (T : FloatText F)
    (m_objects : ObjectManager F) (passItems : List PipelineItem) (name : String) :
    XmlNode :=
  let isRT := m_objects.IsRenderTexture name
  let isAudio := m_objects.IsAudio name
  let isCube := m_objects.IsCubeMap name
  let isBuffer := m_objects.IsBuffer name
  let typeAttr :=
    ("type", if isBuffer then "buffer" else if isRT then "rendertexture"
             else if isAudio then "audio" else "texture")
  let nameAttr := (if isRT || isCube || isBuffer then "name" else "path", name)
  let cubeAttr :=
    if !isRT && !isAudio && !isBuffer then
      (if isCube then [("cube", boolText isCube)] else [])
    else []
  let rtAttrs :=
    if isRT then
      match m_objects.GetRenderTexture name with
      | some rtObj => SaveAs_renderTextureAttrs N T rtObj
      | none => []
    else []
  let faceAttrs :=
    if isCube then SaveAs_cubemapAttrs (m_objects.GetCubemapTextures name) else []
  let bufferAttrs :=
    if isBuffer then
      match m_objects.GetBuffer name with
      | some bobj => [("size", intText bobj.Size), ("format", bobj.ViewFormat)]
      | none => []
    else []
  let binds :=
    if isBuffer then
      SaveAs_binds passItems m_objects.GetUniformBindList (fun b => b = name)
    else
      SaveAs_binds passItems m_objects.GetBindList (fun b => b = m_objects.GetTexture name)
  XmlNode.mk "object" ([typeAttr, nameAttr] ++ cubeAttr ++ rtAttrs ++ faceAttrs ++ bufferAttrs)
    "" binds

/-- The children of the `objects` node `SaveAs` writes: one node for every name of
`GetObjects()`, in that order. -/
def SaveAs_objects {F : Type} [DecidableEq F] (N : Names) (T : FloatText F)
    (m_objects : ObjectManager F) (passItems : List PipelineItem) : List XmlNode :=
  m_objects.GetObjects.map (SaveAs_object N T m_objects passItems)

/-- The root `SaveAs` builds: a `project` node with `version` 2 and the three sections,
given the children of each. -/
def SaveAs_projectNode (pipelineChildren objectChildren settingsChildren : List XmlNode) :
    XmlNode :=
  XmlNode.mk "project" [("version", intText 2)] ""
    [XmlNode.mk "pipeline" [] "" pipelineChildren,
     XmlNode.mk "objects" [] "" objectChildren,
     XmlNode.mk "settings" [] "" settingsChildren]

/-! ## Render state items: writer and v2 reader -/

/-- The record `pipe::RenderState`, with the fields the parser reads and writes. -/
structure RenderState (F : Type) where
  PolygonMode : GLenum
  CullFace : Bool
  CullFaceType : GLenum
  FrontFace : GLenum
  Blend : Bool
  AlphaToCoverage : Bool
  BlendSourceFactorRGB : GLenum
  BlendDestinationFactorRGB : GLenum
  BlendFunctionColor : GLenum
  BlendSourceFactorAlpha : GLenum
  BlendDestinationFactorAlpha : GLenum
  BlendFunctionAlpha : GLenum
  BlendFactor : Vec4 F
  DepthTest : Bool
  DepthClamp : Bool
  DepthMask : Bool
  DepthFunction : GLenum
  DepthBias : F
  StencilTest : Bool
  StencilMask : Nat
  StencilReference : Nat
  StencilFrontFaceFunction : GLenum
  StencilBackFaceFunction : GLenum
  StencilFrontFaceOpPass : GLenum
  StencilBackFaceOpPass : GLenum
  StencilFrontFaceOpStencilFail : GLenum
  StencilBackFaceOpStencilFail : GLenum
  StencilFrontFaceOpDepthFail : GLenum
  StencilBackFaceOpDepthFail : GLenum

/-- The rasterizer children `SaveAs` writes for a render state. -/
def SaveAs_rasterizer {F : Type} (s : RenderState F) : List XmlNode :=
  (if s.PolygonMode ≠ GL_FILL then
    [XmlNode.leaf "wireframe" (boolText (s.PolygonMode = GL_LINE))] else []) ++
  (if !s.CullFace then [XmlNode.leaf "cull" (boolText s.CullFace)] else []) ++
  (if s.CullFaceType ≠ GL_BACK then [XmlNode.leaf "cullfront" (boolText true)] else []) ++
  (if s.FrontFace ≠ GL_CCW then [XmlNode.leaf "ccw" (boolText false)] else [])

/-- The blend children `SaveAs` writes for a render state: none unless blending is on. -/
def SaveAs_blend {F : Type} (N : Names) (T : FloatText F) (s : RenderState F) :
    List XmlNode :=
  if s.Blend then
    [XmlNode.leaf "blend" (boolText true)] ++
    (if s.AlphaToCoverage then [XmlNode.leaf "alpha2coverage" (boolText true)] else []) ++
    [XmlNode.leaf "colorsrcfactor" (N.BlendFactor s.BlendSourceFactorRGB),
     XmlNode.leaf "colordstfactor" (N.BlendFactor s.BlendDestinationFactorRGB),
     XmlNode.leaf "colorfunc" (N.BlendFunction s.BlendFunctionColor),
     XmlNode.leaf "alphasrcfactor" (N.BlendFactor s.BlendSourceFactorAlpha),
     XmlNode.leaf "alphadstfactor" (N.BlendFactor s.BlendDestinationFactorAlpha),
     XmlNode.leaf "alphafunc" (N.BlendFunction s.BlendFunctionAlpha),
     XmlNode.leaf "blendfactor_r" (T.set s.BlendFactor.r),
     XmlNode.leaf "blendfactor_g" (T.set s.BlendFactor.g),
     XmlNode.leaf "blendfactor_b" (T.set s.BlendFactor.b),
     XmlNode.leaf "blendfactor_a" (T.set s.BlendFactor.a)]
  else []

/-- The depth children `SaveAs` writes for a render state: none unless the depth test is
on. -/
def SaveAs_depth {F : Type} (N : Names) (T : FloatText F) (s : RenderState F) :
    List XmlNode :=
  if s.DepthTest then
    [XmlNode.leaf "depthtest" (boolText true),
     XmlNode.leaf "depthclamp" (boolText s.DepthClamp),
     XmlNode.leaf "depthmask" (boolText s.DepthMask),
     XmlNode.leaf "depthfunc" (N.ComparisonFunction s.DepthFunction),
     XmlNode.leaf "depthbias" (T.set s.DepthBias)]
  else []

/-- The stencil children `SaveAs` writes for a render state: none unless the stencil test
is on. -/
def SaveAs_stencil {F : Type} (N : Names) (s : RenderState F) : List XmlNode :=
  if s.StencilTest then
    [XmlNode.leaf "stenciltest" (boolText true),
     XmlNode.leaf "stencilmask" (natText s.StencilMask),
     XmlNode.leaf "stencilref" (natText s.StencilReference),
     XmlNode.leaf "stencilfrontfunc" (N.ComparisonFunction s.StencilFrontFaceFunction),
     XmlNode.leaf "stencilbackfunc" (N.ComparisonFunction s.StencilBackFaceFunction),
     XmlNode.leaf "stencilfrontpass" (N.StencilOperation s.StencilFrontFaceOpPass),
     XmlNode.leaf "stencilbackpass" (N.StencilOperation s.StencilBackFaceOpPass),
     XmlNode.leaf "stencilfrontfail" (N.StencilOperation s.StencilFrontFaceOpStencilFail),
     XmlNode.leaf "stencilbackfail" (N.StencilOperation s.StencilBackFaceOpStencilFail),
     XmlNode.leaf "depthfrontfail" (N.StencilOperation s.StencilFrontFaceOpDepthFail),
     XmlNode.leaf "depthbackfail" (N.StencilOperation s.StencilBackFaceOpDepthFail)]
  else []

/-- The `item` node `SaveAs` writes for a render state item. -/
def SaveAs_renderState {F : Type} (N : Names) (T : FloatText F) (itemName : String)
    (s : RenderState F) : XmlNode :=
  XmlNode.mk "item" [("name", itemName), ("type", "renderstate")] ""
    (SaveAs_rasterizer s ++ SaveAs_blend N T s ++ SaveAs_depth N T s ++ SaveAs_stencil N s)

/-- The chain of comparisons `m_parseV2` applies to one child of a render state item. -/
def m_parseV2_renderStateAttr {F : Type} (N : Names) (T : FloatText F)
    (tData : RenderState F) (attrNode : XmlNode) : RenderState F :=
  if attrNode.name = "wireframe" then
    { tData with PolygonMode := if textAsBool attrNode.text then GL_LINE else GL_FILL }
  else if attrNode.name = "cull" then
    { tData with CullFace := textAsBool attrNode.text }
  else if attrNode.name = "cullfront" then
    { tData with CullFaceType := if textAsBool attrNode.text then GL_FRONT else GL_BACK }
  else if attrNode.name = "ccw" then
    { tData with FrontFace := if textAsBool attrNode.text then GL_CCW else GL_CW }
  else if attrNode.name = "blend" then
    { tData with Blend := textAsBool attrNode.text }
  else if attrNode.name = "colorsrcfactor" then
    { tData with BlendSourceFactorRGB := m_toBlend N attrNode.text }
  else if attrNode.name = "colorfunc" then
    { tData with BlendFunctionColor := m_toBlendOp N attrNode.text }
  else if attrNode.name = "colordstfactor" then
    { tData with BlendDestinationFactorRGB := m_toBlend N attrNode.text }
  else if attrNode.name = "alphasrcfactor" then
    { tData with BlendSourceFactorAlpha := m_toBlend N attrNode.text }
  else if attrNode.name = "alphafunc" then
    { tData with BlendFunctionAlpha := m_toBlendOp N attrNode.text }
  else if attrNode.name = "alphadstfactor" then
    { tData with BlendDestinationFactorAlpha := m_toBlend N attrNode.text }
  else if attrNode.name = "alpha2coverage" then
    { tData with AlphaToCoverage := textAsBool attrNode.text }
  else if attrNode.name = "blendfactor_r" then
    { tData with BlendFactor :=
        { tData.BlendFactor with r := T.ofInt (textAsUInt attrNode.text) } }
  else if attrNode.name = "blendfactor_g" then
    { tData with BlendFactor :=
        { tData.BlendFactor with g := T.ofInt (textAsUInt attrNode.text) } }
  else if attrNode.name = "blendfactor_b" then
    { tData with BlendFactor :=
        { tData.BlendFactor with b := T.ofInt (textAsUInt attrNode.text) } }
  else if attrNode.name = "blendfactor_a" then
    { tData with BlendFactor :=
        { tData.BlendFactor with a := T.ofInt (textAsUInt attrNode.text) } }
  else if attrNode.name = "depthtest" then
    { tData with DepthTest := textAsBool attrNode.text }
  else if attrNode.name = "depthfunc" then
    { tData with DepthFunction := m_toComparisonFunc N attrNode.text }
  else if attrNode.name = "depthbias" then
    { tData with DepthBias := T.as_float attrNode.text }
  else if attrNode.name = "depthclamp" then
    { tData with DepthClamp := textAsBool attrNode.text }
  else if attrNode.name = "depthmask" then
    { tData with DepthMask := textAsBool attrNode.text }
  else if attrNode.name = "stenciltest" then
    { tData with StencilTest := textAsBool attrNode.text }
  else if attrNode.name = "stencilmask" then
    { tData with StencilMask := textAsUInt attrNode.text }
  else if attrNode.name = "stencilref" then
    { tData with StencilReference := textAsUInt attrNode.text }
  else if attrNode.name = "stencilfrontfunc" then
    { tData with StencilFrontFaceFunction := m_toComparisonFunc N attrNode.text }
  else if attrNode.name = "stencilfrontpass" then
    { tData with StencilFrontFaceOpPass := m_toStencilOp N attrNode.text }
  else if attrNode.name = "stencilfrontfail" then
    { tData with StencilFrontFaceOpStencilFail := m_toStencilOp N attrNode.text }
  else if attrNode.name = "stencilbackfunc" then
    { tData with StencilBackFaceFunction := m_toComparisonFunc N attrNode.text }
  else if attrNode.name = "stencilbackpass" then
    { tData with StencilBackFaceOpPass := m_toStencilOp N attrNode.text }
  else if attrNode.name = "stencilbackfail" then
    { tData with StencilBackFaceOpStencilFail := m_toStencilOp N attrNode.text }
  else if attrNode.name = "depthfrontfail" then
    { tData with StencilFrontFaceOpDepthFail := m_toStencilOp N attrNode.text }
  else if attrNode.name = "depthbackfail" then
    { tData with StencilBackFaceOpDepthFail := m_toStencilOp N attrNode.text }
  else tData

/-- The `renderstate` branch of the item loop of `m_parseV2`: a fresh record, built by
the constructor of `pipe::RenderState`, receives the children of the item in document
order. The constructor is declared outside `src/`; the record it builds is the argument
`fresh`. -/
def m_parseV2_renderState {F : Type} (N : Names) (T : FloatText F) (fresh : RenderState F)
    (itemNode : XmlNode) : RenderState F :=
  itemNode.children.foldl (m_parseV2_renderStateAttr N T) fresh

/-- The defaults the writer relies on when it omits a child: fill mode, culling on, back
faces culled, counter clockwise front, and blending, alpha to coverage, depth test and
stencil test off. -/
def RenderState.WriterDefaults {F : Type} (fresh : RenderState F) : Prop :=
  fresh.PolygonMode = GL_FILL ∧ fresh.CullFace = true ∧ fresh.CullFaceType = GL_BACK ∧
  fresh.FrontFace = GL_CCW ∧ fresh.Blend = false ∧ fresh.AlphaToCoverage = false ∧
  fresh.DepthTest = false ∧ fresh.StencilTest = false

/-- The blend fields of two records agree (the constant colour apart). -/
def RenderState.SameBlend {F : Type} (s t : RenderState F) : Prop :=
  s.AlphaToCoverage = t.AlphaToCoverage ∧
  s.BlendSourceFactorRGB = t.BlendSourceFactorRGB ∧
  s.BlendDestinationFactorRGB = t.BlendDestinationFactorRGB ∧
  s.BlendFunctionColor = t.BlendFunctionColor ∧
  s.BlendSourceFactorAlpha = t.BlendSourceFactorAlpha ∧
  s.BlendDestinationFactorAlpha = t.BlendDestinationFactorAlpha ∧
  s.BlendFunctionAlpha = t.BlendFunctionAlpha

/-- The depth fields of two records agree. -/
def RenderState.SameDepth {F : Type} (s t : RenderState F) : Prop :=
  s.DepthClamp = t.DepthClamp ∧ s.DepthMask = t.DepthMask ∧
  s.DepthFunction = t.DepthFunction ∧ s.DepthBias = t.DepthBias

/-- The stencil fields of two records agree. -/
def RenderState.SameStencil {F : Type} (s t : RenderState F) : Prop :=
  s.StencilMask = t.StencilMask ∧ s.StencilReference = t.StencilReference ∧
  s.StencilFrontFaceFunction = t.StencilFrontFaceFunction ∧
  s.StencilBackFaceFunction = t.StencilBackFaceFunction ∧
  s.StencilFrontFaceOpPass = t.StencilFrontFaceOpPass ∧
  s.StencilBackFaceOpPass = t.StencilBackFaceOpPass ∧
  s.StencilFrontFaceOpStencilFail = t.StencilFrontFaceOpStencilFail ∧
  s.StencilBackFaceOpStencilFail = t.StencilBackFaceOpStencilFail ∧
  s.StencilFrontFaceOpDepthFail = t.StencilFrontFaceOpDepthFail ∧
  s.StencilBackFaceOpDepthFail = t.StencilBackFaceOpDepthFail

/-- The names the writer emits for the enabled groups of a record are read back to the
values they were written from, and so are the depth bias and the stencil numbers. -/
def RenderState.TextReadsBack {F : Type} (N : Names) (T : FloatText F) (s : RenderState F) :
    Prop :=
  (s.Blend = true →
    m_toBlend N (N.BlendFactor s.BlendSourceFactorRGB) = s.BlendSourceFactorRGB ∧
    m_toBlend N (N.BlendFactor s.BlendDestinationFactorRGB) = s.BlendDestinationFactorRGB ∧
    m_toBlendOp N (N.BlendFunction s.BlendFunctionColor) = s.BlendFunctionColor ∧
    m_toBlend N (N.BlendFactor s.BlendSourceFactorAlpha) = s.BlendSourceFactorAlpha ∧
    m_toBlend N (N.BlendFactor s.BlendDestinationFactorAlpha)
      = s.BlendDestinationFactorAlpha ∧
    m_toBlendOp N (N.BlendFunction s.BlendFunctionAlpha) = s.BlendFunctionAlpha) ∧
  (s.DepthTest = true →
    m_toComparisonFunc N (N.ComparisonFunction s.DepthFunction) = s.DepthFunction ∧
    T.as_float (T.set s.DepthBias) = s.DepthBias) ∧
  (s.StencilTest = true →
    s.StencilMask ≤ UINT_MAX ∧ s.StencilReference ≤ UINT_MAX ∧
    m_toComparisonFunc N (N.ComparisonFunction s.StencilFrontFaceFunction)
      = s.StencilFrontFaceFunction ∧
    m_toComparisonFunc N (N.ComparisonFunction s.StencilBackFaceFunction)
      = s.StencilBackFaceFunction ∧
    m_toStencilOp N (N.StencilOperation s.StencilFrontFaceOpPass)
      = s.StencilFrontFaceOpPass ∧
    m_toStencilOp N (N.StencilOperation s.StencilBackFaceOpPass)
      = s.StencilBackFaceOpPass ∧
    m_toStencilOp N (N.StencilOperation s.StencilFrontFaceOpStencilFail)
      = s.StencilFrontFaceOpStencilFail ∧
    m_toStencilOp N (N.StencilOperation s.StencilBackFaceOpStencilFail)
      = s.StencilBackFaceOpStencilFail ∧
    m_toStencilOp N (N.StencilOperation s.StencilFrontFaceOpDepthFail)
      = s.StencilFrontFaceOpDepthFail ∧
    m_toStencilOp N (N.StencilOperation s.StencilBackFaceOpDepthFail)
      = s.StencilBackFaceOpDepthFail)

/-- A record the writer represents in full, against a fresh record: its polygon mode is
fill or line, its culled face back or front, its winding counter clockwise or clockwise,
and the fields of every group that is switched off equal those of the fresh record. -/
def RenderState.Representable {F : Type} (fresh s : RenderState F) : Prop :=
  (s.PolygonMode = GL_FILL ∨ s.PolygonMode = GL_LINE) ∧
  (s.CullFaceType = GL_BACK ∨ s.CullFaceType = GL_FRONT) ∧
  (s.FrontFace = GL_CCW ∨ s.FrontFace = GL_CW) ∧
  (s.Blend = false → s.SameBlend fresh) ∧
  (s.DepthTest = false → s.SameDepth fresh) ∧
  (s.StencilTest = false → s.SameStencil fresh)

/-! ## Shader variables and their value grid -/

/-- The enumeration `ShaderVariable::ValueType`. -/
inductive ValueType where
  | Boolean1 | Boolean2 | Boolean3 | Boolean4
  | Integer1 | Integer2 | Integer3 | Integer4
  | Float1 | Float2 | Float3 | Float4
  | Float2x2 | Float3x3 | Float4x4
deriving DecidableEq

namespace ValueType

/-- The test `type >= Boolean1 && type <= Boolean4`. -/
def isBoolean : ValueType → Bool
  | Boolean1 | Boolean2 | Boolean3 | Boolean4 => true
  | _ => false

/-- The test `type >= Integer1 && type <= Integer4`. -/
def isInteger : ValueType → Bool
  | Integer1 | Integer2 | Integer3 | Integer4 => true
  | _ => false

/-- Modelled from the spec: `ShaderVariable::GetColumnCount` is declared outside `src/`.
A vector of arity N has N columns, a matrix N by N has N columns. -/
def GetColumnCount : ValueType → Nat
  | Boolean1 | Integer1 | Float1 => 1
  | Boolean2 | Integer2 | Float2 | Float2x2 => 2
  | Boolean3 | Integer3 | Float3 | Float3x3 => 3
  | Boolean4 | Integer4 | Float4 | Float4x4 => 4

/-- Modelled from the spec: `ShaderVariable::GetSize` is declared outside `src/`. The size
in bytes of a value: four bytes for each scalar cell, N cells for a vector of arity N and
N times N cells for a matrix. -/
def GetSize : ValueType → Nat
  | Boolean1 | Integer1 | Float1 => 4
  | Boolean2 | Integer2 | Float2 => 8
  | Boolean3 | Integer3 | Float3 => 12
  | Boolean4 | Integer4 | Float4 => 16
  | Float2x2 => 16
  | Float3x3 => 36
  | Float4x4 => 64

end ValueType

/-- The enumeration `FunctionShaderVariable`, as far as the parser tells its values
apart: none, the pointer function, and any other function by its number. -/
inductive FunctionShaderVariable where
  | None
  | Pointer
  | Other (id : Nat)
deriving DecidableEq

/-- Modelled from the spec: the class `ShaderVariable` is declared outside `src/`. The
value is a grid of scalar cells addressed by (column, row) for float types (`AsFloat`,
`SetFloat`) and by component index for boolean and integer vectors (`AsBoolean`,
`SetBooleanValue`, `AsInteger`, `SetIntegerValue`); a function variable keeps its
arguments instead, read as floats (`LoadFloat`) or as one string. -/
structure ShaderVariable (F : Type) where
  type : ValueType
  Function : FunctionShaderVariable
  bools : Nat → Bool
  ints : Nat → Int
  floats : Nat → Nat → F
  argFloats : Nat → F
  argString : String

/-- A variable as the constructor leaves it: every cell zero. -/
def ShaderVariable.fresh {F : Type} (T : FloatText F) (type : ValueType)
    (func : FunctionShaderVariable) : ShaderVariable F :=
  { type := type
    Function := func
    bools := fun _ => false
    ints := fun _ => 0
    floats := fun _ _ => T.ofInt 0
    argFloats := fun _ => T.ofInt 0
    argString := "" }

/-! ## `m_exportVariableValue` and `m_parseVariableValue` -/

/-- The state of the loop of `m_exportVariableValue`: the rows already left behind, the
values appended so far to the row `valueRowNode` points to, and `rowID`. -/
structure ExportState where
  done : List (List XmlNode)
  current : List XmlNode
  rowID : Nat

/-- One round of the loop of `m_exportVariableValue` for the index `i`: a `value` child
is appended to the current row; then, when `i % columns == 0 && i != 0`, a new row is
opened and `rowID` goes up. -/
def m_exportVariableValue_step {F : Type} (T : FloatText F) (var : ShaderVariable F)
    (st : ExportState) (i : Nat) : ExportState :=
  let text :=
    if var.type.isBoolean then boolText (var.bools i)
    else if var.type.isInteger then intText (var.ints i)
    else T.set (var.floats (i % var.type.GetColumnCount) st.rowID)
  let current := st.current ++ [XmlNode.leaf "value" text]
  if i % var.type.GetColumnCount = 0 ∧ i ≠ 0 then
    { done := st.done ++ [current], current := [], rowID := st.rowID + 1 }
  else
    { st with current := current }

/-- The function `m_exportVariableValue`: the `row` nodes it appends to `node`, in the
order they are appended. `GetArgumentCount` is the function of
`FunctionVariableManager`. -/
def m_exportVariableValue {F : Type} (T : FloatText F)
    (GetArgumentCount : FunctionShaderVariable → Nat) (var : ShaderVariable F) :
    List XmlNode :=
  if var.Function = FunctionShaderVariable.None then
    let st := (List.range (var.type.GetSize / 4)).foldl (m_exportVariableValue_step T var)
      { done := [], current := [], rowID := 0 }
    (st.done ++ [st.current]).map (fun values => XmlNode.mk "row" [] "" values)
  else if var.Function = FunctionShaderVariable.Pointer then
    [XmlNode.mk "row" [] "" [XmlNode.leaf "value" var.argString]]
  else
    [XmlNode.mk "row" [] ""
      ((List.range (GetArgumentCount var.Function)).map
        (fun i => XmlNode.leaf "value" (T.set (var.argFloats i))))]

/-- The body of the inner loop of `m_parseVariableValue` for one `value` node: the
variable after the store and the new `colID`. -/
def m_parseVariableValue_value {F : Type} (T : FloatText F) (rowID : Nat)
    (acc : ShaderVariable F × Nat) (value : XmlNode) : ShaderVariable F × Nat :=
  let var := acc.1
  let colID := acc.2
  if var.Function ≠ FunctionShaderVariable.None then
    if var.Function = FunctionShaderVariable.Pointer then
      ({ var with argString := value.text }, colID)
    else
      ({ var with argFloats := Function.update var.argFloats colID (T.as_float value.text) },
        colID + 1)
  else if var.type.isBoolean then
    ({ var with bools := Function.update var.bools colID (textAsBool value.text) },
      colID + 1)
  else if var.type.isInteger then
    ({ var with ints := Function.update var.ints colID (textAsInt value.text) }, colID + 1)
  else
    ({ var with
        floats := Function.update var.floats colID
          (Function.update (var.floats colID) rowID (T.as_float value.text)) },
      colID + 1)

/-- The function `m_parseVariableValue`: every `row` child in order, with `rowID` counting
the rows, and in each row every `value` child in order, with `colID` starting at 0. -/
def m_parseVariableValue {F : Type} (T : FloatText F) (node : XmlNode)
    (var : ShaderVariable F) : ShaderVariable F :=
  ((node.childrenNamed "row").foldl
    (fun (acc : ShaderVariable F × Nat) row =>
      (((row.childrenNamed "value").foldl (m_parseVariableValue_value T acc.2)
          (acc.1, 0)).1, acc.2 + 1))
    (var, 0)).1

/-- Writing a value and reading it into a fresh variable of the same type: the node that
receives the rows is a `variable` node without other children. -/
def valueWrittenThenRead {F : Type} (T : FloatText F)
    (GetArgumentCount : FunctionShaderVariable → Nat) (var : ShaderVariable F) :
    ShaderVariable F :=
  m_parseVariableValue T
    (XmlNode.mk "variable" [] "" (m_exportVariableValue T GetArgumentCount var))
    (ShaderVariable.fresh T var.type var.Function)

/-! ## Invariant of the object loop -/

/-- Every name of the table that is not empty has been created by a call. -/
def NamesCreated (calls : List RegCall) (m : BindMap) : Prop :=
  ∀ e ∈ m, ∀ n ∈ e.2, n ≠ "" → ∃ c ∈ calls, c.createsName n = true

/-- The invariant of the object loop: no resolving call has been issued, the keys of both
tables are distinct, and every recorded name has been created. -/
def ObjectsPhase.Inv (st : ObjectsPhase) : Prop :=
  (∀ c ∈ st.calls, c.isResolve = false) ∧
  (st.boundTextures.map Prod.fst).Nodup ∧
  (st.boundUBOs.map Prod.fst).Nodup ∧
  NamesCreated st.calls st.boundTextures ∧
  NamesCreated st.calls st.boundUBOs

/-! ## Concrete inputs

Small values on which the embedding is run in the examples that accompany the theorems. -/

/-- Floats that hold whole numbers: the text of such a float is its decimal form. -/
def wholeFloats : FloatText Int :=
  { set := intText
    as_float := textAsInt
    to_string := intText
    ofInt := id
    div := fun a b => a / b }

/-- A document whose root `project` carries the given `version` attribute, or none. -/
def docOfVersion (version : Option String) : XmlNode :=
  XmlNode.mk "" [] ""
    [XmlNode.mk "project"
      (match version with
       | some v => [("version", v)]
       | none => []) "" []]

/-- A loaded project: one pass, one texture bound to it. -/
def loadedProject : ProjectState Int :=
  { m_file := "old/project.sprj"
    m_projectPath := "old"
    m_msgs := []
    m_models := []
    pipe := [{ ptr := 100, Name := "Main" }]
    objects :=
      { objects := [{ name := "tex.png", tex := 7, kind := ObjectKind.texture }]
        bindList := [(100, [7])]
        uniformBindList := [] }
    FPCamera := false
    ClearColor := ⟨0, 0, 0, 0⟩
    systemResets := 0
    log := [] }

/-- A reader that only leaves its mark in the message stack. -/
def markReader (mark : String) (_ : Option XmlNode) (s : ProjectState Int) :
    ProjectState Int :=
  { s with m_msgs := s.m_msgs ++ [(mark, "")] }

/-- Name tables with one entry each, enough to run the writer and the reader. -/
def sampleNames : Names :=
  { BLEND_NAMES := ["One"]
    BLEND_VALUES := [1]
    BLEND_OPERATOR_NAMES := ["Add"]
    BLEND_OPERATOR_VALUES := [GL_FUNC_ADD]
    COMPARISON_FUNCTION_NAMES := ["Always"]
    COMPARISON_FUNCTION_VALUES := [GL_ALWAYS]
    STENCIL_OPERATION_NAMES := ["Keep"]
    STENCIL_OPERATION_VALUES := [GL_KEEP]
    CULL_MODE_NAMES := ["Back"]
    CULL_MODE_VALUES := [GL_BACK]
    FORMAT_NAMES := ["RGBA"]
    FORMAT_VALUES := [GL_RGBA]
    BlendFactor := fun _ => "One"
    BlendFunction := fun _ => "Add"
    ComparisonFunction := fun _ => "Always"
    StencilOperation := fun _ => "Keep"
    Format := fun _ => "RGBA" }

/-- The pipeline list of a project with the single pass `Main`. -/
def mainPass : List PipelineItem := [{ ptr := 100, Name := "Main" }]

/-- A version 2 project in which the pass `Main` renders to `rt` and binds a texture, the
render texture `rt` and a buffer; the texture is bound at slot 1, the others at slot 0. -/
def sampleProject : XmlNode :=
  XmlNode.mk "project" [("version", "2")] ""
    [XmlNode.mk "pipeline" [] ""
      [XmlNode.mk "pass" [("name", "Main")] ""
        [XmlNode.mk "rendertexture" [("name", "rt")] "" []]],
     XmlNode.mk "objects" [] ""
      [XmlNode.mk "object" [("type", "texture"), ("path", "tex.png")] ""
        [XmlNode.mk "bind" [("slot", "1"), ("name", "Main")] "" []],
       XmlNode.mk "object" [("type", "rendertexture"), ("name", "rt"), ("rsize", "1,1")] ""
        [XmlNode.mk "bind" [("slot", "0"), ("name", "Main")] "" []],
       XmlNode.mk "object" [("type", "buffer"), ("name", "buf")] ""
        [XmlNode.mk "bind" [("slot", "0"), ("name", "Main")] "" []]]]

/-- A registry that holds one texture bound to no pass. -/
def unboundTexture : ObjectManager Int :=
  { objects := [{ name := "tex.png", tex := 7, kind := ObjectKind.texture }]
    bindList := []
    uniformBindList := [] }

/-- A registry that holds one cubemap with six different faces, bound to slot 0 of the
pass `Main`. -/
def boundCubemap : ObjectManager Int :=
  { objects :=
      [{ name := "sky", tex := 9,
         kind := ObjectKind.cubemap
          ["left.png", "top.png", "front.png", "bottom.png", "right.png", "back.png"] }]
    bindList := [(100, [9])]
    uniformBindList := [] }

/-- A fresh render state with the defaults the writer relies on. -/
def freshRenderState : RenderState Int :=
  { PolygonMode := GL_FILL, CullFace := true, CullFaceType := GL_BACK, FrontFace := GL_CCW
    Blend := false, AlphaToCoverage := false
    BlendSourceFactorRGB := 1, BlendDestinationFactorRGB := 1
    BlendFunctionColor := GL_FUNC_ADD
    BlendSourceFactorAlpha := 1, BlendDestinationFactorAlpha := 1
    BlendFunctionAlpha := GL_FUNC_ADD
    BlendFactor := ⟨0, 0, 0, 0⟩
    DepthTest := false, DepthClamp := false, DepthMask := true
    DepthFunction := GL_ALWAYS, DepthBias := 0
    StencilTest := false, StencilMask := 0, StencilReference := 0
    StencilFrontFaceFunction := GL_ALWAYS, StencilBackFaceFunction := GL_ALWAYS
    StencilFrontFaceOpPass := GL_KEEP, StencilBackFaceOpPass := GL_KEEP
    StencilFrontFaceOpStencilFail := GL_KEEP, StencilBackFaceOpStencilFail := GL_KEEP
    StencilFrontFaceOpDepthFail := GL_KEEP, StencilBackFaceOpDepthFail := GL_KEEP }

/-- A render state in wireframe, without culling, with blending and the stencil test on
and the depth test off. -/
def wireBlendStencil : RenderState Int :=
  { freshRenderState with
    PolygonMode := GL_LINE, CullFace := false, CullFaceType := GL_FRONT, FrontFace := GL_CW
    Blend := true, AlphaToCoverage := true
    BlendFactor := ⟨1, 2, 3, 4⟩
    StencilTest := true, StencilMask := 255, StencilReference := 1 }

/-- No function takes arguments. -/
def noArguments (_ : FunctionShaderVariable) : Nat := 0

/-- A variable of the given type whose float cell at column c, row r holds 10 r + c + 1,
whose integer component i holds i + 1 and whose boolean components are true. -/
def gridVariable (type : ValueType) : ShaderVariable Int :=
  { type := type
    Function := FunctionShaderVariable.None
    bools := fun _ => true
    ints := fun i => i + 1
    floats := fun c r => 10 * r + c + 1
    argFloats := fun _ => 0
    argString := "" }

/-- The texts of the values of each row of a written value. -/
def rowTexts (rows : List XmlNode) : List (List String) :=
  rows.map (fun row => (row.childrenNamed "value").map XmlNode.text)

/-! ## Shape of the name lookups -/

/-- The shape shared by the five lookups: the value paired with the first entry whose
name equals the text, and the fixed default when no entry has that name. -/
def LooksUp (names : List String) (values : List GLenum) (dflt : GLenum)
    (f : String → GLenum) : Prop :=
  (∀ (text : String) (k : Nat) (v : GLenum), names[k]? = some text →
    (∀ j, j < k → names[j]? ≠ some text) → values[k]? = some v → f text = v) ∧
  (∀ text : String, text ∉ names → f text = dflt)

/-- Name tables in which the blend table lists the name `One` twice. -/
def twoBlendNames : Names :=
  { sampleNames with
    BLEND_NAMES := ["One", "Zero", "One"]
    BLEND_VALUES := [1, 0, 2] }

/-! ## Geometry and model items: writer and v2 reader -/

/-- A `glm::vec3`. -/
structure Vec3 (F : Type) where
  x : F
  y : F
  z : F
deriving DecidableEq

/-- The tables of `Names.h` the item branches consult: geometry names by geometry type,
and topology names with their values. -/
structure ItemNames where
  GEOMETRY_NAMES : List String
  TOPOLOGY_ITEM_NAMES : List String
  TOPOLOGY_ITEM_VALUES : List GLenum

/-- The record `pipe::GeometryItem`, with the fields the parser reads and writes; the
geometry type is its number in the enumeration. -/
structure GeometryItem (F : Type) where
  GeometryType : Nat
  Size : Vec3 F
  Scale : Vec3 F
  Rotation : Vec3 F
  Position : Vec3 F
  Topology : GLenum

/-- The record `pipe::Model`, with the fields the parser reads and writes. -/
structure Model (F : Type) where
  Filename : String
  GroupName : String
  OnlyGroup : Bool
  Scale : Vec3 F
  Rotation : Vec3 F
  Position : Vec3 F

/-- A child written only when the value differs from its default:
`if (v != d) itemNode.append_child(name).text().set(v)`. -/
def SaveAs_unlessDefault {F : Type} [DecidableEq F] (T : FloatText F) (name : String)
    (v d : F) : List XmlNode :=
  if v ≠ d then [XmlNode.leaf name (T.set v)] else []

/-- The nine transform children `SaveAs` writes for a geometry item and for a model, in
the order of the source: scale (default 1), then roll from `Rotation.z`, pitch from
`Rotation.x`, yaw from `Rotation.y` (default 0), then position (default 0). -/
def SaveAs_transform {F : Type} [DecidableEq F] (T : FloatText F)
    (Scale Rotation Position : Vec3 F) : List XmlNode :=
  SaveAs_unlessDefault T "scaleX" Scale.x (T.ofInt 1) ++
  SaveAs_unlessDefault T "scaleY" Scale.y (T.ofInt 1) ++
  SaveAs_unlessDefault T "scaleZ" Scale.z (T.ofInt 1) ++
  SaveAs_unlessDefault T "roll" Rotation.z (T.ofInt 0) ++
  SaveAs_unlessDefault T "pitch" Rotation.x (T.ofInt 0) ++
  SaveAs_unlessDefault T "yaw" Rotation.y (T.ofInt 0) ++
  SaveAs_unlessDefault T "x" Position.x (T.ofInt 0) ++
  SaveAs_unlessDefault T "y" Position.y (T.ofInt 0) ++
  SaveAs_unlessDefault T "z" Position.z (T.ofInt 0)

/-- The loop that writes the topology: the name at the first index whose value equals
the topology, nothing when no value does. -/
def SaveAs_topology : List String → List GLenum → GLenum → List XmlNode
  | n :: ns, v :: vs, topology =>
    if v = topology then [XmlNode.leaf "topology" n] else SaveAs_topology ns vs topology
  | _, _, _ => []

/-- The `item` node `SaveAs` writes for a geometry item. -/
def SaveAs_geometry {F : Type} [DecidableEq F] (I : ItemNames) (T : FloatText F)
    (itemName : String) (tData : GeometryItem F) : XmlNode :=
  XmlNode.mk "item" [("name", itemName), ("type", "geometry")] ""
    ([XmlNode.leaf "type" (I.GEOMETRY_NAMES.getD tData.GeometryType ""),
      XmlNode.leaf "width" (T.set tData.Size.x),
      XmlNode.leaf "height" (T.set tData.Size.y),
      XmlNode.leaf "depth" (T.set tData.Size.z)] ++
     SaveAs_transform T tData.Scale tData.Rotation tData.Position ++
     SaveAs_topology I.TOPOLOGY_ITEM_NAMES I.TOPOLOGY_ITEM_VALUES tData.Topology)

/-- The text `oldProjectPath + (ends with a slash ? "" : "/") + path`. -/
def underProject (oldProjectPath path : String) : String :=
  oldProjectPath ++ (if oldProjectPath.data.getLast? = some '/' then "" else "/") ++ path

/-- The `item` node `SaveAs` writes for a model. `GetRelativePath` is the member function
of that name, which asks the file system. -/
def SaveAs_model {F : Type} [DecidableEq F] (T : FloatText F)
    (GetRelativePath : String → String) (oldProjectPath : String) (itemName : String)
    (data : Model F) : XmlNode :=
  XmlNode.mk "item" [("name", itemName), ("type", "model")] ""
    ([XmlNode.leaf "filepath" (GetRelativePath (underProject oldProjectPath data.Filename)),
      XmlNode.leaf "grouponly" (boolText data.OnlyGroup)] ++
     (if data.OnlyGroup then [XmlNode.leaf "group" data.GroupName] else []) ++
     SaveAs_transform T data.Scale data.Rotation data.Position)

/-- The loop `for k: if (strcmp(text, NAMES[k]) == 0) Topology = VALUES[k]`, which does
not stop at the first match. -/
def lastValue : List String → List GLenum → String → GLenum → GLenum
  | n :: ns, v :: vs, text, acc => lastValue ns vs text (if text = n then v else acc)
  | _, _, _, acc => acc

/-- The loop `for k: if (strcmp(text, GEOMETRY_NAMES[k]) == 0) Type = k`. -/
def lastIndex : List String → String → Nat → Nat → Nat
  | n :: ns, text, k, acc => lastIndex ns text (k + 1) (if text = n then k else acc)
  | [], _, _, acc => acc

/-- The chain of comparisons `m_parseV2` applies to one child of a geometry item. -/
def m_parseV2_geometryAttr {F : Type} (I : ItemNames) (T : FloatText F)
    (tData : GeometryItem F) (attrNode : XmlNode) : GeometryItem F :=
  if attrNode.name = "width" then
    { tData with Size := { tData.Size with x := T.as_float attrNode.text } }
  else if attrNode.name = "height" then
    { tData with Size := { tData.Size with y := T.as_float attrNode.text } }
  else if attrNode.name = "depth" then
    { tData with Size := { tData.Size with z := T.as_float attrNode.text } }
  else if attrNode.name = "scaleX" then
    { tData with Scale := { tData.Scale with x := T.as_float attrNode.text } }
  else if attrNode.name = "scaleY" then
    { tData with Scale := { tData.Scale with y := T.as_float attrNode.text } }
  else if attrNode.name = "scaleZ" then
    { tData with Scale := { tData.Scale with z := T.as_float attrNode.text } }
  else if attrNode.name = "roll" then
    { tData with Rotation := { tData.Rotation with z := T.as_float attrNode.text } }
  else if attrNode.name = "yaw" then
    { tData with Rotation := { tData.Rotation with y := T.as_float attrNode.text } }
  else if attrNode.name = "pitch" then
    { tData with Rotation := { tData.Rotation with x := T.as_float attrNode.text } }
  else if attrNode.name = "x" then
    { tData with Position := { tData.Position with x := T.as_float attrNode.text } }
  else if attrNode.name = "y" then
    { tData with Position := { tData.Position with y := T.as_float attrNode.text } }
  else if attrNode.name = "z" then
    { tData with Position := { tData.Position with z := T.as_float attrNode.text } }
  else if attrNode.name = "topology" then
    { tData with
      Topology := lastValue I.TOPOLOGY_ITEM_NAMES I.TOPOLOGY_ITEM_VALUES attrNode.text
        tData.Topology }
  else if attrNode.name = "type" then
    { tData with
      GeometryType := lastIndex I.GEOMETRY_NAMES attrNode.text 0 tData.GeometryType }
  else tData

/-- The `geometry` branch of the item loop of `m_parseV2`: the record built by the
constructor (argument `fresh`) gets scale 1, position 0 and rotation 0, then receives the
children of the item in document order. -/
def m_parseV2_geometry {F : Type} (I : ItemNames) (T : FloatText F)
    (fresh : GeometryItem F) (itemNode : XmlNode) : GeometryItem F :=
  itemNode.children.foldl (m_parseV2_geometryAttr I T)
    { fresh with
      Scale := ⟨T.ofInt 1, T.ofInt 1, T.ofInt 1⟩
      Position := ⟨T.ofInt 0, T.ofInt 0, T.ofInt 0⟩
      Rotation := ⟨T.ofInt 0, T.ofInt 0, T.ofInt 0⟩ }

/-- The chain of comparisons `m_parseV2` applies to one child of a model item. -/
def m_parseV2_modelAttr {F : Type} (T : FloatText F) (mdata : Model F)
    (attrNode : XmlNode) : Model F :=
  if attrNode.name = "filepath" then { mdata with Filename := attrNode.text }
  else if attrNode.name = "group" then { mdata with GroupName := attrNode.text }
  else if attrNode.name = "grouponly" then
    { mdata with OnlyGroup := textAsBool attrNode.text }
  else if attrNode.name = "scaleX" then
    { mdata with Scale := { mdata.Scale with x := T.as_float attrNode.text } }
  else if attrNode.name = "scaleY" then
    { mdata with Scale := { mdata.Scale with y := T.as_float attrNode.text } }
  else if attrNode.name = "scaleZ" then
    { mdata with Scale := { mdata.Scale with z := T.as_float attrNode.text } }
  else if attrNode.name = "roll" then
    { mdata with Rotation := { mdata.Rotation with z := T.as_float attrNode.text } }
  else if attrNode.name = "yaw" then
    { mdata with Rotation := { mdata.Rotation with y := T.as_float attrNode.text } }
  else if attrNode.name = "pitch" then
    { mdata with Rotation := { mdata.Rotation with x := T.as_float attrNode.text } }
  else if attrNode.name = "x" then
    { mdata with Position := { mdata.Position with x := T.as_float attrNode.text } }
  else if attrNode.name = "y" then
    { mdata with Position := { mdata.Position with y := T.as_float attrNode.text } }
  else if attrNode.name = "z" then
    { mdata with Position := { mdata.Position with z := T.as_float attrNode.text } }
  else mdata

/-- The `model` branch of the item loop of `m_parseV2`, up to the call of `LoadModel`:
the record built by the constructor (argument `fresh`) gets `OnlyGroup = false`, scale 1,
position 0 and rotation 0, receives the children of the item in document order, and a
file name that is not empty is normalised with `toGenericPath`. -/
def m_parseV2_model {F : Type} (T : FloatText F) (fresh : Model F) (itemNode : XmlNode) :
    Model F :=
  let mdata := itemNode.children.foldl (m_parseV2_modelAttr T)
    { fresh with
      OnlyGroup := false
      Scale := ⟨T.ofInt 1, T.ofInt 1, T.ofInt 1⟩
      Position := ⟨T.ofInt 0, T.ofInt 0, T.ofInt 0⟩
      Rotation := ⟨T.ofInt 0, T.ofInt 0, T.ofInt 0⟩ }
  if mdata.Filename.length > 0 then { mdata with Filename := toGenericPath mdata.Filename }
  else mdata

/-- Whether an item node has a child of the given name. -/
def XmlNode.hasChild (node : XmlNode) (name : String) : Prop :=
  ∃ c ∈ node.children, c.name = name

/-- The texts the writer emits for the three components read back to their values. -/
def Vec3.ReadsBack {F : Type} (T : FloatText F) (v : Vec3 F) : Prop :=
  T.as_float (T.set v.x) = v.x ∧ T.as_float (T.set v.y) = v.y ∧
  T.as_float (T.set v.z) = v.z

/-- The value a chain of children leaves in a component read under the given tag: the
converted text of the last child of that name, or the starting value. -/
def lastTagged {F : Type} (conv : String → F) (tag : String) (start : F)
    (children : List XmlNode) : F :=
  children.foldl (fun acc c => if c.name = tag then conv c.text else acc) start

/-- Scale, rotation and position of an item. -/
structure Transform (F : Type) where
  Scale : Vec3 F
  Rotation : Vec3 F
  Position : Vec3 F

def GeometryItem.transform {F : Type} (g : GeometryItem F) : Transform F :=
  ⟨g.Scale, g.Rotation, g.Position⟩

def Model.transform {F : Type} (m : Model F) : Transform F :=
  ⟨m.Scale, m.Rotation, m.Position⟩

/-- The names of the nine transform children. -/
def transformTags : List String :=
  ["scaleX", "scaleY", "scaleZ", "roll", "pitch", "yaw", "x", "y", "z"]

/-- The component a transform child stands for: the scale components, roll for
`Rotation.z`, pitch for `Rotation.x`, yaw for `Rotation.y`, and the position
components. -/
def Transform.component {F : Type} (t : Transform F) (tag : String) : F :=
  if tag = "scaleX" then t.Scale.x
  else if tag = "scaleY" then t.Scale.y
  else if tag = "scaleZ" then t.Scale.z
  else if tag = "roll" then t.Rotation.z
  else if tag = "pitch" then t.Rotation.x
  else if tag = "yaw" then t.Rotation.y
  else if tag = "x" then t.Position.x
  else if tag = "y" then t.Position.y
  else t.Position.z

/-- The default of a transform child: 1 for a scale component, 0 otherwise. -/
def transformDefault {F : Type} (T : FloatText F) (tag : String) : F :=
  if tag = "scaleX" ∨ tag = "scaleY" ∨ tag = "scaleZ" then T.ofInt 1 else T.ofInt 0

/-! ## Concrete items -/

/-- Item tables with two geometry names and two topologies. -/
def sampleItemNames : ItemNames :=
  { GEOMETRY_NAMES := ["Cube", "Sphere"]
    TOPOLOGY_ITEM_NAMES := ["TriangleList", "LineList"]
    TOPOLOGY_ITEM_VALUES := [4, 1] }

/-- A geometry record as a constructor might leave it. -/
def freshGeometry : GeometryItem Int :=
  { GeometryType := 0, Size := ⟨1, 1, 1⟩, Scale := ⟨9, 9, 9⟩, Rotation := ⟨9, 9, 9⟩
    Position := ⟨9, 9, 9⟩, Topology := 4 }

/-- A sphere scaled along x, rolled and moved along y; the other components are at their
defaults. -/
def movedSphere : GeometryItem Int :=
  { GeometryType := 1, Size := ⟨2, 2, 2⟩, Scale := ⟨3, 1, 1⟩, Rotation := ⟨0, 0, 45⟩
    Position := ⟨0, -7, 0⟩, Topology := 4 }

/-- A model record as a constructor might leave it. -/
def freshModel : Model Int :=
  { Filename := "", GroupName := "", OnlyGroup := true, Scale := ⟨9, 9, 9⟩
    Rotation := ⟨9, 9, 9⟩, Position := ⟨9, 9, 9⟩ }

/-- A model pitched and scaled along z. -/
def pitchedModel : Model Int :=
  { Filename := "mesh.obj", GroupName := "", OnlyGroup := false, Scale := ⟨1, 1, 2⟩
    Rotation := ⟨30, 0, 0⟩, Position := ⟨0, 0, 0⟩ }

/-! ## Variables of a pass: readers and writer -/

/-- The enumeration `SystemShaderVariable`, as far as the parser tells its values apart:
none, and any other system variable by its number. -/
inductive SystemShaderVariable where
  | None
  | Other (id : Nat)
deriving DecidableEq

/-- The tables of `Names.h` for variables, the numbering of the three enumerations they
are indexed by, and the functions of the variable managers the readers call. All of them
are declared outside `src/`. -/
structure VariableTables where
  VARIABLE_TYPE_NAMES : List String
  SYSTEM_VARIABLE_NAMES : List String
  FUNCTION_NAMES : List String
  valueTypeOf : Nat → ValueType
  systemOf : Nat → SystemShaderVariable
  functionOf : Nat → FunctionShaderVariable
  typeIndex : ValueType → Nat
  systemIndex : SystemShaderVariable → Nat
  functionIndex : FunctionShaderVariable → Nat
  GetType : SystemShaderVariable → ValueType
  HasValidReturnType : ValueType → FunctionShaderVariable → Bool
  GetArgumentCount : FunctionShaderVariable → Nat
  FlagInverse : Nat
  FlagLastFrame : Nat

/-- The loop `for i: if (strcmp(text, NAMES[i]) == 0) { ... = i; break; }`: the index of
the first name equal to the text. -/
def firstIndex : List String → String → Nat → Option Nat
  | n :: ns, text, i => if text = n then some i else firstIndex ns text (i + 1)
  | [], _, _ => none

/-- A variable of a pass: the value record of `ShaderVariable` together with its name, its
system source and its flags. -/
structure PassVariable (F : Type) where
  Name : String
  System : SystemShaderVariable
  Flags : Nat
  value : ShaderVariable F

/-- The local `type` of the variable loop: `Float1` unless the `type` attribute names an
entry of the type table. -/
def variableNodeType (V : VariableTables) (variableNode : XmlNode) : ValueType :=
  if !attrEmpty (variableNode.attr "type") then
    match firstIndex V.VARIABLE_TYPE_NAMES (as_string (variableNode.attr "type")) 0 with
    | some i => V.valueTypeOf i
    | none => ValueType.Float1
  else ValueType.Float1

/-- The local `system` of the variable loop: none unless the `system` attribute names an
entry of the system table whose type is the type of the variable. -/
def variableNodeSystem (V : VariableTables) (variableNode : XmlNode) :
    SystemShaderVariable :=
  if !attrEmpty (variableNode.attr "system") then
    let system :=
      match firstIndex V.SYSTEM_VARIABLE_NAMES (as_string (variableNode.attr "system")) 0 with
      | some i => V.systemOf i
      | none => SystemShaderVariable.None
    if V.GetType system ≠ variableNodeType V variableNode then SystemShaderVariable.None
    else system
  else SystemShaderVariable.None

/-- The local `func` of the variable loop: none unless the `function` attribute names an
entry of the function table, the variable has no system source and the function returns
the type of the variable. -/
def variableNodeFunction (V : VariableTables) (variableNode : XmlNode) :
    FunctionShaderVariable :=
  if !attrEmpty (variableNode.attr "function") then
    let func :=
      match firstIndex V.FUNCTION_NAMES (as_string (variableNode.attr "function")) 0 with
      | some i => V.functionOf i
      | none => FunctionShaderVariable.None
    if variableNodeSystem V variableNode ≠ SystemShaderVariable.None ∨
        !V.HasValidReturnType (variableNodeType V variableNode) func then
      FunctionShaderVariable.None
    else func
  else FunctionShaderVariable.None

/-- The local `flags` of the variable loop of `m_parseV2`. -/
def variableNodeFlags (V : VariableTables) (variableNode : XmlNode) : Nat :=
  let isInvert :=
    if !attrEmpty (variableNode.attr "invert") then as_bool (variableNode.attr "invert")
    else false
  let isLastFrame :=
    if !attrEmpty (variableNode.attr "lastframe") then
      as_bool (variableNode.attr "lastframe")
    else false
  Nat.lor (if isInvert then V.FlagInverse else 0) (if isLastFrame then V.FlagLastFrame else 0)

/-- The body of the variable loop of both readers for one `variable` node. The variable
is built by the constructor from type, name and system source, `AllocateArgumentSpace`
records the function in it, and the value is parsed when there is no system source. The
v1 reader does not set the flags (`flags` is then `none`, and the constructor leaves no
flag set). -/
def parseVariableNode {F : Type} (V : VariableTables) (T : FloatText F)
    (flags : Option Nat) (variableNode : XmlNode) : PassVariable F :=
  let system := variableNodeSystem V variableNode
  let var := ShaderVariable.fresh T (variableNodeType V variableNode)
    (variableNodeFunction V variableNode)
  { Name := as_string (variableNode.attr "name")
    System := system
    Flags := flags.getD 0
    value :=
      if system = SystemShaderVariable.None then m_parseVariableValue T variableNode var
      else var }

/-- Modelled from the spec: `VariableContainer::Add` is defined outside `src/`. The
operation `add(variable)` of the variable store appends and rejects nothing; duplicate
names are permitted. -/
def VariableContainer.Add {F : Type} (vars : List (PassVariable F))
    (var : PassVariable F) : List (PassVariable F) :=
  vars ++ [var]

/-- The variables of a pass after the pass loop of `m_parseV1`: for every `shader` child
in order, every `variable` node under its `variables` child is read and added. -/
def m_parseV1_variables {F : Type} (V : VariableTables) (T : FloatText F)
    (passNode : XmlNode) : List (PassVariable F) :=
  (passNode.childrenNamed "shader").foldl
    (fun vars shaderNode =>
      (childrenOf (shaderNode.child "variables") "variable").foldl
        (fun vars variableNode =>
          VariableContainer.Add vars (parseVariableNode V T none variableNode))
        vars)
    []

/-- The variables of a pass after the pass loop of `m_parseV2`: every `variable` node
under the `variables` child of the pass is read and added. -/
def m_parseV2_variables {F : Type} (V : VariableTables) (T : FloatText F)
    (passNode : XmlNode) : List (PassVariable F) :=
  (childrenOf (passNode.child "variables") "variable").foldl
    (fun vars variableNode =>
      VariableContainer.Add vars
        (parseVariableNode V T (some (variableNodeFlags V variableNode)) variableNode))
    []

/-- The `variable` nodes of a v1 pass in document order: those of the first `shader`
child, then those of the second, and so on. -/
def v1VariableNodes (passNode : XmlNode) : List XmlNode :=
  ((passNode.childrenNamed "shader").map
    (fun shaderNode => childrenOf (shaderNode.child "variables") "variable")).flatten

/-- The `variable` node `m_exportShaderVariables` writes for one variable. -/
def m_exportShaderVariable {F : Type} (V : VariableTables) (T : FloatText F)
    (var : PassVariable F) : XmlNode :=
  let isInvert := Nat.land var.Flags V.FlagInverse ≠ 0
  let isLastFrame := Nat.land var.Flags V.FlagLastFrame ≠ 0
  XmlNode.mk "variable"
    ([("type", V.VARIABLE_TYPE_NAMES.getD (V.typeIndex var.value.type) ""),
      ("name", var.Name)] ++
     (if isInvert then [("invert", boolText isInvert)] else []) ++
     (if isLastFrame then [("lastframe", boolText isLastFrame)] else []) ++
     (if var.System ≠ SystemShaderVariable.None then
        [("system", V.SYSTEM_VARIABLE_NAMES.getD (V.systemIndex var.System) "")]
      else if var.value.Function ≠ FunctionShaderVariable.None then
        [("function", V.FUNCTION_NAMES.getD (V.functionIndex var.value.Function) "")]
      else []))
    ""
    (if var.System = SystemShaderVariable.None then
      m_exportVariableValue T V.GetArgumentCount var.value
     else [])

/-- The function `m_exportShaderVariables`: the nodes it appends to `node`, a single
`variables` node with one child for every variable in order, or nothing when there is no
variable. -/
def m_exportShaderVariables {F : Type} (V : VariableTables) (T : FloatText F)
    (vars : List (PassVariable F)) : List XmlNode :=
  if vars.length > 0 then
    [XmlNode.mk "variables" [] "" (vars.map (m_exportShaderVariable V T))]
  else []

/-- Variable tables with the float types, one system variable and one function. -/
def sampleVariableTables : VariableTables :=
  { VARIABLE_TYPE_NAMES := ["float", "float2"]
    SYSTEM_VARIABLE_NAMES := ["--NONE--", "Time"]
    FUNCTION_NAMES := ["None", "Pointer", "Scalar"]
    valueTypeOf := fun i => if i = 1 then ValueType.Float2 else ValueType.Float1
    systemOf := fun i =>
      if i = 0 then SystemShaderVariable.None else SystemShaderVariable.Other i
    functionOf := fun i =>
      if i = 0 then FunctionShaderVariable.None
      else if i = 1 then FunctionShaderVariable.Pointer
      else FunctionShaderVariable.Other i
    typeIndex := fun t => if t = ValueType.Float2 then 1 else 0
    systemIndex := fun s =>
      match s with
      | SystemShaderVariable.None => 0
      | SystemShaderVariable.Other i => i
    functionIndex := fun f =>
      match f with
      | FunctionShaderVariable.None => 0
      | FunctionShaderVariable.Pointer => 1
      | FunctionShaderVariable.Other i => i
    GetType := fun _ => ValueType.Float1
    HasValidReturnType := fun _ _ => true
    GetArgumentCount := fun _ => 1
    FlagInverse := 1
    FlagLastFrame := 2 }

/-- A v1 pass that declares the variable `Time` under its vertex shader with the value 1
and under its pixel shader with the value 2. -/
def twiceDeclaredPass : XmlNode :=
  XmlNode.mk "pass" [("name", "Main")] ""
    [XmlNode.mk "shader" [("type", "vs")] ""
      [XmlNode.mk "variables" [] ""
        [XmlNode.mk "variable" [("type", "float"), ("name", "Time")] ""
          [XmlNode.mk "row" [] "" [XmlNode.leaf "value" "1"]]]],
     XmlNode.mk "shader" [("type", "ps")] ""
      [XmlNode.mk "variables" [] ""
        [XmlNode.mk "variable" [("type", "float"), ("name", "Time")] ""
          [XmlNode.mk "row" [] "" [XmlNode.leaf "value" "2"]]]]]

/-- A variable node that carries both a `system` and a `function` attribute. -/
def bothSourcesNode : XmlNode :=
  XmlNode.mk "variable"
    [("type", "float"), ("name", "t"), ("system", "Time"), ("function", "Scalar")] "" []

/-! ## Render texture nodes: size, clear flag and clear colour -/

/-- The statements `load size` of the `rendertexture` branch, the same in both readers:
without an `fsize` attribute the `rsize` attribute is read with `std::stof` into the
ratio size and the fixed size becomes (-1, -1); with it, the `fsize` attribute is read
with `std::stoi` into the fixed size. `none` stands for an exception. -/
def parseRenderTextureSize {F : Type} (S : StdText F) (rt : RenderTextureObject F)
    (objectNode : XmlNode) : Option (RenderTextureObject F) :=
  if attrEmpty (objectNode.attr "fsize") then
    let rtSize := as_string (objectNode.attr "rsize")
    match S.stof (beforeComma rtSize) with
    | none => none
    | some rtSizeX =>
      match S.stof (afterComma rtSize) with
      | none => none
      | some rtSizeY => some { rt with RatioSize := (rtSizeX, rtSizeY), FixedSize := (-1, -1) }
  else
    let rtSize := as_string (objectNode.attr "fsize")
    match stdStoi (beforeComma rtSize) with
    | none => none
    | some rtSizeX =>
      match stdStoi (afterComma rtSize) with
      | none => none
      | some rtSizeY => some { rt with FixedSize := (rtSizeX, rtSizeY) }

/-- A clear colour channel as `m_parseV1` reads it: the attribute as an `int`, divided by
`255.0f`; 0 when the attribute is absent. -/
def m_parseV1_channel {F : Type} (T : FloatText F) (a : Option String) : F :=
  if !attrEmpty a then T.div (T.ofInt (as_int a)) (T.ofInt 255) else T.ofInt 0

/-- The conversion `attribute.as_float()`, 0 on an empty handle. -/
def as_float {F : Type} (T : FloatText F) (a : Option String) : F :=
  match a with
  | some v => T.as_float v
  | none => T.ofInt 0

/-- A clear colour channel as `m_parseV2` reads it: the attribute as a `float`; 0 when
the attribute is absent. -/
def m_parseV2_channel {F : Type} (T : FloatText F) (a : Option String) : F :=
  if !attrEmpty a then as_float T a else T.ofInt 0

/-- The fields `m_parseV1` reads into the render texture of a `rendertexture` node: `rt`
is the object just created in the registry. `none` stands for an exception thrown while
the size is read; the statements after it are then not reached. -/
def m_parseV1_renderTexture {F : Type} (T : FloatText F) (S : StdText F)
    (rt : RenderTextureObject F) (objectNode : XmlNode) : Option (RenderTextureObject F) :=
  match parseRenderTextureSize S { rt with Format := GL_RGBA } objectNode with
  | none => none
  | some rt1 =>
    some { rt1 with
      Clear := true
      ClearColor :=
        ⟨m_parseV1_channel T (objectNode.attr "r"), m_parseV1_channel T (objectNode.attr "g"),
         m_parseV1_channel T (objectNode.attr "b"),
         m_parseV1_channel T (objectNode.attr "a")⟩ }

/-- The fields `m_parseV2` reads into the render texture of a `rendertexture` node. -/
def m_parseV2_renderTexture {F : Type} (N : Names) (T : FloatText F) (S : StdText F)
    (rt : RenderTextureObject F) (objectNode : XmlNode) : Option (RenderTextureObject F) :=
  let rt0 :=
    if !attrEmpty (objectNode.attr "format") then
      match findValue N.FORMAT_NAMES N.FORMAT_VALUES (as_string (objectNode.attr "format")) with
      | some v => { rt with Format := v }
      | none => rt
    else rt
  match parseRenderTextureSize S rt0 objectNode with
  | none => none
  | some rt1 =>
    some { rt1 with
      Clear :=
        if !attrEmpty (objectNode.attr "clear") then as_bool (objectNode.attr "clear")
        else true
      ClearColor :=
        ⟨m_parseV2_channel T (objectNode.attr "r"), m_parseV2_channel T (objectNode.attr "g"),
         m_parseV2_channel T (objectNode.attr "b"),
         m_parseV2_channel T (objectNode.attr "a")⟩ }

/-- Rational numbers standing for floats: exact arithmetic, and the text of a whole
number is its decimal form. -/
def rationalFloats : FloatText ℚ :=
  { set := fun q => intText q.num
    as_float := fun s => (textAsInt s : ℚ)
    to_string := fun q => intText q.num
    ofInt := fun i => (i : ℚ)
    div := fun a b => a / b }

/-- The function `std::stof` restricted to texts of whole numbers. -/
def wholeStd : StdText Int := { stof := stdStoi }

/-- The function `std::stof` restricted to texts of whole numbers, on the rationals. -/
def rationalStd : StdText ℚ := { stof := fun s => (stdStoi s).map (fun i => (i : ℚ)) }

/-- A render texture as the registry creates it. -/
def freshRenderTexture {F : Type} (T : FloatText F) : RenderTextureObject F :=
  { Format := GL_RGBA, FixedSize := (-1, -1), RatioSize := (T.ofInt 1, T.ofInt 1)
    Clear := true, ClearColor := ⟨T.ofInt 0, T.ofInt 0, T.ofInt 0, T.ofInt 0⟩ }

/-- A render texture node with a ratio size and the channels `r="255" g="128"`. -/
def colouredTarget : XmlNode :=
  XmlNode.mk "object"
    [("type", "rendertexture"), ("name", "rt"), ("rsize", "1,1"), ("r", "255"), ("g", "128")]
    "" []

/-- A render texture node with neither `fsize` nor `rsize`. -/
def sizelessTarget : XmlNode :=
  XmlNode.mk "object" [("type", "rendertexture"), ("name", "rt")] "" []

/-! ## Render target chains of the passes -/

/-- The name `m_parseV1` records for a `rendertexture` child of a pass: the `name`
attribute as a string. -/
def m_parseV1_targetName (rtNode : XmlNode) : String :=
  as_string (rtNode.attr "name")

/-- The name `m_parseV2` records for a `rendertexture` child of a pass: the `name`
attribute when there is one, the empty name otherwise. -/
def m_parseV2_targetName (rtNode : XmlNode) : String :=
  if !attrEmpty (rtNode.attr "name") then as_string (rtNode.attr "name") else ""

/-- The names recorded for one pass node, in document order. -/
def targetNames (targetName : XmlNode → String) (passNode : XmlNode) : List String :=
  (passNode.childrenNamed "rendertexture").map targetName

/-- The field `RTCount` of a pass after its node has been read, by the same statement in
`m_parseV1` and `m_parseV2`: `(rtCur == 0) ? 1 : rtCur`, with `rtCur` the number of
`rendertexture` children. -/
def RTCount (passNode : XmlNode) : Nat :=
  let rtCur := (passNode.childrenNamed "rendertexture").length
  if rtCur = 0 then 1 else rtCur

/-- The array `RenderTextures` of a pass right after its creation: the texture of the
renderer at index 0 and 0 at every other index. `MAX_RENDER_TEXTURES` is a macro defined
outside `src/`. -/
def initialRenderTextures (MAX_RENDER_TEXTURES : Nat) (rendererTexture : GLenum) :
    List GLenum :=
  (List.replicate MAX_RENDER_TEXTURES 0).set 0 rendererTexture

/-- The local `fbos` after the pass loop of a reader, for the rule by which the reader
names a `rendertexture` child. -/
def fbosOf (targetName : XmlNode → String) (dataAddr : Nat → Nat)
    (projectNode : Option XmlNode) : BindMap :=
  (childrenOf (childOf projectNode "pipeline") "pass").enum.foldl
    (fun fbos ip =>
      (ip.2.childrenNamed "rendertexture").foldl
        (fun fbos rtNode => fbos.modify (dataAddr ip.1) (fun v => v ++ [targetName rtNode]))
        fbos)
    []

/-- The local `fbos` after the pass loop of `m_parseV1`. -/
def m_parseV1_fbos (dataAddr : Nat → Nat) (projectNode : Option XmlNode) : BindMap :=
  fbosOf m_parseV1_targetName dataAddr projectNode

/-- The inner loop of `set actual render texture IDs` for one entry of `fbos`: the name
at index `index` gives the texture of the renderer when it is the default name, else the
handle the registry returns for it (`GetTexture`), stored at `RenderTextures[index]`. A
store outside the array is undefined in the source; here it leaves the array as it is. -/
def resolveChain (isDefault : String → Bool) (rendererTexture : GLenum)
    (GetTexture : String → GLenum) (RenderTextures : List GLenum) (names : List String) :
    List GLenum :=
  names.enum.foldl
    (fun rts p => rts.set p.1 (if isDefault p.2 then rendererTexture else GetTexture p.2))
    RenderTextures

/-- The default name of `m_parseV1`: `rtName == "Window"`. -/
def m_parseV1_isDefault (rtName : String) : Bool := rtName = "Window"

/-- The default name of `m_parseV2`: `rtName.size() == 0`. -/
def m_parseV2_isDefault (rtName : String) : Bool := rtName.length = 0

/-- The array `RenderTextures` of the pass record at address `dataAddr i` after
`m_parseV1`: the closing loop resolves the names `fbos` holds under that address. -/
def m_parseV1_renderTextures (MAX_RENDER_TEXTURES : Nat) (rendererTexture : GLenum)
    (GetTexture : String → GLenum) (dataAddr : Nat → Nat) (projectNode : Option XmlNode)
    (i : Nat) : List GLenum :=
  resolveChain m_parseV1_isDefault rendererTexture GetTexture
    (initialRenderTextures MAX_RENDER_TEXTURES rendererTexture)
    ((m_parseV1_fbos dataAddr projectNode).get (dataAddr i))

/-- The array `RenderTextures` of the pass record at address `dataAddr i` after
`m_parseV2`. -/
def m_parseV2_renderTextures (MAX_RENDER_TEXTURES : Nat) (rendererTexture : GLenum)
    (GetTexture : String → GLenum) (dataAddr : Nat → Nat) (projectNode : Option XmlNode)
    (i : Nat) : List GLenum :=
  resolveChain m_parseV2_isDefault rendererTexture GetTexture
    (initialRenderTextures MAX_RENDER_TEXTURES rendererTexture)
    ((m_parseV2_fbos dataAddr projectNode).get (dataAddr i))

/-- The `rendertexture` children `SaveAs` writes for a pass: for the entries of
`RenderTextures` up to the first 0, a child without attribute when the entry is the
texture of the renderer, else a child with the name of the render texture of that handle
(`nameOf`). -/
def SaveAs_renderTextures (MAX_RENDER_TEXTURES : Nat) (rendererTexture : GLenum)
    (nameOf : GLenum → String) (RenderTextures : List GLenum) : List XmlNode :=
  ((RenderTextures.take MAX_RENDER_TEXTURES).takeWhile (fun rtID => rtID ≠ 0)).map
    (fun rtID =>
      if rtID = rendererTexture then XmlNode.mk "rendertexture" [] "" []
      else XmlNode.mk "rendertexture" [("name", nameOf rtID)] "" [])

/-- The pass nodes of a project in document order. -/
def passNodes (projectNode : Option XmlNode) : List XmlNode :=
  childrenOf (childOf projectNode "pipeline") "pass"

/-- A pass that renders to the default target through a nameless reference and to `rt`. -/
def chainPassA : XmlNode :=
  XmlNode.mk "pass" [("name", "A")] ""
    [XmlNode.mk "rendertexture" [] "" [],
     XmlNode.mk "rendertexture" [("name", "rt")] "" []]

/-- A pass without a `rendertexture` child. -/
def chainPassB : XmlNode := XmlNode.mk "pass" [("name", "B")] "" []

/-- A pass with one reference, whose `name` attribute is present and empty. -/
def chainPassC : XmlNode :=
  XmlNode.mk "pass" [("name", "C")] "" [XmlNode.mk "rendertexture" [("name", "")] "" []]

/-- A v2 project with the three passes above. -/
def chainProject : XmlNode :=
  XmlNode.mk "project" [("version", "2")] ""
    [XmlNode.mk "pipeline" [] "" [chainPassA, chainPassB, chainPassC]]

/-- The addresses of the pass records of the examples: distinct for distinct passes. -/
def chainAddr (i : Nat) : Nat := 200 + i

/-- A v1 project whose pass renders to `Window` and to `rt`. -/
def windowProject : XmlNode :=
  XmlNode.mk "project" [] ""
    [XmlNode.mk "pipeline" [] ""
      [XmlNode.mk "pass" [("name", "A")] ""
        [XmlNode.mk "rendertexture" [("name", "Window")] "" [],
         XmlNode.mk "rendertexture" [("name", "rt")] "" []]]]

/-- A registry lookup that knows the render texture `rt` under the handle 8 and returns
0 for every other name. -/
def lookupRt (name : String) : GLenum := if name = "rt" then 8 else 0

/-! ## `ProjectParser::LoadModel` and the model cache -/

/-- The member `m_models` together with a record of the calls of the external loader:
`loaded` lists, in order, the `file` arguments for which `LoadFromFile` was called. A
model pointer is its address, 0 for `nullptr`. -/
structure ModelCache where
  m_models : List (String × Nat)
  loaded : List String

/-- The cache as `Open` leaves it before the document is read, with no loader call yet. -/
def ModelCache.empty : ModelCache := { m_models := [], loaded := [] }

/-- The function `LoadModel`: the pointer it returns and the cache after the call. An
entry for `file` is returned as it is; otherwise an entry with a new model is pushed and
`LoadFromFile` is called on the project path of the file, and the result is `nullptr`
when the loader fails. The address of the n-th model allocated for a cache is n, so
a new model is never null and differs from the models of the other entries. -/
def LoadModel (LoadFromFile : String → Bool) (GetProjectPath : String → String)
    (s : ModelCache) (file : String) : Nat × ModelCache :=
  match s.m_models.find? (fun mdl => mdl.1 = file) with
  | some mdl => (mdl.2, s)
  | none =>
    let model := s.m_models.length + 1
    let s1 : ModelCache :=
      { m_models := s.m_models ++ [(file, model)], loaded := s.loaded ++ [file] }
    let loaded := LoadFromFile (GetProjectPath file)
    if !loaded then (0, s1) else (model, s1)

/-- A sequence of `LoadModel` calls, in order: the cache after the last of them. -/
def LoadModel_calls (LoadFromFile : String → Bool) (GetProjectPath : String → String)
    (s : ModelCache) (files : List String) : ModelCache :=
  files.foldl (fun s file => (LoadModel LoadFromFile GetProjectPath s file).2) s

/-- What the branch `itemType == Model` of `m_parseV2` leaves behind for one item: the
field `Data` of the item, the cache and the message stack. -/
structure ModelItemLoad where
  Data : Nat
  cache : ModelCache
  m_msgs : List (String × String)

/-- The branch `itemType == Model` of the statements `create and modify if needed` of
`m_parseV2`: `LoadModel` is called on the file name of the item; a pointer that is not
null is stored in `Data`, otherwise `Data` keeps the value `Data0` it was created with and
an error message is added for the pass `name`. -/
def m_parseV2_loadModel (LoadFromFile : String → Bool) (GetProjectPath : String → String)
    (name itemName Filename : String) (Data0 : Nat) (cache : ModelCache)
    (m_msgs : List (String × String)) : ModelItemLoad :=
  let r := LoadModel LoadFromFile GetProjectPath cache Filename
  let ptrObject := r.1
  let loaded := ptrObject ≠ 0
  if loaded then { Data := ptrObject, cache := r.2, m_msgs := m_msgs }
  else
    { Data := Data0, cache := r.2
      m_msgs := m_msgs ++ [(name, "Failed to load .obj model " ++ itemName)] }

/-- A loader that fails on every path. -/
def failingLoader (_ : String) : Bool := false

/-- The project path of the examples: the file under the directory `proj`. -/
def projPath (file : String) : String := "proj/" ++ file

/-- Two model items of the pass `Main`, `first` and `second`, that name the same file
`bad.obj`, read one after the other with a loader that fails, each created with a null
`Data`: the result for the first item and for the second. -/
def twiceFailingModel : ModelItemLoad × ModelItemLoad :=
  let a := m_parseV2_loadModel failingLoader projPath "Main" "first" "bad.obj" 0
    ModelCache.empty []
  (a, m_parseV2_loadModel failingLoader projPath "Main" "second" "bad.obj" 0 a.cache a.m_msgs)

/-! ## `m_parseV1`: depth and stencil items -/

/-- The chain of comparisons `m_parseV1` applies to one child of a `depthstencil` item. -/
def m_parseV1_depthStencilAttr {F : Type} (N : Names) (tData : RenderState F)
    (attrNode : XmlNode) : RenderState F :=
  if attrNode.name = "depthenable" then
    { tData with DepthTest := textAsBool attrNode.text }
  else if attrNode.name = "depthfunc" then
    { tData with DepthFunction := m_toComparisonFunc N attrNode.text }
  else if attrNode.name = "stencilenable" then
    { tData with StencilTest := textAsBool attrNode.text }
  else if attrNode.name = "frontfunc" then
    { tData with StencilFrontFaceFunction := m_toComparisonFunc N attrNode.text }
  else if attrNode.name = "frontpass" then
    { tData with StencilFrontFaceOpPass := m_toStencilOp N attrNode.text }
  else if attrNode.name = "frontfail" then
    { tData with
      StencilFrontFaceOpDepthFail := m_toStencilOp N attrNode.text
      StencilFrontFaceOpStencilFail := m_toStencilOp N attrNode.text }
  else if attrNode.name = "backfunc" then
    { tData with StencilBackFaceFunction := m_toComparisonFunc N attrNode.text }
  else if attrNode.name = "backpass" then
    { tData with StencilBackFaceOpPass := m_toStencilOp N attrNode.text }
  else if attrNode.name = "backfail" then
    { tData with
      StencilBackFaceOpDepthFail := m_toStencilOp N attrNode.text
      StencilBackFaceOpStencilFail := m_toStencilOp N attrNode.text }
  else if attrNode.name = "sref" then
    { tData with StencilReference := textAsUInt attrNode.text }
  else tData

/-- The render state `m_parseV1` reads from a `depthstencil` item: `fresh` is the record
the constructor builds, the stencil mask is set to `0xFF`, and the children are applied in
document order. -/
def m_parseV1_depthStencil {F : Type} (N : Names) (fresh : RenderState F)
    (itemNode : XmlNode) : RenderState F :=
  itemNode.children.foldl (m_parseV1_depthStencilAttr N) { fresh with StencilMask := 0xFF }

/-- The name tables of the examples with two stencil operations. -/
def stencilNames : Names :=
  { sampleNames with
    STENCIL_OPERATION_NAMES := ["Keep", "Zero"]
    STENCIL_OPERATION_VALUES := [GL_KEEP, GL_ZERO] }

/-- A `depthstencil` item with two `frontfail` children and no `backfail` child. -/
def failItem : XmlNode :=
  XmlNode.mk "item" [("name", "ds"), ("type", "depthstencil")] ""
    [XmlNode.leaf "frontfail" "Keep", XmlNode.leaf "stencilenable" "true",
     XmlNode.leaf "frontfail" "Zero"]

/-! ## Indexes of the stores of the readers -/

/-- The indexes `index` at which the closing loop of a reader stores into
`RenderTextures` for one entry of `fbos`, in the order of the stores: 0, 1, 2 and so on,
one for every name. -/
def resolveChain_indexes (names : List String) : List Nat :=
  names.enum.map (fun p => p.1)

/-- A pass node with `n` nameless `rendertexture` children. -/
def passWithTargets (n : Nat) : XmlNode :=
  XmlNode.mk "pass" [("name", "Main")] ""
    (List.replicate n (XmlNode.mk "rendertexture" [] "" []))

/-- A `bind` node of the pass `Main` with the slot -1. -/
def negativeBind : XmlNode := XmlNode.mk "bind" [("slot", "-1"), ("name", "Main")] "" []

/-- A `bind` node that names a pass `Ghost`. -/
def ghostBind : XmlNode := XmlNode.mk "bind" [("slot", "0"), ("name", "Ghost")] "" []

/-! ## Passes and items: the writer and the v2 reader -/

/-- The enumeration `PipelineItem::ItemType`, with the values the parser uses. -/
inductive ItemType where
  | ShaderPass
  | Geometry
  | RenderState
  | Model
deriving DecidableEq

/-- The record the field `Data` of an item points to. -/
inductive ItemPayload (F : Type) where
  | geometry (tData : GeometryItem F)
  | renderState (s : RenderState F)
  | model (mdata : Model F)

/-- The type tag that goes with a payload. -/
def ItemPayload.itemType {F : Type} : ItemPayload F → ItemType
  | ItemPayload.geometry _ => ItemType.Geometry
  | ItemPayload.renderState _ => ItemType.RenderState
  | ItemPayload.model _ => ItemType.Model

/-- An item of a pass as the writer finds it in `passData->Items`: its name and its
payload. The tag `Type` and the record behind `Data` are one value here, the writer casts
`Data` to the record the tag names; a pass holds no item of type `ShaderPass`. -/
structure PassItem (F : Type) where
  Name : String
  Data : ItemPayload F

/-- The record `ShaderMacro`. -/
structure ShaderMacro where
  Name : String
  Active : Bool
  Value : String

/-- The record `pipe::ShaderPass`, with the fields the writer reads. -/
structure ShaderPass (F : Type) where
  VSPath : String
  VSEntry : String
  PSPath : String
  PSEntry : String
  GSUsed : Bool
  GSPath : String
  GSEntry : String
  RenderTextures : List GLenum
  Variables : List (PassVariable F)
  Macros : List ShaderMacro
  Items : List (PassItem F)

/-- What `SaveAs` takes from its surroundings while it writes the passes: the name
tables, the text form of floats, `GetRelativePath`, the project path before the call, the
argument `copyFiles`, the extension chosen for a copied shader
(`IsHLSL(path) ? HLSLExtensions[0] : "glsl"`), whether the user interface lists a pass as
collapsed, the capacity and the default of the render target chain, the name of the
render texture of a handle, and for every pass the `value` nodes written under
`itemvalues` from the item values of the renderer. -/
structure SaveContext (F : Type) where
  N : Names
  I : ItemNames
  V : VariableTables
  T : FloatText F
  GetRelativePath : String → String
  oldProjectPath : String
  copyFiles : Bool
  shaderExt : String → String
  isCollapsed : PipelineItem → Bool
  MAX_RENDER_TEXTURES : Nat
  rendererTexture : GLenum
  renderTextureName : GLenum → String
  itemValues : PipelineItem → List XmlNode

/-- The `path` attribute of a `shader` node: the relative path of the file, or the path
of its copy under `shaders/` when files are copied. -/
def SaveAs_shaderPath {F : Type} (W : SaveContext F) (passName stage path : String) :
    String :=
  if W.copyFiles then "shaders/" ++ passName ++ stage ++ "." ++ W.shaderExt path
  else W.GetRelativePath (underProject W.oldProjectPath path)

/-- The `shader` nodes `SaveAs` writes for a pass: vertex, pixel, and geometry when the
pass has a geometry entry point and a geometry path. -/
def SaveAs_shaders {F : Type} (W : SaveContext F) (passItem : PipelineItem)
    (passData : ShaderPass F) : List XmlNode :=
  [XmlNode.mk "shader"
     [("type", "vs"), ("path", SaveAs_shaderPath W passItem.Name "VS" passData.VSPath),
      ("entry", passData.VSEntry)] "" [],
   XmlNode.mk "shader"
     [("type", "ps"), ("path", SaveAs_shaderPath W passItem.Name "PS" passData.PSPath),
      ("entry", passData.PSEntry)] "" []] ++
  (if passData.GSEntry.length > 0 ∧ passData.GSPath.length > 0 then
    [XmlNode.mk "shader"
      [("used", boolText passData.GSUsed), ("type", "gs"),
       ("path", SaveAs_shaderPath W passItem.Name "GS" passData.GSPath),
       ("entry", passData.GSEntry)] "" []]
   else [])

/-- The `macros` node `SaveAs` writes for a pass. -/
def SaveAs_macros (Macros : List ShaderMacro) : XmlNode :=
  XmlNode.mk "macros" [] ""
    (Macros.map (fun m =>
      XmlNode.mk "define" [("name", m.Name), ("active", boolText m.Active)] m.Value []))

/-- The `item` node `SaveAs` writes for an item of a pass. -/
def SaveAs_item {F : Type} [DecidableEq F] (W : SaveContext F) (item : PassItem F) :
    XmlNode :=
  match item.Data with
  | ItemPayload.geometry tData => SaveAs_geometry W.I W.T item.Name tData
  | ItemPayload.renderState s => SaveAs_renderState W.N W.T item.Name s
  | ItemPayload.model data =>
    SaveAs_model W.T W.GetRelativePath W.oldProjectPath item.Name data

/-- The `pass` node `SaveAs` writes for one entry of the pipeline list: the name, the
collapsed flag, then the shaders, the render target chain, the variables, the macros, the
items and the item values, in this order. -/
def SaveAs_pass {F : Type} [DecidableEq F] (W : SaveContext F)
    (pass : PipelineItem × ShaderPass F) : XmlNode :=
  XmlNode.mk "pass"
    ([("name", pass.1.Name)] ++
     (if W.isCollapsed pass.1 then [("collapsed", boolText true)] else []))
    ""
    (SaveAs_shaders W pass.1 pass.2 ++
     SaveAs_renderTextures W.MAX_RENDER_TEXTURES W.rendererTexture W.renderTextureName
       pass.2.RenderTextures ++
     m_exportShaderVariables W.V W.T pass.2.Variables ++
     [SaveAs_macros pass.2.Macros,
      XmlNode.mk "items" [] "" (pass.2.Items.map (SaveAs_item W)),
      XmlNode.mk "itemvalues" [] "" (W.itemValues pass.1)])

/-- The children of the `pipeline` node `SaveAs` writes: one `pass` node for every entry
of the pipeline list (`m_pipe->GetList()`, each with its pass record), in that order. -/
def SaveAs_pipeline {F : Type} [DecidableEq F] (W : SaveContext F)
    (passItems : List (PipelineItem × ShaderPass F)) : List XmlNode :=
  passItems.map (SaveAs_pass W)

/-- What `m_parseV2` takes from its surroundings while it reads the passes: the name
tables, the text form of floats, the records the constructors of the three payloads
build, and the content of the name buffer of a pass before a name is copied into it. -/
structure ReadContext (F : Type) where
  N : Names
  I : ItemNames
  V : VariableTables
  T : FloatText F
  freshGeometry : GeometryItem F
  freshRenderState : RenderState F
  freshModel : Model F
  uninitialisedName : String

/-- The arguments of a call `m_pipe->AddItem(name, itemName, itemType, itemData)`: the
name of the pass, the name of the item, its type tag and its payload, `none` for
`nullptr`. -/
structure AddItemCall (F : Type) where
  name : String
  itemName : String
  itemType : ItemType
  itemData : Option (ItemPayload F)

/-- The locals `itemType` and `itemData` after the statements `parse the inner content of
the item` of `m_parseV2`. They start as `Geometry` and `nullptr`, and each of the three
branches `geometry`, `renderstate`, `model` sets both; there is no other branch. -/
def m_parseV2_itemData {F : Type} (R : ReadContext F) (itemNode : XmlNode) :
    ItemType × Option (ItemPayload F) :=
  if as_string (itemNode.attr "type") = "geometry" then
    (ItemType.Geometry,
      some (ItemPayload.geometry (m_parseV2_geometry R.I R.T R.freshGeometry itemNode)))
  else if as_string (itemNode.attr "type") = "renderstate" then
    (ItemType.RenderState,
      some (ItemPayload.renderState
        (m_parseV2_renderState R.N R.T R.freshRenderState itemNode)))
  else if as_string (itemNode.attr "type") = "model" then
    (ItemType.Model, some (ItemPayload.model (m_parseV2_model R.T R.freshModel itemNode)))
  else (ItemType.Geometry, none)

/-- The body of the item loop of `m_parseV2` for one child of `items`: the call of
`AddItem` it ends with. After the payload is read, the statements `create and modify if
needed` read `tData->Type` when the tag is `Geometry`; `none` stands for that read
through a null pointer, after which nothing is defined. The mesh of a geometry item and
the loading of a model are not part of this record. -/
def m_parseV2_item {F : Type} (R : ReadContext F) (name : String) (itemNode : XmlNode) :
    Option (AddItemCall F) :=
  let itemName := as_string (itemNode.attr "name")
  let d := m_parseV2_itemData R itemNode
  if d.1 = ItemType.Geometry ∧ d.2.isNone then none
  else some { name := name, itemName := itemName, itemType := d.1, itemData := d.2 }

/-- The item loop over a list of nodes: the calls of `AddItem` in order, `none` when one
of the nodes makes the reader read through a null pointer. -/
def m_parseV2_itemNodes {F : Type} (R : ReadContext F) (name : String) :
    List XmlNode → Option (List (AddItemCall F))
  | [] => some []
  | itemNode :: rest =>
    match m_parseV2_item R name itemNode with
    | none => none
    | some call => (m_parseV2_itemNodes R name rest).map (fun calls => call :: calls)

/-- The children `node.children()` of a possibly null node handle. -/
def allChildrenOf (n : Option XmlNode) : List XmlNode :=
  match n with
  | some x => x.children
  | none => []

/-- The item loop of `m_parseV2` for a pass: `for (itemNode :
passNode.child("items").children())`. -/
def m_parseV2_items {F : Type} (R : ReadContext F) (name : String) (passNode : XmlNode) :
    Option (List (AddItemCall F)) :=
  m_parseV2_itemNodes R name (allChildrenOf (passNode.child "items"))

/-- The local `name` of the pass loop of `m_parseV2`: the `name` attribute when the node
has one, else whatever the buffer held. -/
def m_parseV2_passName (uninitialisedName : String) (passNode : XmlNode) : String :=
  if !attrEmpty (passNode.attr "name") then as_string (passNode.attr "name")
  else uninitialisedName

/-- What the body of the pass loop of `m_parseV2` adds for one pass node: the name given
to `AddPass`, the variables added to the pass in order, and the calls of `AddItem` in
order. -/
structure PassRead (F : Type) where
  name : String
  Variables : List (PassVariable F)
  Items : List (AddItemCall F)

/-- The body of the pass loop of `m_parseV2` for one pass node, `none` when an item makes
the reader read through a null pointer. -/
def m_parseV2_pass {F : Type} (R : ReadContext F) (passNode : XmlNode) :
    Option (PassRead F) :=
  let name := m_parseV2_passName R.uninitialisedName passNode
  (m_parseV2_items R name passNode).map (fun items =>
    { name := name, Variables := m_parseV2_variables R.V R.T passNode, Items := items })

/-- The pass loop over a list of pass nodes, in order. -/
def m_parseV2_passNodes {F : Type} (R : ReadContext F) :
    List XmlNode → Option (List (PassRead F))
  | [] => some []
  | passNode :: rest =>
    match m_parseV2_pass R passNode with
    | none => none
    | some pass => (m_parseV2_passNodes R rest).map (fun passes => pass :: passes)

/-- The pass loop of `m_parseV2`: `for (passNode :
projectNode.child("pipeline").children("pass"))`. -/
def m_parseV2_passes {F : Type} (R : ReadContext F) (projectNode : Option XmlNode) :
    Option (List (PassRead F)) :=
  m_parseV2_passNodes R (passNodes projectNode)

/-- The names of the items of a written pass, in order. -/
def ShaderPass.itemNames {F : Type} (passData : ShaderPass F) : List String :=
  passData.Items.map (fun item => item.Name)

/-- The names of the variables of a written pass, in order. -/
def ShaderPass.variableNames {F : Type} (passData : ShaderPass F) : List String :=
  passData.Variables.map (fun var => var.Name)

/-- The names of the items added for a pass, in order. -/
def PassRead.itemNames {F : Type} (pass : PassRead F) : List String :=
  pass.Items.map (fun call => call.itemName)

/-- The names of the variables added for a pass, in order. -/
def PassRead.variableNames {F : Type} (pass : PassRead F) : List String :=
  pass.Variables.map (fun var => var.Name)

/-- The surroundings of the writer in the examples. -/
def sampleSave : SaveContext Int :=
  { N := sampleNames, I := sampleItemNames, V := sampleVariableTables, T := wholeFloats
    GetRelativePath := fun p => p
    oldProjectPath := "proj"
    copyFiles := false
    shaderExt := fun _ => "glsl"
    isCollapsed := fun _ => false
    MAX_RENDER_TEXTURES := 4
    rendererTexture := 5
    renderTextureName := fun _ => "rt"
    itemValues := fun _ => [] }

/-- The surroundings of the reader in the examples. -/
def sampleRead : ReadContext Int :=
  { N := sampleNames, I := sampleItemNames, V := sampleVariableTables, T := wholeFloats
    freshGeometry := freshGeometry
    freshRenderState := freshRenderState
    freshModel := freshModel
    uninitialisedName := "" }

/-- A float variable of the given name. -/
def namedVariable (name : String) : PassVariable Int :=
  { Name := name, System := SystemShaderVariable.None, Flags := 0
    value := gridVariable ValueType.Float1 }

/-- A pipeline of two passes: `Main` with the variables `b`, `a` and the items `sphere`,
`state`, `mesh`, and `Post` with one variable and no item. -/
def orderedPipeline : List (PipelineItem × ShaderPass Int) :=
  [({ ptr := 100, Name := "Main" },
    { VSPath := "vs.glsl", VSEntry := "main", PSPath := "ps.glsl", PSEntry := "main"
      GSUsed := false, GSPath := "", GSEntry := ""
      RenderTextures := [5, 0, 0, 0]
      Variables := [namedVariable "b", namedVariable "a"]
      Macros := []
      Items :=
        [{ Name := "sphere", Data := ItemPayload.geometry movedSphere },
         { Name := "state", Data := ItemPayload.renderState freshRenderState },
         { Name := "mesh", Data := ItemPayload.model pitchedModel }] }),
   ({ ptr := 101, Name := "Post" },
    { VSPath := "vs.glsl", VSEntry := "main", PSPath := "post.glsl", PSEntry := "main"
      GSUsed := false, GSPath := "", GSEntry := ""
      RenderTextures := [5, 0, 0, 0]
      Variables := [namedVariable "z"]
      Macros := []
      Items := [] })]

/-- An `items` node as a version 1 document has them, with items of the kinds `blend`,
`depthstencil` and `rasterizer`. -/
def v1KindsPass : XmlNode :=
  XmlNode.mk "pass" [("name", "Main")] ""
    [XmlNode.mk "items" [] ""
      [XmlNode.mk "item" [("name", "b"), ("type", "blend")] "" [],
       XmlNode.mk "item" [("name", "d"), ("type", "depthstencil")] "" [],
       XmlNode.mk "item" [("name", "r"), ("type", "rasterizer")] "" []]]

/-! ## Buffers: the side file -/

/-- A `bind` node of the pass `Main` with the largest slot an `int` holds. -/
def maxSlotBind : XmlNode :=
  XmlNode.mk "bind" [("slot", "2147483647"), ("name", "Main")] "" []

/-- A version 2 project whose first object is a render texture without size, bound to the
pass `Main`, followed by a texture bound to the same pass. -/
def cutShortProject : XmlNode :=
  XmlNode.mk "project" [("version", "2")] ""
    [XmlNode.mk "pipeline" [] "" [XmlNode.mk "pass" [("name", "Main")] "" []],
     XmlNode.mk "objects" [] ""
      [XmlNode.mk "object" [("type", "rendertexture"), ("name", "rt")] ""
        [XmlNode.mk "bind" [("slot", "0"), ("name", "Main")] "" []],
       XmlNode.mk "object" [("type", "texture"), ("path", "tex.png")] ""
        [XmlNode.mk "bind" [("slot", "1"), ("name", "Main")] "" []]]]

/-- A render texture node with a fixed size and the channels `r="255" g="128"`. -/
def fixedTarget : XmlNode :=
  XmlNode.mk "object"
    [("type", "rendertexture"), ("name", "rt"), ("fsize", "64,32"), ("r", "255"),
     ("g", "128")]
    "" []

end ed

/-! # Theorems -/

namespace ed

/-! ## Text of unsigned numbers: writing then reading -/

theorem decDigit_digitChar (d : Nat) (h : d < 10) : decDigit? (digitChar d) = some d := by
  interval_cases d <;> decide

theorem digitChar_plain (d : Nat) (h : d < 10) :
    isXmlSpace (digitChar d) = false ∧ digitChar d ≠ '-' ∧ digitChar d ≠ '+' ∧
    digitChar d ≠ 'x' ∧ digitChar d ≠ 'X' := by
  interval_cases d <;> decide

theorem decDigitsRev_lt (fuel n : Nat) : ∀ d ∈ decDigitsRev fuel n, d < 10 := by
  induction fuel generalizing n with
  | zero => intro d hd; simp [decDigitsRev] at hd
  | succ f ih =>
    intro d hd
    unfold decDigitsRev at hd
    rcases List.mem_cons.1 hd with h | h
    · omega
    · split_ifs at h
      · simp at h
      · exact ih _ d h

theorem decDigitsRev_value (fuel n : Nat) (h : n < fuel) :
    (decDigitsRev fuel n).foldr (fun d a => a * 10 + d) 0 = n := by
  induction fuel generalizing n with
  | zero => omega
  | succ f ih =>
    unfold decDigitsRev
    simp only [List.foldr_cons]
    split_ifs with h0
    · simp only [List.foldr_nil]
      omega
    · rw [ih (n / 10) (by omega)]
      omega

theorem readDigits_digitChars (l : List Nat) (hl : ∀ d ∈ l, d < 10) (acc : Nat) :
    readDigits decDigit? 10 (l.map digitChar) acc = l.foldl (fun a d => a * 10 + d) acc := by
  induction l generalizing acc with
  | nil => rfl
  | cons d ds ih =>
    simp only [List.map_cons, readDigits, List.foldl_cons]
    rw [decDigit_digitChar d (hl d (List.mem_cons_self _ _))]
    exact ih (fun x hx => hl x (List.mem_cons_of_mem _ hx)) _

theorem natText_data (n : Nat) :
    (natText n).data = (decDigitsRev (n + 1) n).reverse.map digitChar := rfl

theorem string_to_integer_natText (n : Nat) : string_to_integer (natText n) = (false, n) := by
  have hlt : ∀ d ∈ (decDigitsRev (n + 1) n).reverse, d < 10 := by
    intro d hd
    exact decDigitsRev_lt _ _ d (List.mem_reverse.1 hd)
  have hval : readDigits decDigit? 10 (natText n).data 0 = n := by
    rw [natText_data, readDigits_digitChars _ hlt, List.foldl_reverse]
    exact decDigitsRev_value (n + 1) n (by omega)
  have hchars : ∀ c ∈ (natText n).data, isXmlSpace c = false ∧ c ≠ '-' ∧ c ≠ '+' ∧
      c ≠ 'x' ∧ c ≠ 'X' := by
    intro c hc
    rw [natText_data] at hc
    obtain ⟨d, hd, rfl⟩ := List.mem_map.1 hc
    exact digitChar_plain d (hlt d hd)
  unfold string_to_integer
  simp only
  generalize hcs : (natText n).data = cs at hval hchars
  cases cs with
  | nil => simp [readMagnitude, hval] at *
  | cons c rest =>
    have hc := hchars c (List.mem_cons_self _ _)
    have hdrop : List.dropWhile isXmlSpace (c :: rest) = c :: rest := by
      simp [List.dropWhile, hc.1]
    rw [hdrop]
    have hmag : readMagnitude (c :: rest) = n := by
      unfold readMagnitude
      rw [if_neg]
      · exact hval
      · rintro ⟨_, h2⟩
        cases rest with
        | nil => simp at h2
        | cons c2 rest2 =>
          have hc2 := hchars c2 (by simp)
          simp at h2
          rcases h2 with h2 | h2
          · exact hc2.2.2.2.1 h2
          · exact hc2.2.2.2.2 h2
    simp [hc.2.1, hc.2.2.1, hmag]

theorem textAsUInt_natText (n : Nat) (h : n ≤ UINT_MAX) : textAsUInt (natText n) = n := by
  unfold textAsUInt
  rw [string_to_integer_natText]
  simp only
  rw [if_neg (by omega)]

/-! ## Version dispatch of `Open` -/

theorem projectVersion_absent (root : Option XmlNode)
    (h : attributeOf root "version" = none) : projectVersion root = 1 := by
  simp [projectVersion, h, attrEmpty]

theorem projectVersion_present (root : Option XmlNode) (v : String)
    (h : attributeOf root "version" = some v) : projectVersion root = textAsInt v := by
  simp [projectVersion, h, attrEmpty, as_int]

/-- C1: `Open` dispatches on the `version` attribute of the root. When the document has
no such attribute the result of `Open` is the v1 reader applied to the cleared state (the
v2 reader is not applied), when the attribute is `2` it is the v2 reader applied to the
cleared state (the v1 reader is not applied), and when it is `3` no reader is applied: the
cleared state only receives a log line. -/
theorem Open_dispatches_on_version {F : Type} (T : FloatText F)
    (m_parseV1 m_parseV2 : Option XmlNode → ProjectState F → ProjectState F)
    (load_file : String → Option XmlNode) (file : String) (s : ProjectState F)
    (doc : XmlNode) (hload : load_file file = some doc) :
    (attributeOf (doc.child "project") "version" = none →
      selectReader (projectVersion (doc.child "project")) = some Reader.V1 ∧
      Open T m_parseV1 m_parseV2 load_file file s =
        Open_end (m_parseV1 (doc.child "project") (Open_clear T (Open_begin file s)))) ∧
    (attributeOf (doc.child "project") "version" = some "2" →
      selectReader (projectVersion (doc.child "project")) = some Reader.V2 ∧
      Open T m_parseV1 m_parseV2 load_file file s =
        Open_end (m_parseV2 (doc.child "project") (Open_clear T (Open_begin file s)))) ∧
    (attributeOf (doc.child "project") "version" = some "3" →
      selectReader (projectVersion (doc.child "project")) = none ∧
      Open T m_parseV1 m_parseV2 load_file file s =
        Open_end { Open_clear T (Open_begin file s) with
          log := (Open_clear T (Open_begin file s)).log ++
            ["Tried to open a project that is newer version"] }) := by
  have e2 : textAsInt "2" = 2 := by decide
  have e3 : textAsInt "3" = 3 := by decide
  refine ⟨fun h => ?_, fun h => ?_, fun h => ?_⟩
  · have hv := projectVersion_absent _ h
    refine ⟨by simp [hv, selectReader], ?_⟩
    simp [Open, hload, hv, selectReader]
  · have hv := projectVersion_present _ _ h
    rw [e2] at hv
    refine ⟨by simp [hv, selectReader], ?_⟩
    simp [Open, hload, hv, selectReader]
  · have hv := projectVersion_present _ _ h
    rw [e3] at hv
    refine ⟨by simp [hv, selectReader], ?_⟩
    simp [Open, hload, hv, selectReader]

/-- Instance of C1 on three documents: without a `version` attribute, with `version="2"`
and with `version="3"`. -/
theorem Open_dispatches_on_version_witness :
    (attributeOf ((docOfVersion none).child "project") "version" = none ∧
      Open wholeFloats (markReader "v1") (markReader "v2")
          (fun _ => some (docOfVersion none)) "p.sprj" loadedProject =
        Open_end (markReader "v1" ((docOfVersion none).child "project")
          (Open_clear wholeFloats (Open_begin "p.sprj" loadedProject)))) ∧
    (attributeOf ((docOfVersion (some "2")).child "project") "version" = some "2" ∧
      Open wholeFloats (markReader "v1") (markReader "v2")
          (fun _ => some (docOfVersion (some "2"))) "p.sprj" loadedProject =
        Open_end (markReader "v2" ((docOfVersion (some "2")).child "project")
          (Open_clear wholeFloats (Open_begin "p.sprj" loadedProject)))) ∧
    (attributeOf ((docOfVersion (some "3")).child "project") "version" = some "3" ∧
      selectReader (projectVersion ((docOfVersion (some "3")).child "project")) = none) :=
  ⟨⟨rfl, ((Open_dispatches_on_version wholeFloats (markReader "v1") (markReader "v2")
      (fun _ => some (docOfVersion none)) "p.sprj" loadedProject (docOfVersion none) rfl).1
      rfl).2⟩,
   ⟨rfl, ((Open_dispatches_on_version wholeFloats (markReader "v1") (markReader "v2")
      (fun _ => some (docOfVersion (some "2"))) "p.sprj" loadedProject
      (docOfVersion (some "2")) rfl).2.1 rfl).2⟩,
   ⟨rfl, ((Open_dispatches_on_version wholeFloats (markReader "v1") (markReader "v2")
      (fun _ => some (docOfVersion (some "3"))) "p.sprj" loadedProject
      (docOfVersion (some "3")) rfl).2.2 rfl).1⟩⟩

/-! ## A newer version: what `Open` does to the live model -/

/-- C2, as stated, fails: with one pass and one texture loaded, opening a document of
version 3 leaves a pass list that differs from the one before the call, and a registry
without the texture. -/
theorem Open_newer_version_mutates :
    (Open wholeFloats (markReader "v1") (markReader "v2")
        (fun _ => some (docOfVersion (some "3"))) "p.sprj" loadedProject).pipe
      ≠ loadedProject.pipe ∧
    (Open wholeFloats (markReader "v1") (markReader "v2")
        (fun _ => some (docOfVersion (some "3"))) "p.sprj" loadedProject).objects.objects.length
      ≠ loadedProject.objects.objects.length := by
  constructor <;> decide

/-- C2, amended: for every state and every document that loads and whose root version is
greater than 2, `Open` applies neither reader and leaves the pass list empty and the
object registry empty (no object, no binding table), whatever they held before. -/
theorem Open_newer_version_clears {F : Type} (T : FloatText F)
    (m_parseV1 m_parseV2 : Option XmlNode → ProjectState F → ProjectState F)
    (load_file : String → Option XmlNode) (file : String) (s : ProjectState F)
    (doc : XmlNode) (hload : load_file file = some doc)
    (hversion : 2 < projectVersion (doc.child "project")) :
    Open T m_parseV1 m_parseV2 load_file file s =
      Open_end { Open_clear T (Open_begin file s) with
        log := (Open_clear T (Open_begin file s)).log ++
          ["Tried to open a project that is newer version"] } ∧
    (Open T m_parseV1 m_parseV2 load_file file s).pipe = [] ∧
    (Open T m_parseV1 m_parseV2 load_file file s).objects.objects = [] ∧
    (Open T m_parseV1 m_parseV2 load_file file s).objects.bindList = [] ∧
    (Open T m_parseV1 m_parseV2 load_file file s).objects.uniformBindList = [] := by
  have hsel : selectReader (projectVersion (doc.child "project")) = none := by
    unfold selectReader
    rw [if_neg (by omega), if_neg (by omega)]
  have hopen : Open T m_parseV1 m_parseV2 load_file file s =
      Open_end { Open_clear T (Open_begin file s) with
        log := (Open_clear T (Open_begin file s)).log ++
          ["Tried to open a project that is newer version"] } := by
    simp [Open, hload, hsel]
  refine ⟨hopen, ?_, ?_, ?_, ?_⟩ <;> rw [hopen] <;>
    simp [Open_end, Open_clear, PipelineManager.Clear, ObjectManager.Clear]

/-- Instance of the amended C2 on the loaded project and a document of version 3. -/
theorem Open_newer_version_clears_witness :
    2 < projectVersion ((docOfVersion (some "3")).child "project") ∧
    (Open wholeFloats (markReader "v1") (markReader "v2")
        (fun _ => some (docOfVersion (some "3"))) "p.sprj" loadedProject).pipe = [] :=
  ⟨by decide, (Open_newer_version_clears wholeFloats (markReader "v1") (markReader "v2")
      (fun _ => some (docOfVersion (some "3"))) "p.sprj" loadedProject
      (docOfVersion (some "3")) rfl (by decide)).2.1⟩

/-! ## Phase 1: recording a name in a slot table -/

theorem textAsInt_le (v : String) : textAsInt v ≤ INT_MAX := by
  unfold textAsInt
  split <;> split_ifs <;> simp [INT_MAX, INT_MIN] at * <;> omega

theorem as_int_le (a : Option String) : as_int a ≤ INT_MAX := by
  cases a with
  | none => simp [as_int, INT_MAX]
  | some v => exact textAsInt_le v

theorem toSizeT_of_nonneg (i : Int) (h0 : 0 ≤ i) (h1 : i ≤ INT_MAX) :
    toSizeT i = i.toNat := by
  unfold toSizeT
  simp only [INT_MAX] at h1
  rw [Int.emod_eq_of_lt h0 (by omega)]

theorem length_resize (v : List String) (n : Nat) : (resize v n).length = n := by
  simp [resize]
  omega

theorem getElem?_resize (v : List String) (n i : Nat) :
    (resize v n)[i]? = if i < n then (if i < v.length then v[i]? else some "") else none := by
  unfold resize
  by_cases hi : i < n
  · by_cases hv : i < v.length
    · simp [hi, hv, List.getElem?_append_left, List.getElem?_take]
    · simp [hi, hv]
      rw [List.getElem?_append_right (by simp; omega)]
      have hmin : min n v.length = v.length := by omega
      simp only [List.length_take, hmin, List.getElem?_replicate]
      rw [if_pos (by omega)]
  · simp [hi]
    omega

theorem wrapInt_succ (slot : Int) (h0 : 0 ≤ slot) (h1 : slot < INT_MAX) :
    wrapInt (slot + 1) = slot + 1 := by
  unfold wrapInt
  simp only [INT_MAX] at h1
  rw [Int.emod_eq_of_lt (by omega) (by omega)]
  omega

/-- For a slot from 0 to `INT_MAX - 1` the resize asks for `slot + 1` names and does not
throw. -/
theorem resizeThrows_in_range (v : List String) (slot : Int) (h0 : 0 ≤ slot)
    (h1 : slot < INT_MAX) : resizeThrows v slot = false := by
  unfold resizeThrows
  rw [wrapInt_succ slot h0 h1]
  have hs1 : toSizeT (slot + 1) = (slot + 1).toNat :=
    toSizeT_of_nonneg (slot + 1) (by omega) (by omega)
  rw [hs1]
  simp only [INT_MAX] at h1
  have : ¬ 9223372036854775808 ≤ (slot + 1).toNat := by omega
  simp [this]

/-- What `storeName` does to a vector when the slot is not negative and `slot + 1` fits
an `int`. -/
theorem storeName_spec (v : List String) (slot : Int) (name : String)
    (h0 : 0 ≤ slot) (h1 : slot < INT_MAX) :
    (storeName v slot name).length = max v.length (slot.toNat + 1) ∧
    (storeName v slot name)[slot.toNat]? = some name ∧
    (∀ i, v.length ≤ i → i < slot.toNat → (storeName v slot name)[i]? = some "") ∧
    (∀ i, i < v.length → i ≠ slot.toNat → (storeName v slot name)[i]? = v[i]?) := by
  have hs : toSizeT slot = slot.toNat := toSizeT_of_nonneg slot h0 (by omega)
  have hs1 : toSizeT (wrapInt (slot + 1)) = slot.toNat + 1 := by
    rw [wrapInt_succ slot h0 h1]
    unfold toSizeT
    simp only [INT_MAX] at h1
    rw [Int.emod_eq_of_lt (by omega) (by omega)]
    omega
  unfold storeName growFor
  rw [hs, hs1]
  by_cases hlen : v.length ≤ slot.toNat
  · rw [if_pos hlen]
    refine ⟨?_, ?_, ?_, ?_⟩
    · simp [length_resize]
      omega
    · rw [List.getElem?_set_self (by rw [length_resize]; omega)]
    · intro i hi1 hi2
      rw [List.getElem?_set_ne (by omega), getElem?_resize]
      rw [if_pos (by omega), if_neg (by omega)]
    · intro i hi1 hi2
      rw [List.getElem?_set_ne (by omega), getElem?_resize]
      rw [if_pos (by omega), if_pos (by omega)]
  · rw [if_neg hlen]
    refine ⟨?_, ?_, ?_, ?_⟩
    · simp
      omega
    · rw [List.getElem?_set_self (by omega)]
    · intro i hi1 hi2
      omega
    · intro i hi1 hi2
      rw [List.getElem?_set_ne (by omega)]

theorem BindMap.get_insert_self (m : BindMap) (k : Nat) (v : List String)
    (h : m.any (fun e => e.1 = k) = false) : (m.insert k v).get k = v := by
  induction m with
  | nil => simp [BindMap.insert, BindMap.get]
  | cons e rest ih =>
    simp only [List.any_cons, Bool.or_eq_false_iff, decide_eq_false_iff_not] at h
    unfold BindMap.insert
    split_ifs with hlt
    · simp [BindMap.get]
    · have hne : ¬ e.1 = k := h.1
      have := ih h.2
      simp only [BindMap.get] at this ⊢
      rw [List.find?_cons_of_neg _ (by simpa using hne)]
      exact this

theorem BindMap.get_map_self (m : BindMap) (k : Nat) (f : List String → List String)
    (h : m.any (fun e => e.1 = k) = true) :
    BindMap.get (m.map (fun e => if e.1 = k then (e.1, f e.2) else e)) k = f (m.get k) := by
  induction m with
  | nil => simp at h
  | cons e rest ih =>
    by_cases he : e.1 = k
    · simp [BindMap.get, he]
    · simp only [List.any_cons, he, decide_False, Bool.false_or] at h
      have := ih h
      simp only [BindMap.get, List.map_cons, if_neg he] at this ⊢
      rw [List.find?_cons_of_neg _ (by simpa using he), List.find?_cons_of_neg _ (by simpa using he)]
      exact this

/-- Reading back the entry that `modify` has just written. -/
theorem BindMap.get_modify_self (m : BindMap) (k : Nat) (f : List String → List String) :
    (m.modify k f).get k = f (m.get k) := by
  unfold BindMap.modify
  by_cases h : m.any (fun e => e.1 = k) = true
  · rw [if_pos h]
    exact BindMap.get_map_self m k f h
  · rw [if_neg h]
    have h2 : m.any (fun e => e.1 = k) = false := Bool.eq_false_iff.2 h
    rw [BindMap.get_insert_self m k _ h2]
    have : m.get k = [] := by
      unfold BindMap.get
      have : m.find? (fun e => decide (e.1 = k)) = none := by
        rw [List.find?_eq_none]
        intro x hx
        simp only [List.any_eq_false, decide_eq_true_eq] at h2
        simpa using h2 x hx
      rw [this]
    rw [this]

/-- Phase 1 of binding resolution on the slots whose successor fits an `int`. For a `bind`
child that the run reaches, whose pass exists and whose slot is from 0 to `INT_MAX - 1`,
the slot table of that pass afterwards has length `max (old length) (slot + 1)`, holds
the name of the object at index `slot`, holds the empty name at every newly exposed index
below `slot`, and is unchanged at every other index that existed before. This holds for
the texture table and for the buffer table. -/
theorem bind_records_name_at_slot (passes : List PipelineItem) (name : String)
    (onMatch : List RegCall) (ubo : Bool) (st : ObjectsPhase) (bindNode : XmlNode)
    (pass : PipelineItem) (hrun : st.thrown = false)
    (hpass : findPass passes (as_string (bindNode.attr "name")) = some pass)
    (hslot : 0 ≤ as_int (bindNode.attr "slot"))
    (hmax : as_int (bindNode.attr "slot") < INT_MAX) :
    (bindNodeStep passes name onMatch ubo st bindNode).thrown = false ∧
    (((bindNodeStep passes name onMatch ubo st bindNode).table ubo).get pass.ptr).length =
      max ((st.table ubo).get pass.ptr).length ((as_int (bindNode.attr "slot")).toNat + 1) ∧
    (((bindNodeStep passes name onMatch ubo st bindNode).table ubo).get pass.ptr)[
      (as_int (bindNode.attr "slot")).toNat]? = some name ∧
    (∀ i, ((st.table ubo).get pass.ptr).length ≤ i →
      i < (as_int (bindNode.attr "slot")).toNat →
      (((bindNodeStep passes name onMatch ubo st bindNode).table ubo).get pass.ptr)[i]?
        = some "") ∧
    (∀ i, i < ((st.table ubo).get pass.ptr).length →
      i ≠ (as_int (bindNode.attr "slot")).toNat →
      (((bindNodeStep passes name onMatch ubo st bindNode).table ubo).get pass.ptr)[i]?
        = ((st.table ubo).get pass.ptr)[i]?) := by
  have hthrows : ∀ v, resizeThrows v (as_int (bindNode.attr "slot")) = false :=
    fun v => resizeThrows_in_range v _ hslot hmax
  have hget : ((bindNodeStep passes name onMatch ubo st bindNode).table ubo).get pass.ptr =
      storeName ((st.table ubo).get pass.ptr) (as_int (bindNode.attr "slot")) name := by
    cases ubo <;>
      simp [bindNodeStep, hpass, hrun, hthrows, ObjectsPhase.table, BindMap.get_modify_self]
  have hthrown : (bindNodeStep passes name onMatch ubo st bindNode).thrown = false := by
    cases ubo <;> simp [bindNodeStep, hpass, hrun, hthrows, ObjectsPhase.table]
  rw [hget]
  exact ⟨hthrown, storeName_spec _ _ name hslot hmax⟩

/-! ## Invariants of the object loop -/

theorem foldl_invariant {α β : Type} (P : β → Prop) (f : β → α → β) (l : List α) :
    ∀ b, P b → (∀ b a, a ∈ l → P b → P (f b a)) → P (l.foldl f b) := by
  induction l with
  | nil => intro b hb _; exact hb
  | cons x xs ih =>
    intro b hb hf
    simp only [List.foldl_cons]
    exact ih (f b x) (hf b x (List.mem_cons_self _ _) hb)
      (fun b a ha hp => hf b a (List.mem_cons_of_mem _ ha) hp)

theorem foldl_reaches {α β : Type} (Q : β → Prop) (f : β → α → β) (l : List α) (a : α)
    (ha : a ∈ l) (hmono : ∀ b x, Q b → Q (f b x)) (hstep : ∀ b, Q (f b a)) :
    ∀ b, Q (l.foldl f b) := by
  induction l with
  | nil => simp at ha
  | cons x xs ih =>
    intro b
    simp only [List.foldl_cons]
    rcases List.mem_cons.1 ha with h | h
    · subst h
      exact foldl_invariant Q f xs _ (hstep b) (fun b x _ hq => hmono b x hq)
    · exact ih h _

theorem BindMap.mem_insert (m : BindMap) (k : Nat) (v : List String) (e : Nat × List String)
    (h : e ∈ m.insert k v) : e = (k, v) ∨ e ∈ m := by
  induction m with
  | nil => simpa [BindMap.insert] using h
  | cons x rest ih =>
    unfold BindMap.insert at h
    split_ifs at h with hlt
    · rcases List.mem_cons.1 h with h | h
      · exact Or.inl h
      · exact Or.inr h
    · rcases List.mem_cons.1 h with h | h
      · exact Or.inr (h ▸ List.mem_cons_self _ _)
      · rcases ih h with h | h
        · exact Or.inl h
        · exact Or.inr (List.mem_cons_of_mem _ h)

theorem BindMap.keys_insert_perm (m : BindMap) (k : Nat) (v : List String) :
    List.Perm ((m.insert k v).map Prod.fst) (k :: m.map Prod.fst) := by
  induction m with
  | nil => simp [BindMap.insert]
  | cons x rest ih =>
    unfold BindMap.insert
    split_ifs with hlt
    · simp
    · simp only [List.map_cons]
      exact (List.Perm.cons _ ih).trans (List.Perm.swap _ _ _)

theorem BindMap.keys_modify_nodup (m : BindMap) (k : Nat) (f : List String → List String)
    (h : (m.map Prod.fst).Nodup) : ((m.modify k f).map Prod.fst).Nodup := by
  unfold BindMap.modify
  split_ifs with hany
  · have : (m.map (fun e => if e.1 = k then (e.1, f e.2) else e)).map Prod.fst
        = m.map Prod.fst := by
      rw [List.map_map]
      apply List.map_congr_left
      intro e _
      simp only [Function.comp]
      split_ifs <;> rfl
    rw [this]
    exact h
  · rw [(BindMap.keys_insert_perm m k (f [])).nodup_iff]
    refine List.nodup_cons.2 ⟨?_, h⟩
    intro hk
    apply hany
    rcases List.mem_map.1 hk with ⟨e, he, hek⟩
    exact List.any_eq_true.2 ⟨e, he, by simpa using hek⟩

theorem mem_storeName (v : List String) (slot : Int) (name n : String)
    (h : n ∈ storeName v slot name) : n = name ∨ n = "" ∨ n ∈ v := by
  unfold storeName at h
  rcases List.mem_or_eq_of_mem_set h with h | h
  · unfold growFor at h
    split_ifs at h
    · unfold resize at h
      rcases List.mem_append.1 h with h | h
      · exact Or.inr (Or.inr (List.mem_of_mem_take h))
      · exact Or.inr (Or.inl (List.eq_of_mem_replicate h))
    · exact Or.inr (Or.inr h)
  · exact Or.inl h

/-- Every name held by an updated table is the stored name, the empty name, or a name
the table held before. -/
theorem BindMap.mem_modify_storeName (m : BindMap) (k : Nat) (slot : Int) (name : String)
    (e : Nat × List String) (he : e ∈ m.modify k (fun v => storeName v slot name))
    (n : String) (hn : n ∈ e.2) :
    n = name ∨ n = "" ∨ ∃ e0 ∈ m, n ∈ e0.2 := by
  unfold BindMap.modify at he
  split_ifs at he with hany
  · rcases List.mem_map.1 he with ⟨e0, he0, rfl⟩
    split_ifs at hn with hk
    · rcases mem_storeName _ _ _ _ hn with h | h | h
      · exact Or.inl h
      · exact Or.inr (Or.inl h)
      · exact Or.inr (Or.inr ⟨e0, he0, h⟩)
    · exact Or.inr (Or.inr ⟨e0, he0, hn⟩)
  · rcases BindMap.mem_insert _ _ _ _ he with h | h
    · subst h
      rcases mem_storeName _ _ _ _ hn with h | h | h
      · exact Or.inl h
      · exact Or.inr (Or.inl h)
      · simp at h
    · exact Or.inr (Or.inr ⟨e, h, hn⟩)

theorem NamesCreated.mono {calls more : List RegCall} {m : BindMap}
    (h : NamesCreated calls m) : NamesCreated (calls ++ more) m := by
  intro e he n hn hne
  rcases h e he n hn hne with ⟨c, hc, hcn⟩
  exact ⟨c, List.mem_append_left _ hc, hcn⟩

theorem NamesCreated.modify {calls : List RegCall} {m : BindMap} (k : Nat) (slot : Int)
    (name : String) (h : NamesCreated calls m)
    (hname : ∃ c ∈ calls, c.createsName name = true) :
    NamesCreated calls (m.modify k (fun v => storeName v slot name)) := by
  intro e he n hn hne
  rcases BindMap.mem_modify_storeName m k slot name e he n hn with h1 | h1 | ⟨e0, he0, hn0⟩
  · subst h1
    exact hname
  · exact absurd h1 hne
  · exact h e0 he0 n hn0 hne

theorem bindNodeStep_none (passes : List PipelineItem) (name : String)
    (onMatch : List RegCall) (ubo : Bool) (st : ObjectsPhase) (bindNode : XmlNode)
    (h : findPass passes (as_string (bindNode.attr "name")) = none) :
    bindNodeStep passes name onMatch ubo st bindNode = st := by
  simp [bindNodeStep, h]

theorem bindNodeStep_thrown (passes : List PipelineItem) (name : String)
    (onMatch : List RegCall) (ubo : Bool) (st : ObjectsPhase) (bindNode : XmlNode)
    (h : st.thrown = true) : bindNodeStep passes name onMatch ubo st bindNode = st := by
  simp [bindNodeStep, h]

/-- The three outcomes of a `bind` child: nothing happens, the resize throws, or the
name is stored. -/
theorem bindNodeStep_cases (passes : List PipelineItem) (name : String)
    (onMatch : List RegCall) (ubo : Bool) (st : ObjectsPhase) (bindNode : XmlNode) :
    bindNodeStep passes name onMatch ubo st bindNode = st ∨
    bindNodeStep passes name onMatch ubo st bindNode = { st with thrown := true } ∨
    ∃ pass : PipelineItem, st.thrown = false ∧
      bindNodeStep passes name onMatch ubo st bindNode =
        (if ubo then
          { st with
            boundUBOs := st.boundUBOs.modify pass.ptr
              (fun v => storeName v (as_int (bindNode.attr "slot")) name)
            calls := st.calls ++ onMatch }
        else
          { st with
            boundTextures := st.boundTextures.modify pass.ptr
              (fun v => storeName v (as_int (bindNode.attr "slot")) name)
            calls := st.calls ++ onMatch }) := by
  by_cases ht : st.thrown = true
  · exact Or.inl (bindNodeStep_thrown _ _ _ _ _ _ ht)
  · cases hp : findPass passes (as_string (bindNode.attr "name")) with
    | none => exact Or.inl (bindNodeStep_none _ _ _ _ _ _ hp)
    | some pass =>
      by_cases hr : resizeThrows ((st.table ubo).get pass.ptr)
          (as_int (bindNode.attr "slot")) = true
      · right; left
        simp [bindNodeStep, hp, ht, hr]
      · right; right
        refine ⟨pass, by simpa using ht, ?_⟩
        cases ubo <;> simp [bindNodeStep, hp, ht, hr]

theorem ObjectsPhase.Inv.thrown {st : ObjectsPhase} (hinv : st.Inv) :
    ObjectsPhase.Inv { st with thrown := true } := hinv

theorem bindNodeStep_inv (passes : List PipelineItem) (name : String)
    (onMatch : List RegCall) (ubo : Bool) (st : ObjectsPhase) (bindNode : XmlNode)
    (hon : ∀ c ∈ onMatch, c.isResolve = false)
    (hname : ∃ c ∈ st.calls ++ onMatch, c.createsName name = true)
    (hinv : st.Inv) :
    (bindNodeStep passes name onMatch ubo st bindNode).Inv := by
  rcases bindNodeStep_cases passes name onMatch ubo st bindNode with h | h | ⟨pass, _, h⟩
  · rw [h]
    exact hinv
  · rw [h]
    exact hinv.thrown
  · rw [h]
    obtain ⟨h1, h2, h3, h4, h5⟩ := hinv
    have hcalls : ∀ c ∈ st.calls ++ onMatch, c.isResolve = false := by
      intro c hc
      rcases List.mem_append.1 hc with hc | hc
      · exact h1 c hc
      · exact hon c hc
    cases ubo with
    | true =>
      rw [if_pos rfl]
      exact ⟨hcalls, h2, by dsimp only; exact BindMap.keys_modify_nodup _ _ _ h3, h4.mono,
        by dsimp only; exact NamesCreated.modify _ _ _ h5.mono hname⟩
    | false =>
      rw [if_neg (by simp)]
      exact ⟨hcalls, by dsimp only; exact BindMap.keys_modify_nodup _ _ _ h2, h3,
        by dsimp only; exact NamesCreated.modify _ _ _ h4.mono hname, h5.mono⟩

theorem bindNodeStep_calls_mono (passes : List PipelineItem) (name : String)
    (onMatch : List RegCall) (ubo : Bool) (st : ObjectsPhase) (bindNode : XmlNode)
    (c : RegCall) (hc : c ∈ st.calls) :
    c ∈ (bindNodeStep passes name onMatch ubo st bindNode).calls := by
  rcases bindNodeStep_cases passes name onMatch ubo st bindNode with h | h | ⟨pass, _, h⟩
  · rw [h]
    exact hc
  · rw [h]
    exact hc
  · rw [h]
    cases ubo with
    | true =>
      rw [if_pos rfl]
      exact List.mem_append_left _ hc
    | false =>
      rw [if_neg (by simp)]
      exact List.mem_append_left _ hc

/-- A `bind` child does not clear the flag: a run that has ended stays ended. -/
theorem bindNodeStep_sticky (passes : List PipelineItem) (name : String)
    (onMatch : List RegCall) (ubo : Bool) (st : ObjectsPhase) (bindNode : XmlNode)
    (h : (bindNodeStep passes name onMatch ubo st bindNode).thrown = false) :
    st.thrown = false := by
  by_contra ht
  have ht1 : st.thrown = true := by simpa using ht
  rw [bindNodeStep_thrown _ _ _ _ _ _ ht1, ht1] at h
  exact Bool.noConfusion h

theorem foldl_sticky {α β : Type} (G : β → Prop) (f : β → α → β)
    (hsticky : ∀ b x, G (f b x) → G b) (l : List α) : ∀ b, G (l.foldl f b) → G b := by
  induction l with
  | nil => intro b hb; exact hb
  | cons x xs ih =>
    intro b hb
    exact hsticky b x (ih (f b x) hb)

theorem bindNodes_sticky (passes : List PipelineItem) (name : String)
    (onMatch : List RegCall) (ubo : Bool) (st : ObjectsPhase) (objectNode : XmlNode)
    (h : (bindNodes passes name onMatch ubo st objectNode).thrown = false) :
    st.thrown = false := by
  unfold bindNodes at h
  exact foldl_sticky (fun s : ObjectsPhase => s.thrown = false) _
    (fun b x hb => bindNodeStep_sticky passes name onMatch ubo b x hb) _ st h

theorem bindNodes_calls_mono (passes : List PipelineItem) (name : String)
    (onMatch : List RegCall) (ubo : Bool) (st : ObjectsPhase) (objectNode : XmlNode)
    (c : RegCall) (hc : c ∈ st.calls) :
    c ∈ (bindNodes passes name onMatch ubo st objectNode).calls := by
  unfold bindNodes
  exact foldl_invariant (fun s => c ∈ s.calls) _ _ st hc
    (fun b a _ hb => bindNodeStep_calls_mono passes name onMatch ubo b a c hb)

theorem bindNodes_inv (passes : List PipelineItem) (name : String)
    (onMatch : List RegCall) (ubo : Bool) (st : ObjectsPhase) (objectNode : XmlNode)
    (hon : ∀ c ∈ onMatch, c.isResolve = false)
    (hname : (∃ c ∈ onMatch, c.createsName name = true) ∨
      ∃ c ∈ st.calls, c.createsName name = true)
    (hinv : st.Inv) :
    (bindNodes passes name onMatch ubo st objectNode).Inv := by
  unfold bindNodes
  have key := foldl_invariant
    (fun s : ObjectsPhase => s.Inv ∧ ((∃ c ∈ onMatch, c.createsName name = true) ∨
      ∃ c ∈ s.calls, c.createsName name = true))
    (bindNodeStep passes name onMatch ubo) (objectNode.childrenNamed "bind") st
    ⟨hinv, hname⟩
    (by
      intro b a _ hb
      obtain ⟨hbi, hbn⟩ := hb
      refine ⟨bindNodeStep_inv passes name onMatch ubo b a hon ?_ hbi, ?_⟩
      · rcases hbn with ⟨c, hc, hcn⟩ | ⟨c, hc, hcn⟩
        · exact ⟨c, List.mem_append_right _ hc, hcn⟩
        · exact ⟨c, List.mem_append_left _ hc, hcn⟩
      · rcases hbn with h | ⟨c, hc, hcn⟩
        · exact Or.inl h
        · exact Or.inr ⟨c, bindNodeStep_calls_mono passes name onMatch ubo b a c hc, hcn⟩)
  exact key.1

theorem ObjectsPhase.Inv.append {st : ObjectsPhase} (hinv : st.Inv) (more : List RegCall)
    (hmore : ∀ c ∈ more, c.isResolve = false) :
    ObjectsPhase.Inv { st with calls := st.calls ++ more } := by
  obtain ⟨h1, h2, h3, h4, h5⟩ := hinv
  refine ⟨?_, h2, h3, h4.mono, h5.mono⟩
  intro c hc
  rcases List.mem_append.1 hc with hc | hc
  · exact h1 c hc
  · exact hmore c hc

theorem textureCreateCall_creates (objectNode : XmlNode) :
    (textureCreateCall objectNode).2.createsName (textureCreateCall objectNode).1 = true ∧
    (textureCreateCall objectNode).2.isResolve = false := by
  cases h1 : attrEmpty (objectNode.attr "cube") <;>
    cases h2 : as_bool (objectNode.attr "cube") <;>
    simp [textureCreateCall, h1, h2, RegCall.createsName, RegCall.isResolve]

theorem m_parseV2_object_inv {F : Type} (S : StdText F) (passes : List PipelineItem)
    (st : ObjectsPhase) (objectNode : XmlNode) (hinv : st.Inv) :
    (m_parseV2_object S passes st objectNode).Inv := by
  unfold m_parseV2_object
  simp only
  split_ifs with h0 h1 h2 hs h3 h4
  · exact hinv
  · apply bindNodes_inv _ _ _ _ _ _ _ _ hinv
    · intro c hc
      simp only [List.mem_singleton] at hc
      rw [hc]
      exact (textureCreateCall_creates objectNode).2
    · exact Or.inl ⟨_, List.mem_singleton_self _, (textureCreateCall_creates objectNode).1⟩
  · exact (hinv.append _ (by simp [RegCall.isResolve])).thrown
  · apply bindNodes_inv _ _ _ _ _ _ (by simp) _
      ((hinv.append _ (by simp [RegCall.isResolve])).append _ (by simp [RegCall.isResolve]))
    exact Or.inr ⟨RegCall.CreateRenderTexture (as_string (objectNode.attr "name")),
      by simp, by simp [RegCall.createsName]⟩
  · apply bindNodes_inv _ _ _ _ _ _ (by simp) _ (hinv.append _ (by simp [RegCall.isResolve]))
    exact Or.inr ⟨RegCall.CreateAudio (toGenericPath (as_string (objectNode.attr "path"))),
      by simp, by simp [RegCall.createsName]⟩
  · apply bindNodes_inv _ _ _ _ _ _ (by simp) _ (hinv.append _ (by simp [RegCall.isResolve]))
    exact Or.inr ⟨RegCall.CreateBuffer (as_string (objectNode.attr "name")),
      by simp, by simp [RegCall.createsName]⟩
  · exact hinv

theorem m_parseV2_objects_inv {F : Type} (S : StdText F) (passes : List PipelineItem)
    (projectNode : Option XmlNode) : (m_parseV2_objects S passes projectNode).Inv := by
  unfold m_parseV2_objects
  apply foldl_invariant ObjectsPhase.Inv
  · refine ⟨by simp, by simp, by simp, ?_, ?_⟩ <;> intro e he <;> simp at he
  · intro b a _ hb
    exact m_parseV2_object_inv S passes b a hb

/-! ## Order of the registry calls of `m_parseV2` -/

theorem bindObjects_not_create (m : BindMap) :
    ∀ c ∈ bindObjects m, c.isCreate = false ∧ (∀ q, RegCall.uniformBoundTo q c = none) ∧
      ∃ n p, c = RegCall.Bind n p ∧ n ≠ "" ∧ ∃ e ∈ m, e.1 = p ∧ n ∈ e.2 := by
  intro c hc
  simp only [bindObjects, List.mem_flatten, List.mem_map] at hc
  obtain ⟨l, ⟨e, he, rfl⟩, hc⟩ := hc
  simp only [List.mem_map, List.mem_filter] at hc
  obtain ⟨n, ⟨hn, hne⟩, rfl⟩ := hc
  exact ⟨rfl, fun _ => rfl, n, e.1, rfl, by simpa using hne, e, he, rfl, hn⟩

theorem bindBuffers_not_create (m : BindMap) :
    ∀ c ∈ bindBuffers m, c.isCreate = false ∧ (∀ q, RegCall.boundTo q c = none) ∧
      ∃ n p, c = RegCall.BindUniform n p ∧ n ≠ "" ∧ ∃ e ∈ m, e.1 = p ∧ n ∈ e.2 := by
  intro c hc
  simp only [bindBuffers, List.mem_flatten, List.mem_map] at hc
  obtain ⟨l, ⟨e, he, rfl⟩, hc⟩ := hc
  simp only [List.mem_map, List.mem_filter] at hc
  obtain ⟨n, ⟨hn, hne⟩, rfl⟩ := hc
  exact ⟨rfl, fun _ => rfl, n, e.1, rfl, by simpa using hne, e, he, rfl, hn⟩

theorem resolveTargets_shape (m : BindMap) :
    ∀ c ∈ resolveTargets m, ∃ p k n, c = RegCall.ResolveTarget p k n := by
  intro c hc
  simp only [resolveTargets, resolveTargetsOf, List.mem_flatten, List.mem_map] at hc
  obtain ⟨l, ⟨e, _, rfl⟩, hc⟩ := hc
  simp only [List.mem_map] at hc
  obtain ⟨x, _, rfl⟩ := hc
  exact ⟨_, _, _, rfl⟩

theorem getElem?_append_ge_of_not_left {l r : List RegCall} {j : Nat} {d : RegCall}
    (h : (l ++ r)[j]? = some d) (hd : d ∉ l) : l.length ≤ j ∧ d ∈ r := by
  by_cases hj : j < l.length
  · rw [List.getElem?_append_left hj] at h
    exact absurd (List.getElem?_mem h) hd
  · rw [List.getElem?_append_right (by omega)] at h
    exact ⟨by omega, List.getElem?_mem h⟩

theorem getElem?_append_lt_of_not_right {l r : List RegCall} {i : Nat} {c : RegCall}
    (h : (l ++ r)[i]? = some c) (hc : c ∉ r) : i < l.length := by
  by_contra hi
  rw [List.getElem?_append_right (by omega)] at h
  exact hc (List.getElem?_mem h)

theorem exists_index_of_mem_left {l r : List RegCall} {c : RegCall} (h : c ∈ l) :
    ∃ i, i < l.length ∧ (l ++ r)[i]? = some c := by
  obtain ⟨i, hi, hc⟩ := List.getElem_of_mem h
  refine ⟨i, hi, ?_⟩
  rw [List.getElem?_append_left hi, List.getElem?_eq_getElem hi, hc]

/-- The calls of a run whose object loop ends without exception. -/
theorem m_parseV2_calls_split {F : Type} (S : StdText F) (passes : List PipelineItem)
    (dataAddr : Nat → Nat) (projectNode : Option XmlNode)
    (h : (m_parseV2_objects S passes projectNode).thrown = false) :
    m_parseV2_calls S passes dataAddr projectNode =
      (m_parseV2_objects S passes projectNode).calls ++
        (bindObjects (m_parseV2_objects S passes projectNode).boundTextures ++
          (bindBuffers (m_parseV2_objects S passes projectNode).boundUBOs ++
            resolveTargets (m_parseV2_fbos dataAddr projectNode))) := by
  simp [m_parseV2_calls, h, List.append_assoc]

/-- The calls of a run that an exception cuts short in the object loop. -/
theorem m_parseV2_calls_thrown {F : Type} (S : StdText F) (passes : List PipelineItem)
    (dataAddr : Nat → Nat) (projectNode : Option XmlNode)
    (h : (m_parseV2_objects S passes projectNode).thrown = true) :
    m_parseV2_calls S passes dataAddr projectNode =
      (m_parseV2_objects S passes projectNode).calls := by
  simp [m_parseV2_calls, h]

/-- Every call after the object loop is a bind, a uniform bind or a chain lookup. -/
theorem later_calls_shape {F : Type} (S : StdText F) (passes : List PipelineItem)
    (dataAddr : Nat → Nat) (projectNode : Option XmlNode) (c : RegCall)
    (hc : c ∈ bindObjects (m_parseV2_objects S passes projectNode).boundTextures ++
          (bindBuffers (m_parseV2_objects S passes projectNode).boundUBOs ++
            resolveTargets (m_parseV2_fbos dataAddr projectNode))) :
    c.isCreate = false ∧ c.isResolve = true := by
  rcases List.mem_append.1 hc with h | h
  · obtain ⟨h1, _, n, p, rfl, _⟩ := bindObjects_not_create _ c h
    exact ⟨h1, rfl⟩
  · rcases List.mem_append.1 h with h | h
    · obtain ⟨h1, _, n, p, rfl, _⟩ := bindBuffers_not_create _ c h
      exact ⟨h1, rfl⟩
    · obtain ⟨p, k, n, rfl⟩ := resolveTargets_shape _ c h
      exact ⟨rfl, rfl⟩

theorem foldl_reaches_guarded {α β : Type} (Q G : β → Prop) (f : β → α → β) (l : List α)
    (a : α) (ha : a ∈ l) (hmono : ∀ b x, Q b → Q (f b x))
    (hsticky : ∀ b x, G (f b x) → G b) (hstep : ∀ b, G (f b a) → Q (f b a)) :
    ∀ b, G (l.foldl f b) → Q (l.foldl f b) := by
  induction l with
  | nil => simp at ha
  | cons x xs ih =>
    intro b hg
    simp only [List.foldl_cons] at hg ⊢
    rcases List.mem_cons.1 ha with h | h
    · subst h
      exact foldl_invariant Q f xs _ (hstep b (foldl_sticky G f hsticky xs _ hg))
        (fun b x _ hq => hmono b x hq)
    · exact ih h _ hg

theorem m_parseV2_object_calls_mono {F : Type} (S : StdText F) (passes : List PipelineItem)
    (st : ObjectsPhase) (objectNode : XmlNode) (c : RegCall) (hc : c ∈ st.calls) :
    c ∈ (m_parseV2_object S passes st objectNode).calls := by
  unfold m_parseV2_object
  simp only
  split_ifs
  · exact hc
  · exact bindNodes_calls_mono _ _ _ _ _ _ _ hc
  · exact List.mem_append_left _ hc
  · exact bindNodes_calls_mono _ _ _ _ _ _ _
      (List.mem_append_left _ (List.mem_append_left _ hc))
  · exact bindNodes_calls_mono _ _ _ _ _ _ _ (List.mem_append_left _ hc)
  · exact bindNodes_calls_mono _ _ _ _ _ _ _ (List.mem_append_left _ hc)
  · exact hc

/-- An object node does not clear the flag: a run that has ended stays ended. -/
theorem m_parseV2_object_sticky {F : Type} (S : StdText F) (passes : List PipelineItem)
    (st : ObjectsPhase) (objectNode : XmlNode)
    (h : (m_parseV2_object S passes st objectNode).thrown = false) : st.thrown = false := by
  by_contra ht
  have ht1 : st.thrown = true := by simpa using ht
  unfold m_parseV2_object at h
  simp only [ht1, if_true] at h
  exact Bool.noConfusion h

/-- In a run whose object loop ends without exception every render texture node of the
document has been created. -/
theorem renderTexture_created {F : Type} (S : StdText F) (passes : List PipelineItem)
    (projectNode : Option XmlNode) (objectNode : XmlNode)
    (hmem : objectNode ∈ childrenOf (childOf projectNode "objects") "object")
    (htype : as_string (objectNode.attr "type") = "rendertexture")
    (hrun : (m_parseV2_objects S passes projectNode).thrown = false) :
    RegCall.CreateRenderTexture (as_string (objectNode.attr "name")) ∈
      (m_parseV2_objects S passes projectNode).calls := by
  unfold m_parseV2_objects at hrun ⊢
  apply foldl_reaches_guarded
    (fun s : ObjectsPhase =>
      RegCall.CreateRenderTexture (as_string (objectNode.attr "name")) ∈ s.calls)
    (fun s : ObjectsPhase => s.thrown = false)
    _ _ objectNode hmem
  · intro b x hb
    exact m_parseV2_object_calls_mono S passes b x _ hb
  · intro b x hb
    exact m_parseV2_object_sticky S passes b x hb
  · intro b hb
    have hb0 := m_parseV2_object_sticky S passes b objectNode hb
    unfold m_parseV2_object
    have htex : ¬ ("rendertexture" : String) = "texture" := by decide
    simp only [hb0, htype, htex, Bool.false_eq_true, if_false, if_true]
    split_ifs with hs
    · simp
    · exact bindNodes_calls_mono _ _ _ _ _ _ _ (by simp)
  · exact hrun

/-- C3: in the sequence of registry calls of the v2 reader every creating call stands
before every `Bind`, every `BindUniform` and every lookup that fills a render target
chain. Hence every `Bind` and `BindUniform` call names an object created by an earlier
call, and a chain lookup of the name of a `rendertexture` object node of the document
comes after the creation of that render texture, wherever the node stands. This holds for
every behaviour of `std::stof`, in the runs that reach the end of the reader and in
those that an exception cuts short. -/
theorem creations_precede_resolutions {F : Type} (S : StdText F)
    (passes : List PipelineItem) (dataAddr : Nat → Nat) (projectNode : Option XmlNode) :
    (∀ (i j : Nat) (c d : RegCall),
      (m_parseV2_calls S passes dataAddr projectNode)[i]? = some c →
      (m_parseV2_calls S passes dataAddr projectNode)[j]? = some d →
      c.isCreate = true → d.isResolve = true → i < j) ∧
    (∀ (j : Nat) (name : String) (pass : Nat),
      ((m_parseV2_calls S passes dataAddr projectNode)[j]? = some (RegCall.Bind name pass) ∨
       (m_parseV2_calls S passes dataAddr projectNode)[j]? =
          some (RegCall.BindUniform name pass)) →
      ∃ (i : Nat) (c : RegCall), i < j ∧
        (m_parseV2_calls S passes dataAddr projectNode)[i]? = some c ∧
        c.createsName name = true) ∧
    (∀ objectNode ∈ childrenOf (childOf projectNode "objects") "object",
      as_string (objectNode.attr "type") = "rendertexture" →
      ∀ (j pass index : Nat), (m_parseV2_calls S passes dataAddr projectNode)[j]? =
          some (RegCall.ResolveTarget pass index (as_string (objectNode.attr "name"))) →
      ∃ i, i < j ∧ (m_parseV2_calls S passes dataAddr projectNode)[i]? =
          some (RegCall.CreateRenderTexture (as_string (objectNode.attr "name")))) := by
  have hinv := m_parseV2_objects_inv S passes projectNode
  obtain ⟨hA, _, _, hT, hU⟩ := hinv
  have hnotA : ∀ d : RegCall, d.isResolve = true →
      d ∉ (m_parseV2_objects S passes projectNode).calls := by
    intro d hd hmem
    rw [hA d hmem] at hd
    exact Bool.noConfusion hd
  by_cases hrun : (m_parseV2_objects S passes projectNode).thrown = true
  · rw [m_parseV2_calls_thrown S passes dataAddr projectNode hrun]
    refine ⟨?_, ?_, ?_⟩
    · intro i j c d _ hj _ hd
      exact absurd (List.getElem?_mem hj) (hnotA d hd)
    · intro j name pass hj
      rcases hj with hj | hj
      · exact absurd (List.getElem?_mem hj) (hnotA _ rfl)
      · exact absurd (List.getElem?_mem hj) (hnotA _ rfl)
    · intro objectNode _ _ j pass index hj
      exact absurd (List.getElem?_mem hj) (hnotA _ rfl)
  have hrun0 : (m_parseV2_objects S passes projectNode).thrown = false := by
    simpa using hrun
  rw [m_parseV2_calls_split S passes dataAddr projectNode hrun0]
  refine ⟨?_, ?_, ?_⟩
  · intro i j c d hi hj hc hd
    have hj2 := getElem?_append_ge_of_not_left hj (hnotA d hd)
    have hi2 : i < (m_parseV2_objects S passes projectNode).calls.length := by
      apply getElem?_append_lt_of_not_right hi
      intro hmem
      rw [(later_calls_shape S passes dataAddr projectNode c hmem).1] at hc
      exact Bool.noConfusion hc
    omega
  · intro j name pass hj
    rcases hj with hj | hj
    · obtain ⟨hlen, hmem⟩ := getElem?_append_ge_of_not_left hj (hnotA _ rfl)
      have hB : RegCall.Bind name pass ∈
          bindObjects (m_parseV2_objects S passes projectNode).boundTextures := by
        rcases List.mem_append.1 hmem with h | h
        · exact h
        · rcases List.mem_append.1 h with h | h
          · obtain ⟨_, _, n, p, hnp, _⟩ := bindBuffers_not_create _ _ h
            exact RegCall.noConfusion hnp
          · obtain ⟨p, k, n, hnp⟩ := resolveTargets_shape _ _ h
            exact RegCall.noConfusion hnp
      obtain ⟨_, _, n, p, hnp, hne, e, he, _, hn⟩ := bindObjects_not_create _ _ hB
      injection hnp with h1 h2
      subst h1
      obtain ⟨c, hc, hcn⟩ := hT e he name hn hne
      obtain ⟨i, hi, hic⟩ := exists_index_of_mem_left hc
      exact ⟨i, c, by omega, hic, hcn⟩
    · obtain ⟨hlen, hmem⟩ := getElem?_append_ge_of_not_left hj (hnotA _ rfl)
      have hB : RegCall.BindUniform name pass ∈
          bindBuffers (m_parseV2_objects S passes projectNode).boundUBOs := by
        rcases List.mem_append.1 hmem with h | h
        · obtain ⟨_, _, n, p, hnp, _⟩ := bindObjects_not_create _ _ h
          exact RegCall.noConfusion hnp
        · rcases List.mem_append.1 h with h | h
          · exact h
          · obtain ⟨p, k, n, hnp⟩ := resolveTargets_shape _ _ h
            exact RegCall.noConfusion hnp
      obtain ⟨_, _, n, p, hnp, hne, e, he, _, hn⟩ := bindBuffers_not_create _ _ hB
      injection hnp with h1 h2
      subst h1
      obtain ⟨c, hc, hcn⟩ := hU e he name hn hne
      obtain ⟨i, hi, hic⟩ := exists_index_of_mem_left hc
      exact ⟨i, c, by omega, hic, hcn⟩
  · intro objectNode hmem htype j pass index hj
    obtain ⟨hlen, _⟩ := getElem?_append_ge_of_not_left hj (hnotA _ rfl)
    obtain ⟨i, hi, hic⟩ :=
      exists_index_of_mem_left
        (renderTexture_created S passes projectNode objectNode hmem htype hrun0)
    exact ⟨i, by omega, hic⟩

/-! ## Phase 2: the binding loops -/

theorem filterMap_none {α β : Type} (f : α → Option β) (l : List α)
    (h : ∀ a ∈ l, f a = none) : l.filterMap f = [] := by
  induction l with
  | nil => rfl
  | cons x xs ih =>
    rw [List.filterMap_cons, h x (List.mem_cons_self _ _)]
    exact ih (fun a ha => h a (List.mem_cons_of_mem _ ha))

theorem boundTo_isResolve (p : Nat) (c : RegCall) (h : c.isResolve = false) :
    RegCall.boundTo p c = none ∧ RegCall.uniformBoundTo p c = none := by
  cases c <;> simp [RegCall.isResolve] at h <;> exact ⟨rfl, rfl⟩

theorem bindObjects_cons (e : Nat × List String) (m : BindMap) :
    bindObjects (e :: m) =
      (e.2.filter (fun id => id ≠ "")).map (fun id => RegCall.Bind id e.1) ++ bindObjects m := by
  simp [bindObjects]

theorem bindBuffers_cons (e : Nat × List String) (m : BindMap) :
    bindBuffers (e :: m) =
      (e.2.filter (fun id => id ≠ "")).map (fun id => RegCall.BindUniform id e.1)
        ++ bindBuffers m := by
  simp [bindBuffers]

theorem filterMap_bind_same (p : Nat) (l : List String) :
    (l.map (fun id => RegCall.Bind id p)).filterMap (RegCall.boundTo p) = l := by
  induction l with
  | nil => rfl
  | cons x xs ih => simp [RegCall.boundTo, ih]

theorem filterMap_bind_other (p q : Nat) (h : q ≠ p) (l : List String) :
    (l.map (fun id => RegCall.Bind id q)).filterMap (RegCall.boundTo p) = [] := by
  apply filterMap_none
  intro a ha
  obtain ⟨n, _, rfl⟩ := List.mem_map.1 ha
  simp [RegCall.boundTo, h]

theorem filterMap_uniform_same (p : Nat) (l : List String) :
    (l.map (fun id => RegCall.BindUniform id p)).filterMap (RegCall.uniformBoundTo p)
      = l := by
  induction l with
  | nil => rfl
  | cons x xs ih => simp [RegCall.uniformBoundTo, ih]

theorem filterMap_uniform_other (p q : Nat) (h : q ≠ p) (l : List String) :
    (l.map (fun id => RegCall.BindUniform id q)).filterMap (RegCall.uniformBoundTo p)
      = [] := by
  apply filterMap_none
  intro a ha
  obtain ⟨n, _, rfl⟩ := List.mem_map.1 ha
  simp [RegCall.uniformBoundTo, h]

theorem BindMap.get_cons_same (e : Nat × List String) (m : BindMap) :
    BindMap.get (e :: m) e.1 = e.2 := by
  simp [BindMap.get]

theorem BindMap.get_cons_other (e : Nat × List String) (m : BindMap) (p : Nat)
    (h : e.1 ≠ p) : BindMap.get (e :: m) p = BindMap.get m p := by
  simp [BindMap.get, List.find?_cons_of_neg, h]

theorem BindMap.get_absent (m : BindMap) (p : Nat) (h : p ∉ m.map Prod.fst) :
    m.get p = [] := by
  induction m with
  | nil => rfl
  | cons e rest ih =>
    simp only [List.map_cons, List.mem_cons, not_or] at h
    rw [BindMap.get_cons_other e rest p (fun he => h.1 he.symm)]
    exact ih h.2

/-- The names bound to one pass by the texture loop, in call order, are the entries of
its slot table that are not empty, in slot order. -/
theorem bindObjects_per_pass (m : BindMap) (hkeys : (m.map Prod.fst).Nodup) (p : Nat) :
    (bindObjects m).filterMap (RegCall.boundTo p) = (m.get p).filter (fun id => id ≠ "") := by
  induction m with
  | nil => rfl
  | cons e rest ih =>
    simp only [List.map_cons, List.nodup_cons] at hkeys
    rw [bindObjects_cons, List.filterMap_append, ih hkeys.2]
    by_cases he : e.1 = p
    · subst he
      rw [filterMap_bind_same, BindMap.get_cons_same, BindMap.get_absent rest e.1 hkeys.1]
      simp
    · rw [filterMap_bind_other p e.1 he, BindMap.get_cons_other e rest p he]
      simp

/-- The names bound to one pass by the buffer loop, in call order, are the entries of its
buffer slot table that are not empty, in slot order. -/
theorem bindBuffers_per_pass (m : BindMap) (hkeys : (m.map Prod.fst).Nodup) (p : Nat) :
    (bindBuffers m).filterMap (RegCall.uniformBoundTo p)
      = (m.get p).filter (fun id => id ≠ "") := by
  induction m with
  | nil => rfl
  | cons e rest ih =>
    simp only [List.map_cons, List.nodup_cons] at hkeys
    rw [bindBuffers_cons, List.filterMap_append, ih hkeys.2]
    by_cases he : e.1 = p
    · subst he
      rw [filterMap_uniform_same, BindMap.get_cons_same, BindMap.get_absent rest e.1 hkeys.1]
      simp
    · rw [filterMap_uniform_other p e.1 he, BindMap.get_cons_other e rest p he]
      simp

/-- C5: phase 2 of binding resolution. The loop over `boundTextures` issues, for every
pass, one `Bind` call for each entry of the table of that pass that is not empty, in
increasing slot order, and none for an empty entry; the loop over `boundUBOs` does the
same with `BindUniform`. Both hold on every table with distinct keys, as the keys of a
`std::map` are: for the two loops of `m_parseV2` and for the loop `m_parseV1` shares. In a
run of `m_parseV2` whose object loop ends without exception, the `Bind` and `BindUniform`
calls of the whole run are those of the two loops on the tables the object loop has
built. In a run that an exception cuts short the two loops are not reached, and the run
issues no `Bind` and no `BindUniform` call. -/
theorem binds_follow_slot_tables {F : Type} (S : StdText F) (passes : List PipelineItem)
    (dataAddr : Nat → Nat) (projectNode : Option XmlNode) (pass : Nat) :
    (∀ boundTextures : BindMap, (boundTextures.map Prod.fst).Nodup →
      (bindObjects boundTextures).filterMap (RegCall.boundTo pass) =
        (boundTextures.get pass).filter (fun id => id ≠ "")) ∧
    (∀ boundUBOs : BindMap, (boundUBOs.map Prod.fst).Nodup →
      (bindBuffers boundUBOs).filterMap (RegCall.uniformBoundTo pass) =
        (boundUBOs.get pass).filter (fun id => id ≠ "")) ∧
    ((m_parseV2_objects S passes projectNode).thrown = false →
      (m_parseV2_calls S passes dataAddr projectNode).filterMap (RegCall.boundTo pass) =
        ((m_parseV2_objects S passes projectNode).boundTextures.get pass).filter
          (fun id => id ≠ "") ∧
      (m_parseV2_calls S passes dataAddr projectNode).filterMap
          (RegCall.uniformBoundTo pass) =
        ((m_parseV2_objects S passes projectNode).boundUBOs.get pass).filter
          (fun id => id ≠ "")) ∧
    ((m_parseV2_objects S passes projectNode).thrown = true →
      (m_parseV2_calls S passes dataAddr projectNode).filterMap (RegCall.boundTo pass) = [] ∧
      (m_parseV2_calls S passes dataAddr projectNode).filterMap
          (RegCall.uniformBoundTo pass) = []) := by
  obtain ⟨hA, hT, hU, _, _⟩ := m_parseV2_objects_inv S passes projectNode
  have hA1 : (m_parseV2_objects S passes projectNode).calls.filterMap (RegCall.boundTo pass)
      = [] := filterMap_none _ _ (fun c hc => (boundTo_isResolve pass c (hA c hc)).1)
  have hA2 : (m_parseV2_objects S passes projectNode).calls.filterMap
      (RegCall.uniformBoundTo pass) = [] :=
    filterMap_none _ _ (fun c hc => (boundTo_isResolve pass c (hA c hc)).2)
  have hB2 : (bindObjects (m_parseV2_objects S passes projectNode).boundTextures).filterMap
      (RegCall.uniformBoundTo pass) = [] :=
    filterMap_none _ _ (fun c hc => (bindObjects_not_create _ c hc).2.1 pass)
  have hC1 : (bindBuffers (m_parseV2_objects S passes projectNode).boundUBOs).filterMap
      (RegCall.boundTo pass) = [] :=
    filterMap_none _ _ (fun c hc => (bindBuffers_not_create _ c hc).2.1 pass)
  have hD1 : (resolveTargets (m_parseV2_fbos dataAddr projectNode)).filterMap
      (RegCall.boundTo pass) = [] := by
    apply filterMap_none
    intro c hc
    obtain ⟨p, k, n, rfl⟩ := resolveTargets_shape _ c hc
    rfl
  have hD2 : (resolveTargets (m_parseV2_fbos dataAddr projectNode)).filterMap
      (RegCall.uniformBoundTo pass) = [] := by
    apply filterMap_none
    intro c hc
    obtain ⟨p, k, n, rfl⟩ := resolveTargets_shape _ c hc
    rfl
  refine ⟨fun m hm => bindObjects_per_pass m hm pass,
    fun m hm => bindBuffers_per_pass m hm pass, ?_, ?_⟩
  · intro hrun
    constructor
    · rw [m_parseV2_calls_split S passes dataAddr projectNode hrun, List.filterMap_append,
        List.filterMap_append, List.filterMap_append, hA1, hC1, hD1,
        bindObjects_per_pass _ hT pass]
      simp
    · rw [m_parseV2_calls_split S passes dataAddr projectNode hrun, List.filterMap_append,
        List.filterMap_append, List.filterMap_append, hA2, hB2, hD2,
        bindBuffers_per_pass _ hU pass]
      simp
  · intro hrun
    rw [m_parseV2_calls_thrown S passes dataAddr projectNode hrun]
    exact ⟨hA1, hA2⟩

/-! ## Render state: reading what the writer wrote -/

theorem textAsBool_boolText (b : Bool) : textAsBool (boolText b) = b := by
  cases b <;> decide

theorem rasterizer_read {F : Type} (N : Names) (T : FloatText F) (st s : RenderState F)
    (hp : s.PolygonMode = GL_FILL ∨ s.PolygonMode = GL_LINE)
    (hc : s.CullFaceType = GL_BACK ∨ s.CullFaceType = GL_FRONT)
    (hf : s.FrontFace = GL_CCW ∨ s.FrontFace = GL_CW)
    (h1 : st.PolygonMode = GL_FILL) (h2 : st.CullFace = true)
    (h3 : st.CullFaceType = GL_BACK) (h4 : st.FrontFace = GL_CCW) :
    (SaveAs_rasterizer s).foldl (m_parseV2_renderStateAttr N T) st =
      { st with
        PolygonMode := s.PolygonMode
        CullFace := s.CullFace
        CullFaceType := s.CullFaceType
        FrontFace := s.FrontFace } := by
  cases st
  simp only at h1 h2 h3 h4
  subst h1 h2 h3 h4
  rcases hp with hp | hp <;> rcases hc with hc | hc <;> rcases hf with hf | hf <;>
    cases hcf : s.CullFace <;>
    simp [SaveAs_rasterizer, m_parseV2_renderStateAttr, XmlNode.leaf, XmlNode.name,
      XmlNode.text, textAsBool_boolText, hp, hc, hf, hcf, GL_FILL, GL_LINE, GL_BACK,
      GL_FRONT, GL_CCW, GL_CW]

theorem blend_read {F : Type} (N : Names) (T : FloatText F) (st s : RenderState F)
    (hoff : s.Blend = false → s.SameBlend st)
    (hon : s.Blend = true →
      m_toBlend N (N.BlendFactor s.BlendSourceFactorRGB) = s.BlendSourceFactorRGB ∧
      m_toBlend N (N.BlendFactor s.BlendDestinationFactorRGB)
        = s.BlendDestinationFactorRGB ∧
      m_toBlendOp N (N.BlendFunction s.BlendFunctionColor) = s.BlendFunctionColor ∧
      m_toBlend N (N.BlendFactor s.BlendSourceFactorAlpha) = s.BlendSourceFactorAlpha ∧
      m_toBlend N (N.BlendFactor s.BlendDestinationFactorAlpha)
        = s.BlendDestinationFactorAlpha ∧
      m_toBlendOp N (N.BlendFunction s.BlendFunctionAlpha) = s.BlendFunctionAlpha)
    (h1 : st.Blend = false) (h2 : st.AlphaToCoverage = false) :
    ∃ colour : Vec4 F,
      (SaveAs_blend N T s).foldl (m_parseV2_renderStateAttr N T) st =
        { st with
          Blend := s.Blend
          AlphaToCoverage := s.AlphaToCoverage
          BlendSourceFactorRGB := s.BlendSourceFactorRGB
          BlendDestinationFactorRGB := s.BlendDestinationFactorRGB
          BlendFunctionColor := s.BlendFunctionColor
          BlendSourceFactorAlpha := s.BlendSourceFactorAlpha
          BlendDestinationFactorAlpha := s.BlendDestinationFactorAlpha
          BlendFunctionAlpha := s.BlendFunctionAlpha
          BlendFactor := colour } := by
  refine ⟨((SaveAs_blend N T s).foldl (m_parseV2_renderStateAttr N T) st).BlendFactor, ?_⟩
  cases st
  simp only at h1 h2
  subst h1 h2
  cases hb : s.Blend
  · obtain ⟨e1, e2, e3, e4, e5, e6, e7⟩ := hoff hb
    simp only at e1 e2 e3 e4 e5 e6 e7
    simp only [SaveAs_blend, hb, List.foldl_nil, Bool.false_eq_true, if_false,
      e1, e2, e3, e4, e5, e6, e7]
  · obtain ⟨e1, e2, e3, e4, e5, e6⟩ := hon hb
    cases ha : s.AlphaToCoverage <;>
      simp [SaveAs_blend, hb, ha, m_parseV2_renderStateAttr, XmlNode.leaf, XmlNode.name,
        XmlNode.text, textAsBool_boolText, e1, e2, e3, e4, e5, e6]

theorem depth_read {F : Type} (N : Names) (T : FloatText F) (st s : RenderState F)
    (hoff : s.DepthTest = false → s.SameDepth st)
    (hon : s.DepthTest = true →
      m_toComparisonFunc N (N.ComparisonFunction s.DepthFunction) = s.DepthFunction ∧
      T.as_float (T.set s.DepthBias) = s.DepthBias)
    (h1 : st.DepthTest = false) :
    (SaveAs_depth N T s).foldl (m_parseV2_renderStateAttr N T) st =
      { st with
        DepthTest := s.DepthTest
        DepthClamp := s.DepthClamp
        DepthMask := s.DepthMask
        DepthFunction := s.DepthFunction
        DepthBias := s.DepthBias } := by
  cases st
  simp only at h1
  subst h1
  cases hb : s.DepthTest
  · obtain ⟨e1, e2, e3, e4⟩ := hoff hb
    simp only at e1 e2 e3 e4
    simp only [SaveAs_depth, hb, List.foldl_nil, Bool.false_eq_true, if_false,
      e1, e2, e3, e4]
  · obtain ⟨e1, e2⟩ := hon hb
    simp [SaveAs_depth, hb, m_parseV2_renderStateAttr, XmlNode.leaf, XmlNode.name,
      XmlNode.text, textAsBool_boolText, e1, e2]

theorem stencil_read {F : Type} (N : Names) (T : FloatText F) (st s : RenderState F)
    (hoff : s.StencilTest = false → s.SameStencil st)
    (hon : s.StencilTest = true →
      s.StencilMask ≤ UINT_MAX ∧ s.StencilReference ≤ UINT_MAX ∧
      m_toComparisonFunc N (N.ComparisonFunction s.StencilFrontFaceFunction)
        = s.StencilFrontFaceFunction ∧
      m_toComparisonFunc N (N.ComparisonFunction s.StencilBackFaceFunction)
        = s.StencilBackFaceFunction ∧
      m_toStencilOp N (N.StencilOperation s.StencilFrontFaceOpPass)
        = s.StencilFrontFaceOpPass ∧
      m_toStencilOp N (N.StencilOperation s.StencilBackFaceOpPass)
        = s.StencilBackFaceOpPass ∧
      m_toStencilOp N (N.StencilOperation s.StencilFrontFaceOpStencilFail)
        = s.StencilFrontFaceOpStencilFail ∧
      m_toStencilOp N (N.StencilOperation s.StencilBackFaceOpStencilFail)
        = s.StencilBackFaceOpStencilFail ∧
      m_toStencilOp N (N.StencilOperation s.StencilFrontFaceOpDepthFail)
        = s.StencilFrontFaceOpDepthFail ∧
      m_toStencilOp N (N.StencilOperation s.StencilBackFaceOpDepthFail)
        = s.StencilBackFaceOpDepthFail)
    (h1 : st.StencilTest = false) :
    (SaveAs_stencil N s).foldl (m_parseV2_renderStateAttr N T) st =
      { st with
        StencilTest := s.StencilTest
        StencilMask := s.StencilMask
        StencilReference := s.StencilReference
        StencilFrontFaceFunction := s.StencilFrontFaceFunction
        StencilBackFaceFunction := s.StencilBackFaceFunction
        StencilFrontFaceOpPass := s.StencilFrontFaceOpPass
        StencilBackFaceOpPass := s.StencilBackFaceOpPass
        StencilFrontFaceOpStencilFail := s.StencilFrontFaceOpStencilFail
        StencilBackFaceOpStencilFail := s.StencilBackFaceOpStencilFail
        StencilFrontFaceOpDepthFail := s.StencilFrontFaceOpDepthFail
        StencilBackFaceOpDepthFail := s.StencilBackFaceOpDepthFail } := by
  cases st
  simp only at h1
  subst h1
  cases hb : s.StencilTest
  · obtain ⟨e1, e2, e3, e4, e5, e6, e7, e8, e9, e10⟩ := hoff hb
    simp only at e1 e2 e3 e4 e5 e6 e7 e8 e9 e10
    simp only [SaveAs_stencil, hb, List.foldl_nil, Bool.false_eq_true, if_false,
      e1, e2, e3, e4, e5, e6, e7, e8, e9, e10]
  · obtain ⟨m1, m2, e3, e4, e5, e6, e7, e8, e9, e10⟩ := hon hb
    simp [SaveAs_stencil, hb, m_parseV2_renderStateAttr, XmlNode.leaf, XmlNode.name,
      XmlNode.text, textAsBool_boolText, textAsUInt_natText _ m1, textAsUInt_natText _ m2,
      e3, e4, e5, e6, e7, e8, e9, e10]

/-- With blending off the writer emits no `alpha2coverage` child, and no other child
changes that flag. -/
theorem alphaToCoverage_kept {F : Type} (N : Names) (T : FloatText F) (l : List XmlNode)
    (hl : ∀ x ∈ l, x.name ≠ "alpha2coverage") (st : RenderState F) :
    (l.foldl (m_parseV2_renderStateAttr N T) st).AlphaToCoverage = st.AlphaToCoverage := by
  induction l generalizing st with
  | nil => rfl
  | cons x xs ih =>
    rw [List.foldl_cons, ih (fun y hy => hl y (List.mem_cons_of_mem _ hy))]
    have hx := hl x (List.mem_cons_self _ _)
    simp only [m_parseV2_renderStateAttr, apply_ite RenderState.AlphaToCoverage, hx,
      if_false, ite_self]

theorem name_ne_of_names (l : List XmlNode) (names : List String) (tag : String)
    (h : l.map XmlNode.name = names) (hn : tag ∉ names) : ∀ x ∈ l, x.name ≠ tag := by
  intro x hx hname
  apply hn
  rw [← h, ← hname]
  exact List.mem_map_of_mem _ hx

theorem mem_ite_singleton {c : Prop} [Decidable c] {a x : XmlNode}
    (h : x ∈ (if c then [a] else [])) : x = a := by
  split_ifs at h
  · simpa using h
  · simp at h

theorem written_without_blend_names {F : Type} (N : Names) (T : FloatText F)
    (itemName : String) (s : RenderState F) (hb : s.Blend = false) :
    ∀ x ∈ (SaveAs_renderState N T itemName s).children, x.name ≠ "alpha2coverage" := by
  intro x hx
  simp only [SaveAs_renderState, XmlNode.children, List.mem_append] at hx
  rcases hx with ((hx | hx) | hx) | hx
  · simp only [SaveAs_rasterizer, List.mem_append] at hx
    rcases hx with ((hx | hx) | hx) | hx <;>
      rw [mem_ite_singleton hx] <;> simp [XmlNode.leaf, XmlNode.name]
  · simp [SaveAs_blend, hb] at hx
  · cases hd : s.DepthTest
    · simp [SaveAs_depth, hd] at hx
    · exact name_ne_of_names (SaveAs_depth N T s)
        ["depthtest", "depthclamp", "depthmask", "depthfunc", "depthbias"] _
        (by simp [SaveAs_depth, hd, XmlNode.leaf, XmlNode.name]) (by decide) x hx
  · cases hd : s.StencilTest
    · simp [SaveAs_stencil, hd] at hx
    · exact name_ne_of_names (SaveAs_stencil N s)
        ["stenciltest", "stencilmask", "stencilref", "stencilfrontfunc", "stencilbackfunc",
         "stencilfrontpass", "stencilbackpass", "stencilfrontfail", "stencilbackfail",
         "depthfrontfail", "depthbackfail"] _
        (by simp [SaveAs_stencil, hd, XmlNode.leaf, XmlNode.name]) (by decide) x hx

/-- C6, as stated, fails, whatever record the constructor builds and whatever the name
tables are: the record obtained from the fresh one by switching blending off and
flipping alpha to coverage is written without an `alpha2coverage` child and is read back
with the flag of the fresh record. -/
theorem renderState_roundtrip_fails :
    ¬ ∃ (N : Names) (T : FloatText Int) (fresh : RenderState Int),
      ∀ s : RenderState Int,
        m_parseV2_renderState N T fresh (SaveAs_renderState N T "state" s) = s := by
  rintro ⟨N, T, fresh, h⟩
  have key := h { fresh with Blend := false, AlphaToCoverage := !fresh.AlphaToCoverage }
  have hkept := alphaToCoverage_kept N T _
    (written_without_blend_names N T "state"
      { fresh with Blend := false, AlphaToCoverage := !fresh.AlphaToCoverage } rfl) fresh
  unfold m_parseV2_renderState at key
  rw [key] at hkept
  simp at hkept

/-- C6, amended: when the fresh record carries the defaults the writer relies on, the
record `s` is one the writer represents in full (mode fill or line, face back or front,
winding counter clockwise or clockwise, and the fields of every group that is switched
off equal to those of the fresh record) and the texts written for the enabled groups read
back to their values, the v2 reader applied to the item node the writer emits for `s`
yields `s` in every field other than the blend constant colour. -/
theorem renderState_read_back {F : Type} (N : Names) (T : FloatText F)
    (fresh s : RenderState F) (itemName : String)
    (hfresh : fresh.WriterDefaults) (hrep : RenderState.Representable fresh s)
    (htext : RenderState.TextReadsBack N T s) :
    { m_parseV2_renderState N T fresh (SaveAs_renderState N T itemName s) with
      BlendFactor := s.BlendFactor } = s := by
  obtain ⟨d1, d2, d3, d4, d5, d6, d7, d8⟩ := hfresh
  obtain ⟨hp, hc, hf, hB, hD, hS⟩ := hrep
  obtain ⟨tB, tD, tS⟩ := htext
  unfold m_parseV2_renderState SaveAs_renderState
  simp only [XmlNode.children, List.foldl_append]
  rw [rasterizer_read N T fresh s hp hc hf d1 d2 d3 d4]
  obtain ⟨colour, hblend⟩ := blend_read N T
    { fresh with
      PolygonMode := s.PolygonMode
      CullFace := s.CullFace
      CullFaceType := s.CullFaceType
      FrontFace := s.FrontFace } s (fun h => hB h) tB d5 d6
  rw [hblend, depth_read N T _ s, stencil_read N T _ s]
  · exact hS
  · exact tS
  · exact d8
  · exact hD
  · exact tD
  · exact d7

/-! ## Instances on concrete inputs -/

/-- A `bind` child with slot 2 for the pass `Main`, on empty tables. -/
theorem bind_records_name_at_slot_witness :
    findPass mainPass (as_string
      ((XmlNode.mk "bind" [("slot", "2"), ("name", "Main")] "" []).attr "name"))
        = some { ptr := 100, Name := "Main" } ∧
    0 ≤ as_int ((XmlNode.mk "bind" [("slot", "2"), ("name", "Main")] "" []).attr "slot") ∧
    (((bindNodeStep mainPass "tex.png" [] false
        { calls := [], boundTextures := [], boundUBOs := [] }
        (XmlNode.mk "bind" [("slot", "2"), ("name", "Main")] "" [])).table false).get 100)[
      (as_int ((XmlNode.mk "bind" [("slot", "2"), ("name", "Main")] "" []).attr
        "slot")).toNat]? = some "tex.png" ∧
    ((bindNodeStep mainPass "tex.png" [] false
        { calls := [], boundTextures := [], boundUBOs := [] }
        (XmlNode.mk "bind" [("slot", "2"), ("name", "Main")] "" [])).table false).get 100
      = ["", "", "tex.png"] :=
  ⟨by decide, by decide,
   (bind_records_name_at_slot mainPass "tex.png" [] false
      { calls := [], boundTextures := [], boundUBOs := [] }
      (XmlNode.mk "bind" [("slot", "2"), ("name", "Main")] "" [])
      { ptr := 100, Name := "Main" } rfl (by decide) (by decide) (by decide)).2.2.1,
   by decide⟩

/-- C4 at a failing input, a `bind` node of the existing pass `Main` with the slot
2147483647. The slot is not negative, and the `int` sum `slot + 1` that the resize is
called with does not fit an `int`. Taken in 32 bits the sum is -2147483648, which the
conversion to `size_t` turns into 18446744071562067968; `resize` throws and the run ends:
the table of the pass has not grown to 2147483648 names, and the name of the object is
not at the slot. -/
theorem max_slot_sum_overflows :
    as_int (maxSlotBind.attr "slot") = 2147483647 ∧
    0 ≤ as_int (maxSlotBind.attr "slot") ∧
    findPass mainPass (as_string (maxSlotBind.attr "name")) =
      some { ptr := 100, Name := "Main" } ∧
    INT_MAX < as_int (maxSlotBind.attr "slot") + 1 ∧
    wrapInt (as_int (maxSlotBind.attr "slot") + 1) = INT_MIN ∧
    toSizeT (wrapInt (as_int (maxSlotBind.attr "slot") + 1)) = 18446744071562067968 ∧
    resizeThrows [] (as_int (maxSlotBind.attr "slot")) = true ∧
    (bindNodeStep mainPass "tex.png" [] false
      { calls := [], boundTextures := [], boundUBOs := [] } maxSlotBind).thrown = true ∧
    ((bindNodeStep mainPass "tex.png" [] false
      { calls := [], boundTextures := [], boundUBOs := [] } maxSlotBind).boundTextures.get
        100) = [] := by
  decide

/-- Instance of C3 on the sample project: the calls of the reader, and the creation of
the texture at position 0 standing before the bind of the render texture at position 7,
although the pass that uses both comes first in the document. -/
theorem creations_precede_resolutions_witness :
    m_parseV2_calls wholeStd mainPass (fun i => 200 + i) (some sampleProject) =
      [RegCall.CreateTexture "tex.png", RegCall.CreateRenderTexture "rt",
       RegCall.GetTexture "rt", RegCall.GetRenderTexture "rt",
       RegCall.ResizeRenderTexture "rt", RegCall.CreateBuffer "buf",
       RegCall.GetBuffer "buf", RegCall.Bind "rt" 100, RegCall.Bind "tex.png" 100,
       RegCall.BindUniform "buf" 100, RegCall.ResolveTarget 200 0 "rt"] ∧
    0 < 7 :=
  ⟨by decide,
   (creations_precede_resolutions wholeStd mainPass (fun i => 200 + i)
      (some sampleProject)).1 0 7
      (RegCall.CreateTexture "tex.png") (RegCall.Bind "rt" 100) (by decide) (by decide)
      rfl rfl⟩

/-- A render texture node whose size does not convert ends the run after the three calls
that create it and look it up: it is not resized, its `bind` child is not read, and the
texture node after it is not reached. -/
theorem size_exception_ends_run :
    (m_parseV2_objects wholeStd mainPass (some cutShortProject)).thrown = true ∧
    (m_parseV2_objects wholeStd mainPass (some cutShortProject)).boundTextures = [] ∧
    m_parseV2_calls wholeStd mainPass (fun i => 200 + i) (some cutShortProject) =
      [RegCall.CreateRenderTexture "rt", RegCall.GetTexture "rt",
       RegCall.GetRenderTexture "rt"] := by
  decide

/-- A `bind` node of an existing pass with the slot -2: the sum `slot + 1` is -1, the
resize asks for 18446744073709551615 names and throws, and the run ends with the node. -/
theorem resize_throws_below_minus_one :
    toSizeT (wrapInt (-2 + 1)) = 18446744073709551615 ∧
    resizeThrows ["a", "b"] (-2) = true ∧
    (bindNodeStep mainPass "tex.png" [RegCall.CreateTexture "tex.png"] false
      { calls := [], boundTextures := [], boundUBOs := [] }
      (XmlNode.mk "bind" [("slot", "-2"), ("name", "Main")] "" [])).thrown = true ∧
    (bindNodeStep mainPass "tex.png" [RegCall.CreateTexture "tex.png"] false
      { calls := [], boundTextures := [], boundUBOs := [] }
      (XmlNode.mk "bind" [("slot", "-2"), ("name", "Main")] "" [])).calls = [] := by
  decide

/-- Instance of C5: a table with an empty entry between two names; the sample project,
whose object loop ends and whose two textures are bound in slot order; and the project
whose first object is a render texture without size, where the run ends in the object
loop and nothing is bound. -/
theorem binds_follow_slot_tables_witness :
    (([(100, ["rt", "", "tex.png"])] : BindMap).map Prod.fst).Nodup ∧
    (bindObjects [(100, ["rt", "", "tex.png"])]).filterMap (RegCall.boundTo 100) =
      ["rt", "tex.png"] ∧
    (m_parseV2_objects wholeStd mainPass (some sampleProject)).thrown = false ∧
    (m_parseV2_calls wholeStd mainPass (fun i => 200 + i) (some sampleProject)).filterMap
      (RegCall.boundTo 100) = ["rt", "tex.png"] ∧
    (m_parseV2_calls wholeStd mainPass (fun i => 200 + i) (some sampleProject)).filterMap
      (RegCall.uniformBoundTo 100) = ["buf"] ∧
    (m_parseV2_objects wholeStd mainPass (some cutShortProject)).thrown = true ∧
    (m_parseV2_calls wholeStd mainPass (fun i => 200 + i) (some cutShortProject)).filterMap
      (RegCall.boundTo 100) = [] := by
  have h := binds_follow_slot_tables wholeStd mainPass (fun i => 200 + i)
    (some sampleProject) 100
  have hc := binds_follow_slot_tables wholeStd mainPass (fun i => 200 + i)
    (some cutShortProject) 100
  have hrun : (m_parseV2_objects wholeStd mainPass (some sampleProject)).thrown = false := by
    decide
  have hcut : (m_parseV2_objects wholeStd mainPass (some cutShortProject)).thrown = true := by
    decide
  refine ⟨by decide, ?_, hrun, ?_, ?_, hcut, (hc.2.2.2 hcut).1⟩
  · rw [h.1 [(100, ["rt", "", "tex.png"])] (by decide)]
    decide
  · rw [(h.2.2.1 hrun).1]
    decide
  · rw [(h.2.2.1 hrun).2]
    decide

/-- Instance of the amended C6: a wireframe state with blending and the stencil test on
is read back in every field but the constant colour. -/
theorem renderState_read_back_witness :
    freshRenderState.WriterDefaults ∧
    RenderState.Representable freshRenderState wireBlendStencil ∧
    RenderState.TextReadsBack sampleNames wholeFloats wireBlendStencil ∧
    { m_parseV2_renderState sampleNames wholeFloats freshRenderState
        (SaveAs_renderState sampleNames wholeFloats "state" wireBlendStencil) with
      BlendFactor := wireBlendStencil.BlendFactor } = wireBlendStencil :=
  have h1 : freshRenderState.WriterDefaults := by
    unfold RenderState.WriterDefaults
    decide
  have h2 : RenderState.Representable freshRenderState wireBlendStencil := by
    unfold RenderState.Representable RenderState.SameBlend RenderState.SameDepth
      RenderState.SameStencil
    decide
  have h3 : RenderState.TextReadsBack sampleNames wholeFloats wireBlendStencil := by
    unfold RenderState.TextReadsBack
    decide
  ⟨h1, h2, h3,
   renderState_read_back sampleNames wholeFloats freshRenderState wireBlendStencil "state"
     h1 h2 h3⟩

/-! ## The value codec on matrices -/

/-- C7 at a failing input, a 2 by 2 float matrix with the cells 1, 2 (row 0) and 11, 12
(row 1). The writer emits the rows `1 2 1` and `12`; read into a fresh variable, the cell
at column 1, row 1 is still 0 instead of 12 and the cell at column 0, row 1 is 12 instead
of 11. -/
theorem matrix_value_not_reproduced :
    rowTexts (m_exportVariableValue wholeFloats noArguments
      (gridVariable ValueType.Float2x2)) = [["1", "2", "1"], ["12"]] ∧
    (gridVariable ValueType.Float2x2).floats 1 1 = 12 ∧
    (valueWrittenThenRead wholeFloats noArguments
      (gridVariable ValueType.Float2x2)).floats 1 1 = 0 ∧
    (gridVariable ValueType.Float2x2).floats 0 1 = 11 ∧
    (valueWrittenThenRead wholeFloats noArguments
      (gridVariable ValueType.Float2x2)).floats 0 1 = 12 := by
  decide

/-- C8 at a failing input, a 4 by 4 float matrix whose cell at column c, row r holds
10 r + c + 1. The first row written has five values, the fifth being the cell at
column 0, row 0; the rows that follow start at column 1 and end with column 0; the last
row has three values. -/
theorem matrix_rows_misplaced :
    rowTexts (m_exportVariableValue wholeFloats noArguments
      (gridVariable ValueType.Float4x4)) =
      [["1", "2", "3", "4", "1"], ["12", "13", "14", "11"], ["22", "23", "24", "21"],
       ["32", "33", "34"]] := by
  decide

/-! ## Objects: writing then reading -/

/-- C9 at a failing input, a registry with one texture bound to no pass. The writer emits
an `object` node for it without `bind` child, and the v2 reader, given the written
document, issues no call at all: the texture is not created. -/
theorem unbound_texture_not_created :
    (SaveAs_objects sampleNames wholeFloats unboundTexture mainPass).map
      (fun n => (n.name, n.attrs, n.children.length)) =
      [("object", [("type", "texture"), ("path", "tex.png")], 0)] ∧
    m_parseV2_calls wholeStd mainPass (fun i => 200 + i)
      (some (SaveAs_projectNode []
        (SaveAs_objects sampleNames wholeFloats unboundTexture mainPass) [])) = [] := by
  decide

/-- C10 at a failing input, a cubemap with six different face paths bound to the pass
`Main`. The writer emits the path of the right face under `back`, and the v2 reader
requests a cubemap whose back face is `right.png`. -/
theorem cubemap_back_face_lost :
    boundCubemap.GetCubemapTextures "sky" =
      ["left.png", "top.png", "front.png", "bottom.png", "right.png", "back.png"] ∧
    (SaveAs_objects sampleNames wholeFloats boundCubemap mainPass).map
      (fun n => n.attr "back") = [some "right.png"] ∧
    (m_parseV2_objects wholeStd mainPass
      (some (SaveAs_projectNode []
        (SaveAs_objects sampleNames wholeFloats boundCubemap mainPass) []))).calls =
      [RegCall.CreateCubemap "sky" "left.png" "top.png" "front.png" "bottom.png"
        "right.png" "right.png"] := by
  decide

/-! ## The name lookups `m_toBlend`, `m_toBlendOp`, `m_toComparisonFunc`, `m_toStencilOp`, `m_toCullMode` -/

theorem findValue_absent (names : List String) (values : List GLenum) (text : String)
    (h : text ∉ names) : findValue names values text = none := by
  induction names generalizing values with
  | nil => cases values <;> rfl
  | cons n ns ih =>
    cases values with
    | nil => rfl
    | cons v vs =>
      simp only [List.mem_cons, not_or] at h
      simp only [findValue, if_neg h.1]
      exact ih vs h.2

theorem findValue_first (names : List String) (values : List GLenum) (text : String)
    (k : Nat) (v : GLenum) (hk : names[k]? = some text)
    (hfirst : ∀ j, j < k → names[j]? ≠ some text) (hv : values[k]? = some v) :
    findValue names values text = some v := by
  induction names generalizing values k with
  | nil => simp at hk
  | cons n ns ih =>
    cases values with
    | nil => simp at hv
    | cons w ws =>
      cases k with
      | zero =>
        simp only [List.getElem?_cons_zero, Option.some.injEq] at hk hv
        simp [findValue, hk, hv]
      | succ k =>
        have hn : ¬ text = n := by
          intro h
          exact hfirst 0 (Nat.succ_pos k) (by simp [h])
        simp only [List.getElem?_cons_succ] at hk hv
        simp only [findValue, if_neg hn]
        exact ih ws k hk (fun j hj => by
          have := hfirst (j + 1) (by omega)
          simpa using this) hv

theorem looksUp_findValue (names : List String) (values : List GLenum) (dflt : GLenum) :
    LooksUp names values dflt (fun text => (findValue names values text).getD dflt) := by
  constructor
  · intro text k v hk hfirst hv
    simp [findValue_first names values text k v hk hfirst hv]
  · intro text h
    simp [findValue_absent names values text h]

/-- C18: the five name lookups never fail. Each returns the value paired with the first
entry of its name table whose name equals the text, and for a text that equals no entry
the fixed default: constant colour for `m_toBlend`, add for `m_toBlendOp`, always for
`m_toComparisonFunc`, keep for `m_toStencilOp`, back for `m_toCullMode`. -/
theorem enum_lookups_total (N : Names) :
    LooksUp N.BLEND_NAMES N.BLEND_VALUES GL_CONSTANT_COLOR (m_toBlend N) ∧
    LooksUp N.BLEND_OPERATOR_NAMES N.BLEND_OPERATOR_VALUES GL_FUNC_ADD (m_toBlendOp N) ∧
    LooksUp N.COMPARISON_FUNCTION_NAMES N.COMPARISON_FUNCTION_VALUES GL_ALWAYS
      (m_toComparisonFunc N) ∧
    LooksUp N.STENCIL_OPERATION_NAMES N.STENCIL_OPERATION_VALUES GL_KEEP
      (m_toStencilOp N) ∧
    LooksUp N.CULL_MODE_NAMES N.CULL_MODE_VALUES GL_BACK (m_toCullMode N) :=
  ⟨looksUp_findValue _ _ _, looksUp_findValue _ _ _, looksUp_findValue _ _ _,
   looksUp_findValue _ _ _, looksUp_findValue _ _ _⟩

/-- Instance of C18 on tables with a repeated name: the first entry wins, and an unknown
name gives the default. -/
theorem enum_lookups_total_witness :
    m_toBlend twoBlendNames "One" = 1 ∧
    m_toBlend twoBlendNames "Zero" = 0 ∧
    m_toBlend twoBlendNames "Nothing" = GL_CONSTANT_COLOR ∧
    m_toCullMode twoBlendNames "" = GL_BACK :=
  ⟨(enum_lookups_total twoBlendNames).1.1 "One" 0 1 rfl (fun j hj => by omega) rfl,
   (enum_lookups_total twoBlendNames).1.1 "Zero" 1 0 rfl
     (fun j hj => by interval_cases j; decide) rfl,
   (enum_lookups_total twoBlendNames).1.2 "Nothing" (by decide),
   (enum_lookups_total twoBlendNames).2.2.2.2.2 "" (by decide)⟩

/-! ## A render state with blending only: what the writer emits -/

/-- C12, as stated, fails: for the fresh record with blending switched on the writer
emits eleven children, not `blend` alone. -/
theorem blend_group_writes_eleven :
    (SaveAs_renderState sampleNames wholeFloats "state"
      { freshRenderState with Blend := true }).children.map XmlNode.name ≠ ["blend"] := by
  decide

/-- C12, amended: for a record whose only field off its default is `Blend = true`, the
item node the writer emits has no rasterizer, alpha to coverage, depth or stencil child;
its children are `blend`, the six blend factor and function children and the four
constant colour children, in this order, whatever their values. -/
theorem blend_only_children {F : Type} (N : Names) (T : FloatText F)
    (fresh : RenderState F) (itemName : String) (hfresh : fresh.WriterDefaults) :
    (SaveAs_renderState N T itemName { fresh with Blend := true }).children.map
        XmlNode.name =
      ["blend", "colorsrcfactor", "colordstfactor", "colorfunc", "alphasrcfactor",
       "alphadstfactor", "alphafunc", "blendfactor_r", "blendfactor_g", "blendfactor_b",
       "blendfactor_a"] := by
  obtain ⟨d1, d2, d3, d4, _, d6, d7, d8⟩ := hfresh
  simp [SaveAs_renderState, XmlNode.children, SaveAs_rasterizer, SaveAs_blend,
    SaveAs_depth, SaveAs_stencil, d1, d2, d3, d4, d6, d7, d8, XmlNode.leaf, XmlNode.name]

/-- Instance of the amended C12 on the fresh record of the examples. -/
theorem blend_only_children_witness :
    freshRenderState.WriterDefaults ∧
    (SaveAs_renderState sampleNames wholeFloats "state"
      { freshRenderState with Blend := true }).children.map XmlNode.name =
      ["blend", "colorsrcfactor", "colordstfactor", "colorfunc", "alphasrcfactor",
       "alphadstfactor", "alphafunc", "blendfactor_r", "blendfactor_g", "blendfactor_b",
       "blendfactor_a"] :=
  have h : freshRenderState.WriterDefaults := by
    unfold RenderState.WriterDefaults
    decide
  ⟨h, blend_only_children sampleNames wholeFloats freshRenderState "state" h⟩

/-! ## A document that does not parse: what `Open` leaves behind -/

/-- C20, as stated, fails: when the file does not parse, the file path and the project
directory after the call are those of the file that was passed, not those of the project
that was loaded. -/
theorem Open_parse_failure_moves_path :
    (Open wholeFloats (markReader "v1") (markReader "v2") (fun _ => none)
        "new/broken.sprj" loadedProject).m_file ≠ loadedProject.m_file ∧
    (Open wholeFloats (markReader "v1") (markReader "v2") (fun _ => none)
        "new/broken.sprj" loadedProject).m_projectPath ≠ loadedProject.m_projectPath := by
  constructor <;> decide

/-- C20, amended: when the file does not parse, `Open` leaves the pass list and the
object registry as they were; the file path is the path that was passed, the project
directory is its directory part, and the message stack and the model cache are empty. -/
theorem Open_parse_failure_keeps_model {F : Type} (T : FloatText F)
    (m_parseV1 m_parseV2 : Option XmlNode → ProjectState F → ProjectState F)
    (load_file : String → Option XmlNode) (file : String) (s : ProjectState F)
    (hload : load_file file = none) :
    (Open T m_parseV1 m_parseV2 load_file file s).pipe = s.pipe ∧
    (Open T m_parseV1 m_parseV2 load_file file s).objects = s.objects ∧
    (Open T m_parseV1 m_parseV2 load_file file s).m_file = file ∧
    (Open T m_parseV1 m_parseV2 load_file file s).m_projectPath
      = projectDirectoryOf file ∧
    (Open T m_parseV1 m_parseV2 load_file file s).m_msgs = [] ∧
    (Open T m_parseV1 m_parseV2 load_file file s).m_models = [] := by
  simp [Open, hload, Open_begin]

/-- Instance of the amended C20 on the loaded project. -/
theorem Open_parse_failure_keeps_model_witness :
    (Open wholeFloats (markReader "v1") (markReader "v2") (fun _ => none)
        "new/broken.sprj" loadedProject).pipe = loadedProject.pipe ∧
    (Open wholeFloats (markReader "v1") (markReader "v2") (fun _ => none)
        "new/broken.sprj" loadedProject).m_file = "new/broken.sprj" ∧
    (Open wholeFloats (markReader "v1") (markReader "v2") (fun _ => none)
        "new/broken.sprj" loadedProject).m_projectPath = "new" :=
  ⟨(Open_parse_failure_keeps_model wholeFloats (markReader "v1") (markReader "v2")
      (fun _ => none) "new/broken.sprj" loadedProject rfl).1,
   (Open_parse_failure_keeps_model wholeFloats (markReader "v1") (markReader "v2")
      (fun _ => none) "new/broken.sprj" loadedProject rfl).2.2.1,
   (Open_parse_failure_keeps_model wholeFloats (markReader "v1") (markReader "v2")
      (fun _ => none) "new/broken.sprj" loadedProject rfl).2.2.2.1⟩

/-! ## Transform children: written unless default, read with default -/

theorem foldl_lastTagged {G F : Type} (step : G → XmlNode → G) (get : G → F)
    (conv : String → F) (tag : String)
    (h : ∀ g c, get (step g c) = if c.name = tag then conv c.text else get g)
    (l : List XmlNode) : ∀ g, get (l.foldl step g) = lastTagged conv tag (get g) l := by
  induction l with
  | nil => intro g; rfl
  | cons c cs ih =>
    intro g
    rw [List.foldl_cons, ih, h]
    rfl

theorem lastTagged_absent {F : Type} (conv : String → F) (tag : String) (start : F)
    (l : List XmlNode) (h : ∀ c ∈ l, c.name ≠ tag) : lastTagged conv tag start l = start := by
  induction l with
  | nil => rfl
  | cons c cs ih =>
    unfold lastTagged
    rw [List.foldl_cons, if_neg (h c (List.mem_cons_self _ _))]
    exact ih (fun x hx => h x (List.mem_cons_of_mem _ hx))

theorem lastTagged_append {F : Type} (conv : String → F) (tag : String) (start : F)
    (l1 l2 : List XmlNode) :
    lastTagged conv tag start (l1 ++ l2) =
      lastTagged conv tag (lastTagged conv tag start l1) l2 := by
  simp [lastTagged, List.foldl_append]

theorem lastTagged_cons_leaf {F : Type} (conv : String → F) (tag name text : String)
    (start : F) (l : List XmlNode) :
    lastTagged conv tag start (XmlNode.leaf name text :: l) =
      lastTagged conv tag (if name = tag then conv text else start) l := rfl

theorem lastTagged_nil {F : Type} (conv : String → F) (tag : String) (start : F) :
    lastTagged conv tag start [] = start := rfl

theorem lastTagged_unlessDefault {F : Type} [DecidableEq F] (T : FloatText F)
    (conv : String → F) (tag name : String) (v d start : F) :
    lastTagged conv tag start (SaveAs_unlessDefault T name v d) =
      if name = tag ∧ v ≠ d then conv (T.set v) else start := by
  unfold SaveAs_unlessDefault
  by_cases hv : v = d
  · simp [hv, lastTagged]
  · by_cases hn : name = tag
    · simp [hv, hn, lastTagged, XmlNode.leaf, XmlNode.name, XmlNode.text]
    · simp [hv, hn, lastTagged, XmlNode.leaf, XmlNode.name, XmlNode.text]

theorem named_unlessDefault {F : Type} [DecidableEq F] (T : FloatText F)
    (tag name : String) (v d : F) :
    (∃ c ∈ SaveAs_unlessDefault T name v d, c.name = tag) ↔ (name = tag ∧ v ≠ d) := by
  unfold SaveAs_unlessDefault
  by_cases hv : v = d
  · simp [hv]
  · simp [hv, XmlNode.leaf, XmlNode.name]

theorem named_append (l1 l2 : List XmlNode) (tag : String) :
    (∃ c ∈ l1 ++ l2, c.name = tag) ↔
      ((∃ c ∈ l1, c.name = tag) ∨ (∃ c ∈ l2, c.name = tag)) := by
  constructor
  · rintro ⟨c, hc, hn⟩
    rcases List.mem_append.1 hc with h | h
    · exact Or.inl ⟨c, h, hn⟩
    · exact Or.inr ⟨c, h, hn⟩
  · rintro (⟨c, hc, hn⟩ | ⟨c, hc, hn⟩)
    · exact ⟨c, List.mem_append_left _ hc, hn⟩
    · exact ⟨c, List.mem_append_right _ hc, hn⟩

theorem SaveAs_topology_names (names : List String) (values : List GLenum)
    (topology : GLenum) : ∀ c ∈ SaveAs_topology names values topology, c.name = "topology" := by
  induction names generalizing values with
  | nil => intro c hc; cases values <;> simp [SaveAs_topology] at hc
  | cons n ns ih =>
    cases values with
    | nil => intro c hc; simp [SaveAs_topology] at hc
    | cons v vs =>
      intro c hc
      unfold SaveAs_topology at hc
      split_ifs at hc
      · simp only [List.mem_singleton] at hc
        rw [hc]
        rfl
      · exact ih vs c hc

theorem geometryAttr_scaleX {F : Type} (I : ItemNames) (T : FloatText F) (g : GeometryItem F) (c : XmlNode) :
    (m_parseV2_geometryAttr I T g c).Scale.x = if c.name = "scaleX" then T.as_float c.text else g.Scale.x := by
  by_cases h : c.name = "scaleX"
  · simp [m_parseV2_geometryAttr, h]
  · simp only [m_parseV2_geometryAttr, apply_ite GeometryItem.Scale, apply_ite Vec3.x, h, if_false,
      ite_self]

theorem geometryAttr_scaleY {F : Type} (I : ItemNames) (T : FloatText F) (g : GeometryItem F) (c : XmlNode) :
    (m_parseV2_geometryAttr I T g c).Scale.y = if c.name = "scaleY" then T.as_float c.text else g.Scale.y := by
  by_cases h : c.name = "scaleY"
  · simp [m_parseV2_geometryAttr, h]
  · simp only [m_parseV2_geometryAttr, apply_ite GeometryItem.Scale, apply_ite Vec3.y, h, if_false,
      ite_self]

theorem geometryAttr_scaleZ {F : Type} (I : ItemNames) (T : FloatText F) (g : GeometryItem F) (c : XmlNode) :
    (m_parseV2_geometryAttr I T g c).Scale.z = if c.name = "scaleZ" then T.as_float c.text else g.Scale.z := by
  by_cases h : c.name = "scaleZ"
  · simp [m_parseV2_geometryAttr, h]
  · simp only [m_parseV2_geometryAttr, apply_ite GeometryItem.Scale, apply_ite Vec3.z, h, if_false,
      ite_self]

theorem geometryAttr_roll {F : Type} (I : ItemNames) (T : FloatText F) (g : GeometryItem F) (c : XmlNode) :
    (m_parseV2_geometryAttr I T g c).Rotation.z = if c.name = "roll" then T.as_float c.text else g.Rotation.z := by
  by_cases h : c.name = "roll"
  · simp [m_parseV2_geometryAttr, h]
  · simp only [m_parseV2_geometryAttr, apply_ite GeometryItem.Rotation, apply_ite Vec3.z, h, if_false,
      ite_self]

theorem geometryAttr_pitch {F : Type} (I : ItemNames) (T : FloatText F) (g : GeometryItem F) (c : XmlNode) :
    (m_parseV2_geometryAttr I T g c).Rotation.x = if c.name = "pitch" then T.as_float c.text else g.Rotation.x := by
  by_cases h : c.name = "pitch"
  · simp [m_parseV2_geometryAttr, h]
  · simp only [m_parseV2_geometryAttr, apply_ite GeometryItem.Rotation, apply_ite Vec3.x, h, if_false,
      ite_self]

theorem geometryAttr_yaw {F : Type} (I : ItemNames) (T : FloatText F) (g : GeometryItem F) (c : XmlNode) :
    (m_parseV2_geometryAttr I T g c).Rotation.y = if c.name = "yaw" then T.as_float c.text else g.Rotation.y := by
  by_cases h : c.name = "yaw"
  · simp [m_parseV2_geometryAttr, h]
  · simp only [m_parseV2_geometryAttr, apply_ite GeometryItem.Rotation, apply_ite Vec3.y, h, if_false,
      ite_self]

theorem geometryAttr_x {F : Type} (I : ItemNames) (T : FloatText F) (g : GeometryItem F) (c : XmlNode) :
    (m_parseV2_geometryAttr I T g c).Position.x = if c.name = "x" then T.as_float c.text else g.Position.x := by
  by_cases h : c.name = "x"
  · simp [m_parseV2_geometryAttr, h]
  · simp only [m_parseV2_geometryAttr, apply_ite GeometryItem.Position, apply_ite Vec3.x, h, if_false,
      ite_self]

theorem geometryAttr_y {F : Type} (I : ItemNames) (T : FloatText F) (g : GeometryItem F) (c : XmlNode) :
    (m_parseV2_geometryAttr I T g c).Position.y = if c.name = "y" then T.as_float c.text else g.Position.y := by
  by_cases h : c.name = "y"
  · simp [m_parseV2_geometryAttr, h]
  · simp only [m_parseV2_geometryAttr, apply_ite GeometryItem.Position, apply_ite Vec3.y, h, if_false,
      ite_self]

theorem geometryAttr_z {F : Type} (I : ItemNames) (T : FloatText F) (g : GeometryItem F) (c : XmlNode) :
    (m_parseV2_geometryAttr I T g c).Position.z = if c.name = "z" then T.as_float c.text else g.Position.z := by
  by_cases h : c.name = "z"
  · simp [m_parseV2_geometryAttr, h]
  · simp only [m_parseV2_geometryAttr, apply_ite GeometryItem.Position, apply_ite Vec3.z, h, if_false,
      ite_self]

theorem modelAttr_scaleX {F : Type} (T : FloatText F) (g : Model F) (c : XmlNode) :
    (m_parseV2_modelAttr T g c).Scale.x = if c.name = "scaleX" then T.as_float c.text else g.Scale.x := by
  by_cases h : c.name = "scaleX"
  · simp [m_parseV2_modelAttr, h]
  · simp only [m_parseV2_modelAttr, apply_ite Model.Scale, apply_ite Vec3.x, h, if_false,
      ite_self]

theorem modelAttr_scaleY {F : Type} (T : FloatText F) (g : Model F) (c : XmlNode) :
    (m_parseV2_modelAttr T g c).Scale.y = if c.name = "scaleY" then T.as_float c.text else g.Scale.y := by
  by_cases h : c.name = "scaleY"
  · simp [m_parseV2_modelAttr, h]
  · simp only [m_parseV2_modelAttr, apply_ite Model.Scale, apply_ite Vec3.y, h, if_false,
      ite_self]

theorem modelAttr_scaleZ {F : Type} (T : FloatText F) (g : Model F) (c : XmlNode) :
    (m_parseV2_modelAttr T g c).Scale.z = if c.name = "scaleZ" then T.as_float c.text else g.Scale.z := by
  by_cases h : c.name = "scaleZ"
  · simp [m_parseV2_modelAttr, h]
  · simp only [m_parseV2_modelAttr, apply_ite Model.Scale, apply_ite Vec3.z, h, if_false,
      ite_self]

theorem modelAttr_roll {F : Type} (T : FloatText F) (g : Model F) (c : XmlNode) :
    (m_parseV2_modelAttr T g c).Rotation.z = if c.name = "roll" then T.as_float c.text else g.Rotation.z := by
  by_cases h : c.name = "roll"
  · simp [m_parseV2_modelAttr, h]
  · simp only [m_parseV2_modelAttr, apply_ite Model.Rotation, apply_ite Vec3.z, h, if_false,
      ite_self]

theorem modelAttr_pitch {F : Type} (T : FloatText F) (g : Model F) (c : XmlNode) :
    (m_parseV2_modelAttr T g c).Rotation.x = if c.name = "pitch" then T.as_float c.text else g.Rotation.x := by
  by_cases h : c.name = "pitch"
  · simp [m_parseV2_modelAttr, h]
  · simp only [m_parseV2_modelAttr, apply_ite Model.Rotation, apply_ite Vec3.x, h, if_false,
      ite_self]

theorem modelAttr_yaw {F : Type} (T : FloatText F) (g : Model F) (c : XmlNode) :
    (m_parseV2_modelAttr T g c).Rotation.y = if c.name = "yaw" then T.as_float c.text else g.Rotation.y := by
  by_cases h : c.name = "yaw"
  · simp [m_parseV2_modelAttr, h]
  · simp only [m_parseV2_modelAttr, apply_ite Model.Rotation, apply_ite Vec3.y, h, if_false,
      ite_self]

theorem modelAttr_x {F : Type} (T : FloatText F) (g : Model F) (c : XmlNode) :
    (m_parseV2_modelAttr T g c).Position.x = if c.name = "x" then T.as_float c.text else g.Position.x := by
  by_cases h : c.name = "x"
  · simp [m_parseV2_modelAttr, h]
  · simp only [m_parseV2_modelAttr, apply_ite Model.Position, apply_ite Vec3.x, h, if_false,
      ite_self]

theorem modelAttr_y {F : Type} (T : FloatText F) (g : Model F) (c : XmlNode) :
    (m_parseV2_modelAttr T g c).Position.y = if c.name = "y" then T.as_float c.text else g.Position.y := by
  by_cases h : c.name = "y"
  · simp [m_parseV2_modelAttr, h]
  · simp only [m_parseV2_modelAttr, apply_ite Model.Position, apply_ite Vec3.y, h, if_false,
      ite_self]

theorem modelAttr_z {F : Type} (T : FloatText F) (g : Model F) (c : XmlNode) :
    (m_parseV2_modelAttr T g c).Position.z = if c.name = "z" then T.as_float c.text else g.Position.z := by
  by_cases h : c.name = "z"
  · simp [m_parseV2_modelAttr, h]
  · simp only [m_parseV2_modelAttr, apply_ite Model.Position, apply_ite Vec3.z, h, if_false,
      ite_self]

theorem transform_named {F : Type} [DecidableEq F] (T : FloatText F)
    (S R P : Vec3 F) (tag : String) (htag : tag ∈ transformTags) :
    (∃ c ∈ SaveAs_transform T S R P, c.name = tag) ↔
      Transform.component ⟨S, R, P⟩ tag ≠ transformDefault T tag := by
  simp only [transformTags, List.mem_cons, List.mem_singleton, List.not_mem_nil,
    or_false] at htag
  rcases htag with rfl | rfl | rfl | rfl | rfl | rfl | rfl | rfl | rfl <;>
    (simp only [SaveAs_transform, named_append, named_unlessDefault]
     simp [Transform.component, transformDefault])

theorem transform_lastTagged {F : Type} [DecidableEq F] (T : FloatText F)
    (S R P : Vec3 F) (tag : String) (htag : tag ∈ transformTags) :
    lastTagged T.as_float tag (transformDefault T tag) (SaveAs_transform T S R P) =
      if Transform.component ⟨S, R, P⟩ tag ≠ transformDefault T tag then
        T.as_float (T.set (Transform.component ⟨S, R, P⟩ tag))
      else transformDefault T tag := by
  simp only [transformTags, List.mem_cons, List.mem_singleton, List.not_mem_nil,
    or_false] at htag
  rcases htag with rfl | rfl | rfl | rfl | rfl | rfl | rfl | rfl | rfl <;>
    (simp only [SaveAs_transform, lastTagged_append, lastTagged_unlessDefault]
     simp [Transform.component, transformDefault])

/-- The transform the geometry branch reads, component by component: the text of the
last child of that name, or the default. -/
theorem geometry_component {F : Type} (I : ItemNames) (T : FloatText F)
    (fresh : GeometryItem F) (itemNode : XmlNode) (tag : String)
    (htag : tag ∈ transformTags) :
    (m_parseV2_geometry I T fresh itemNode).transform.component tag =
      lastTagged T.as_float tag (transformDefault T tag) itemNode.children := by
  simp only [transformTags, List.mem_cons, List.mem_singleton, List.not_mem_nil,
    or_false] at htag
  unfold m_parseV2_geometry GeometryItem.transform
  rcases htag with rfl | rfl | rfl | rfl | rfl | rfl | rfl | rfl | rfl
  · have h := foldl_lastTagged (m_parseV2_geometryAttr I T) (fun g => g.Scale.x) T.as_float
      "scaleX" (geometryAttr_scaleX I T) itemNode.children
    simp [Transform.component, transformDefault, h]
  · have h := foldl_lastTagged (m_parseV2_geometryAttr I T) (fun g => g.Scale.y) T.as_float
      "scaleY" (geometryAttr_scaleY I T) itemNode.children
    simp [Transform.component, transformDefault, h]
  · have h := foldl_lastTagged (m_parseV2_geometryAttr I T) (fun g => g.Scale.z) T.as_float
      "scaleZ" (geometryAttr_scaleZ I T) itemNode.children
    simp [Transform.component, transformDefault, h]
  · have h := foldl_lastTagged (m_parseV2_geometryAttr I T) (fun g => g.Rotation.z) T.as_float
      "roll" (geometryAttr_roll I T) itemNode.children
    simp [Transform.component, transformDefault, h]
  · have h := foldl_lastTagged (m_parseV2_geometryAttr I T) (fun g => g.Rotation.x) T.as_float
      "pitch" (geometryAttr_pitch I T) itemNode.children
    simp [Transform.component, transformDefault, h]
  · have h := foldl_lastTagged (m_parseV2_geometryAttr I T) (fun g => g.Rotation.y) T.as_float
      "yaw" (geometryAttr_yaw I T) itemNode.children
    simp [Transform.component, transformDefault, h]
  · have h := foldl_lastTagged (m_parseV2_geometryAttr I T) (fun g => g.Position.x) T.as_float
      "x" (geometryAttr_x I T) itemNode.children
    simp [Transform.component, transformDefault, h]
  · have h := foldl_lastTagged (m_parseV2_geometryAttr I T) (fun g => g.Position.y) T.as_float
      "y" (geometryAttr_y I T) itemNode.children
    simp [Transform.component, transformDefault, h]
  · have h := foldl_lastTagged (m_parseV2_geometryAttr I T) (fun g => g.Position.z) T.as_float
      "z" (geometryAttr_z I T) itemNode.children
    simp [Transform.component, transformDefault, h]

theorem model_transform_eq {F : Type} (T : FloatText F) (fresh : Model F)
    (itemNode : XmlNode) :
    (m_parseV2_model T fresh itemNode).transform =
      (itemNode.children.foldl (m_parseV2_modelAttr T)
        { fresh with
          OnlyGroup := false
          Scale := ⟨T.ofInt 1, T.ofInt 1, T.ofInt 1⟩
          Position := ⟨T.ofInt 0, T.ofInt 0, T.ofInt 0⟩
          Rotation := ⟨T.ofInt 0, T.ofInt 0, T.ofInt 0⟩ }).transform := by
  unfold m_parseV2_model
  simp only
  split_ifs <;> rfl

/-- The transform the model branch reads, component by component. -/
theorem model_component {F : Type} (T : FloatText F)
    (fresh : Model F) (itemNode : XmlNode) (tag : String)
    (htag : tag ∈ transformTags) :
    (m_parseV2_model T fresh itemNode).transform.component tag =
      lastTagged T.as_float tag (transformDefault T tag) itemNode.children := by
  simp only [transformTags, List.mem_cons, List.mem_singleton, List.not_mem_nil,
    or_false] at htag
  rw [model_transform_eq]
  unfold Model.transform
  rcases htag with rfl | rfl | rfl | rfl | rfl | rfl | rfl | rfl | rfl
  · have h := foldl_lastTagged (m_parseV2_modelAttr T) (fun g => g.Scale.x) T.as_float
      "scaleX" (modelAttr_scaleX T) itemNode.children
    simp [Transform.component, transformDefault, h]
  · have h := foldl_lastTagged (m_parseV2_modelAttr T) (fun g => g.Scale.y) T.as_float
      "scaleY" (modelAttr_scaleY T) itemNode.children
    simp [Transform.component, transformDefault, h]
  · have h := foldl_lastTagged (m_parseV2_modelAttr T) (fun g => g.Scale.z) T.as_float
      "scaleZ" (modelAttr_scaleZ T) itemNode.children
    simp [Transform.component, transformDefault, h]
  · have h := foldl_lastTagged (m_parseV2_modelAttr T) (fun g => g.Rotation.z) T.as_float
      "roll" (modelAttr_roll T) itemNode.children
    simp [Transform.component, transformDefault, h]
  · have h := foldl_lastTagged (m_parseV2_modelAttr T) (fun g => g.Rotation.x) T.as_float
      "pitch" (modelAttr_pitch T) itemNode.children
    simp [Transform.component, transformDefault, h]
  · have h := foldl_lastTagged (m_parseV2_modelAttr T) (fun g => g.Rotation.y) T.as_float
      "yaw" (modelAttr_yaw T) itemNode.children
    simp [Transform.component, transformDefault, h]
  · have h := foldl_lastTagged (m_parseV2_modelAttr T) (fun g => g.Position.x) T.as_float
      "x" (modelAttr_x T) itemNode.children
    simp [Transform.component, transformDefault, h]
  · have h := foldl_lastTagged (m_parseV2_modelAttr T) (fun g => g.Position.y) T.as_float
      "y" (modelAttr_y T) itemNode.children
    simp [Transform.component, transformDefault, h]
  · have h := foldl_lastTagged (m_parseV2_modelAttr T) (fun g => g.Position.z) T.as_float
      "z" (modelAttr_z T) itemNode.children
    simp [Transform.component, transformDefault, h]

theorem transformTags_other (tag : String) (htag : tag ∈ transformTags) :
    "type" ≠ tag ∧ "width" ≠ tag ∧ "height" ≠ tag ∧ "depth" ≠ tag ∧ "topology" ≠ tag ∧
    "filepath" ≠ tag ∧ "grouponly" ≠ tag ∧ "group" ≠ tag := by
  simp only [transformTags, List.mem_cons, List.mem_singleton, List.not_mem_nil,
    or_false] at htag
  rcases htag with rfl | rfl | rfl | rfl | rfl | rfl | rfl | rfl | rfl <;> decide

theorem Transform.eq_of_components {F : Type} (a b : Transform F)
    (h : ∀ tag ∈ transformTags, a.component tag = b.component tag) : a = b := by
  have h1 := h "scaleX" (by decide)
  have h2 := h "scaleY" (by decide)
  have h3 := h "scaleZ" (by decide)
  have h4 := h "roll" (by decide)
  have h5 := h "pitch" (by decide)
  have h6 := h "yaw" (by decide)
  have h7 := h "x" (by decide)
  have h8 := h "y" (by decide)
  have h9 := h "z" (by decide)
  simp [Transform.component] at h1 h2 h3 h4 h5 h6 h7 h8 h9
  obtain ⟨⟨a1, a2, a3⟩, ⟨a4, a5, a6⟩, ⟨a7, a8, a9⟩⟩ := a
  obtain ⟨⟨b1, b2, b3⟩, ⟨b4, b5, b6⟩, ⟨b7, b8, b9⟩⟩ := b
  simp only at h1 h2 h3 h4 h5 h6 h7 h8 h9
  simp [h1, h2, h3, h4, h5, h6, h7, h8, h9]

theorem readsBack_component {F : Type} (T : FloatText F) (t : Transform F)
    (hS : t.Scale.ReadsBack T) (hR : t.Rotation.ReadsBack T) (hP : t.Position.ReadsBack T)
    (tag : String) :
    T.as_float (T.set (t.component tag)) = t.component tag := by
  obtain ⟨s1, s2, s3⟩ := hS
  obtain ⟨r1, r2, r3⟩ := hR
  obtain ⟨p1, p2, p3⟩ := hP
  unfold Transform.component
  split_ifs <;> assumption

theorem geometry_children_named {F : Type} [DecidableEq F] (I : ItemNames)
    (T : FloatText F) (itemName : String) (g : GeometryItem F) (tag : String)
    (htag : tag ∈ transformTags) :
    (SaveAs_geometry I T itemName g).hasChild tag ↔
      g.transform.component tag ≠ transformDefault T tag := by
  obtain ⟨n1, n2, n3, n4, n5, _, _, _⟩ := transformTags_other tag htag
  unfold XmlNode.hasChild SaveAs_geometry
  simp only [XmlNode.children]
  rw [named_append, named_append, transform_named T _ _ _ tag htag]
  constructor
  · rintro ((⟨c, hc, hn⟩ | h) | ⟨c, hc, hn⟩)
    · simp only [List.mem_cons, List.mem_singleton, List.not_mem_nil, or_false] at hc
      rcases hc with rfl | rfl | rfl | rfl <;> simp [XmlNode.leaf, XmlNode.name] at hn <;>
        contradiction
    · exact h
    · rw [SaveAs_topology_names _ _ _ c hc] at hn
      exact absurd hn n5
  · intro h
    exact Or.inl (Or.inr h)

theorem model_children_named {F : Type} [DecidableEq F] (T : FloatText F)
    (GetRelativePath : String → String) (oldProjectPath itemName : String)
    (m : Model F) (tag : String) (htag : tag ∈ transformTags) :
    (SaveAs_model T GetRelativePath oldProjectPath itemName m).hasChild tag ↔
      m.transform.component tag ≠ transformDefault T tag := by
  obtain ⟨_, _, _, _, _, n6, n7, n8⟩ := transformTags_other tag htag
  unfold XmlNode.hasChild SaveAs_model
  simp only [XmlNode.children]
  rw [named_append, named_append, transform_named T _ _ _ tag htag]
  constructor
  · rintro ((⟨c, hc, hn⟩ | ⟨c, hc, hn⟩) | h)
    · simp only [List.mem_cons, List.mem_singleton, List.not_mem_nil, or_false] at hc
      rcases hc with rfl | rfl <;> simp [XmlNode.leaf, XmlNode.name] at hn <;>
        contradiction
    · split_ifs at hc
      · simp only [List.mem_singleton] at hc
        rw [hc] at hn
        simp [XmlNode.leaf, XmlNode.name] at hn
        contradiction
      · simp at hc
    · exact h
  · intro h
    exact Or.inr h

theorem geometry_children_lastTagged {F : Type} [DecidableEq F] (I : ItemNames)
    (T : FloatText F) (itemName : String) (g : GeometryItem F) (tag : String)
    (htag : tag ∈ transformTags) :
    lastTagged T.as_float tag (transformDefault T tag)
        (SaveAs_geometry I T itemName g).children =
      lastTagged T.as_float tag (transformDefault T tag)
        (SaveAs_transform T g.Scale g.Rotation g.Position) := by
  obtain ⟨n1, n2, n3, n4, n5, _, _, _⟩ := transformTags_other tag htag
  unfold SaveAs_geometry
  simp only [XmlNode.children]
  rw [lastTagged_append, lastTagged_append]
  simp only [lastTagged_cons_leaf, lastTagged_nil, if_neg n1, if_neg n2, if_neg n3,
    if_neg n4]
  apply lastTagged_absent
  intro c hc hn
  rw [SaveAs_topology_names _ _ _ c hc] at hn
  exact n5 hn

theorem model_children_lastTagged {F : Type} [DecidableEq F] (T : FloatText F)
    (GetRelativePath : String → String) (oldProjectPath itemName : String)
    (m : Model F) (tag : String) (htag : tag ∈ transformTags) :
    lastTagged T.as_float tag (transformDefault T tag)
        (SaveAs_model T GetRelativePath oldProjectPath itemName m).children =
      lastTagged T.as_float tag (transformDefault T tag)
        (SaveAs_transform T m.Scale m.Rotation m.Position) := by
  obtain ⟨_, _, _, _, _, n6, n7, n8⟩ := transformTags_other tag htag
  unfold SaveAs_model
  simp only [XmlNode.children]
  rw [lastTagged_append, lastTagged_append]
  simp only [lastTagged_cons_leaf, lastTagged_nil, if_neg n6, if_neg n7]
  congr 1
  split_ifs
  · simp only [lastTagged_cons_leaf, lastTagged_nil, if_neg n8]
  · rfl

theorem written_component {F : Type} [DecidableEq F] (T : FloatText F) (t : Transform F)
    (hS : t.Scale.ReadsBack T) (hR : t.Rotation.ReadsBack T) (hP : t.Position.ReadsBack T)
    (tag : String) (htag : tag ∈ transformTags) :
    lastTagged T.as_float tag (transformDefault T tag)
        (SaveAs_transform T t.Scale t.Rotation t.Position) = t.component tag := by
  rw [transform_lastTagged T _ _ _ tag htag]
  split_ifs with h
  · exact readsBack_component T t hS hR hP tag
  · exact (not_not.1 h).symm

/-- C11: transform children are omitted when default and filled with the default when
absent, for geometry items and for models. The writer emits each of the nine transform
children exactly when the component it stands for (scale, roll for `Rotation.z`, pitch
for `Rotation.x`, yaw for `Rotation.y`, position) differs from its default, 1 for scale
and 0 otherwise; the reader leaves the default in a component whose child is absent;
and, the emitted texts reading back to their values, writing then reading reproduces
scale, rotation and position. -/
theorem transform_omit_if_default {F : Type} [DecidableEq F] (I : ItemNames)
    (T : FloatText F) (GetRelativePath : String → String)
    (oldProjectPath itemName : String) (g freshG : GeometryItem F) (m freshM : Model F) :
    (∀ tag ∈ transformTags,
      ((SaveAs_geometry I T itemName g).hasChild tag ↔
        g.transform.component tag ≠ transformDefault T tag) ∧
      ((SaveAs_model T GetRelativePath oldProjectPath itemName m).hasChild tag ↔
        m.transform.component tag ≠ transformDefault T tag)) ∧
    (∀ (itemNode : XmlNode), ∀ tag ∈ transformTags, ¬ itemNode.hasChild tag →
      (m_parseV2_geometry I T freshG itemNode).transform.component tag
        = transformDefault T tag ∧
      (m_parseV2_model T freshM itemNode).transform.component tag
        = transformDefault T tag) ∧
    (g.Scale.ReadsBack T → g.Rotation.ReadsBack T → g.Position.ReadsBack T →
      (m_parseV2_geometry I T freshG (SaveAs_geometry I T itemName g)).transform
        = g.transform) ∧
    (m.Scale.ReadsBack T → m.Rotation.ReadsBack T → m.Position.ReadsBack T →
      (m_parseV2_model T freshM
        (SaveAs_model T GetRelativePath oldProjectPath itemName m)).transform
        = m.transform) := by
  refine ⟨?_, ?_, ?_, ?_⟩
  · intro tag htag
    exact ⟨geometry_children_named I T itemName g tag htag,
      model_children_named T GetRelativePath oldProjectPath itemName m tag htag⟩
  · intro itemNode tag htag habsent
    have hno : ∀ c ∈ itemNode.children, c.name ≠ tag :=
      fun c hc hn => habsent ⟨c, hc, hn⟩
    rw [geometry_component I T freshG itemNode tag htag,
      model_component T freshM itemNode tag htag,
      lastTagged_absent _ _ _ _ hno]
    exact ⟨rfl, rfl⟩
  · intro hS hR hP
    apply Transform.eq_of_components
    intro tag htag
    rw [geometry_component I T freshG _ tag htag,
      geometry_children_lastTagged I T itemName g tag htag]
    exact written_component T g.transform hS hR hP tag htag
  · intro hS hR hP
    apply Transform.eq_of_components
    intro tag htag
    rw [model_component T freshM _ tag htag,
      model_children_lastTagged T GetRelativePath oldProjectPath itemName m tag htag]
    exact written_component T m.transform hS hR hP tag htag

/-- Instance of C11 on a sphere scaled along x, rolled and moved along y: the written
node has a `scaleX` child and no `scaleY` child, and reading it gives back the
transform. -/
theorem transform_omit_if_default_witness :
    (movedSphere.Scale.ReadsBack wholeFloats ∧ movedSphere.Rotation.ReadsBack wholeFloats ∧
      movedSphere.Position.ReadsBack wholeFloats) ∧
    (SaveAs_geometry sampleItemNames wholeFloats "ball" movedSphere).hasChild "scaleX" ∧
    ¬ (SaveAs_geometry sampleItemNames wholeFloats "ball" movedSphere).hasChild "scaleY" ∧
    (m_parseV2_geometry sampleItemNames wholeFloats freshGeometry
      (SaveAs_geometry sampleItemNames wholeFloats "ball" movedSphere)).transform
        = movedSphere.transform :=
  have hS : movedSphere.Scale.ReadsBack wholeFloats := by
    unfold Vec3.ReadsBack
    decide
  have hR : movedSphere.Rotation.ReadsBack wholeFloats := by
    unfold Vec3.ReadsBack
    decide
  have hP : movedSphere.Position.ReadsBack wholeFloats := by
    unfold Vec3.ReadsBack
    decide
  ⟨⟨hS, hR, hP⟩,
   ((transform_omit_if_default sampleItemNames wholeFloats id "old" "ball" movedSphere
      freshGeometry pitchedModel freshModel).1 "scaleX" (by decide)).1.2 (by decide),
   fun h => ((transform_omit_if_default sampleItemNames wholeFloats id "old" "ball"
      movedSphere freshGeometry pitchedModel freshModel).1 "scaleY" (by decide)).1.1 h
      (by decide),
   (transform_omit_if_default sampleItemNames wholeFloats id "old" "ball" movedSphere
      freshGeometry pitchedModel freshModel).2.2.1 hS hR hP⟩

/-! ## Variables of a pass -/

theorem foldl_add_map {α β : Type} (f : α → β) (l : List α) (acc : List β) :
    l.foldl (fun vars x => vars ++ [f x]) acc = acc ++ l.map f := by
  induction l generalizing acc with
  | nil => simp
  | cons x xs ih => simp [ih]

theorem foldl_add_flatten {α β γ : Type} (g : γ → List α) (f : α → β) (l : List γ)
    (acc : List β) :
    l.foldl (fun vars s => (g s).foldl (fun vars x => vars ++ [f x]) vars) acc =
      acc ++ ((l.map g).flatten).map f := by
  induction l generalizing acc with
  | nil => simp
  | cons s ss ih =>
    rw [List.foldl_cons, ih, foldl_add_map]
    simp

theorem m_parseV1_variables_eq {F : Type} (V : VariableTables) (T : FloatText F)
    (passNode : XmlNode) :
    m_parseV1_variables V T passNode =
      (v1VariableNodes passNode).map (parseVariableNode V T none) := by
  unfold m_parseV1_variables v1VariableNodes VariableContainer.Add
  rw [foldl_add_flatten]
  simp

theorem m_parseV2_variables_eq {F : Type} (V : VariableTables) (T : FloatText F)
    (passNode : XmlNode) :
    m_parseV2_variables V T passNode =
      (childrenOf (passNode.child "variables") "variable").map
        (fun n => parseVariableNode V T (some (variableNodeFlags V n)) n) := by
  unfold m_parseV2_variables VariableContainer.Add
  rw [foldl_add_map (fun n => parseVariableNode V T (some (variableNodeFlags V n)) n)]
  simp

/-- C13, as stated, fails: for the pass that declares `Time` under its vertex shader with
value 1 and under its pixel shader with value 2, the store holds two entries named
`Time`, and the entry at the position of the first declaration holds 1, the value
declared first. -/
theorem v1_duplicate_kept_twice :
    (m_parseV1_variables sampleVariableTables wholeFloats twiceDeclaredPass).map
      (fun v => (v.Name, v.value.floats 0 0)) = [("Time", 1), ("Time", 2)] := by
  decide

/-- C13, amended: the variable store of a v1 pass holds one entry for every `variable`
node of the pass, in document order (vertex, pixel and geometry declarations in the
order of their `shader` nodes), each as read from its own node. A name declared under
two stages thus has two entries: the number of entries of a name is the number of its
declarations. -/
theorem v1_variables_in_declaration_order {F : Type} (V : VariableTables)
    (T : FloatText F) (passNode : XmlNode) :
    m_parseV1_variables V T passNode =
      (v1VariableNodes passNode).map (parseVariableNode V T none) ∧
    ∀ name : String,
      ((m_parseV1_variables V T passNode).filter (fun v => v.Name = name)).length =
        ((v1VariableNodes passNode).filter
          (fun n => as_string (n.attr "name") = name)).length := by
  refine ⟨m_parseV1_variables_eq V T passNode, fun name => ?_⟩
  rw [m_parseV1_variables_eq, List.filter_map, List.length_map]
  rfl

theorem m_parseVariableValue_value_Function {F : Type} (T : FloatText F) (rowID : Nat)
    (acc : ShaderVariable F × Nat) (value : XmlNode) :
    (m_parseVariableValue_value T rowID acc value).1.Function = acc.1.Function := by
  unfold m_parseVariableValue_value
  simp only
  split_ifs <;> rfl

theorem m_parseVariableValue_Function {F : Type} (T : FloatText F) (node : XmlNode)
    (var : ShaderVariable F) :
    (m_parseVariableValue T node var).Function = var.Function := by
  unfold m_parseVariableValue
  apply foldl_invariant (fun acc : ShaderVariable F × Nat => acc.1.Function = var.Function)
  · rfl
  · intro acc row _ hacc
    simp only
    have := foldl_invariant
      (fun a : ShaderVariable F × Nat => a.1.Function = var.Function)
      (m_parseVariableValue_value T acc.2) (row.childrenNamed "value") (acc.1, 0) hacc
      (fun a v _ ha => by
        show (m_parseVariableValue_value T acc.2 a v).1.Function = var.Function
        rw [m_parseVariableValue_value_Function]
        exact ha)
    exact this

theorem parseVariableNode_exclusive {F : Type} (V : VariableTables) (T : FloatText F)
    (flags : Option Nat) (variableNode : XmlNode) :
    (parseVariableNode V T flags variableNode).System = SystemShaderVariable.None ∨
    (parseVariableNode V T flags variableNode).value.Function
      = FunctionShaderVariable.None := by
  by_cases hs : variableNodeSystem V variableNode = SystemShaderVariable.None
  · exact Or.inl hs
  · right
    have hf : variableNodeFunction V variableNode = FunctionShaderVariable.None := by
      unfold variableNodeFunction
      by_cases h1 : (!attrEmpty (variableNode.attr "function")) = true
      · rw [if_pos h1]
        simp only
        rw [if_pos (Or.inl hs)]
      · rw [if_neg h1]
    simp [parseVariableNode, hs, ShaderVariable.fresh, hf]

/-- C17: the source tags are mutually exclusive. A variable read from a `variable` node
by the v1 reader or by the v2 reader has no system source or no function source, so a
system source forces the function to none; this holds for every entry of the store of a
pass. The writer emits at most one of the attributes `system` and `function`. -/
theorem source_tags_exclusive {F : Type} (V : VariableTables) (T : FloatText F) :
    (∀ (flags : Option Nat) (variableNode : XmlNode),
      (parseVariableNode V T flags variableNode).System = SystemShaderVariable.None ∨
      (parseVariableNode V T flags variableNode).value.Function
        = FunctionShaderVariable.None) ∧
    (∀ (passNode : XmlNode) (v : PassVariable F),
      (v ∈ m_parseV1_variables V T passNode ∨ v ∈ m_parseV2_variables V T passNode) →
      (v.System = SystemShaderVariable.None ∨
        v.value.Function = FunctionShaderVariable.None)) ∧
    (∀ var : PassVariable F,
      ((m_exportShaderVariable V T var).attrs.filter
        (fun a => a.1 = "system" ∨ a.1 = "function")).length ≤ 1) := by
  refine ⟨parseVariableNode_exclusive V T, ?_, ?_⟩
  · intro passNode v hv
    rcases hv with hv | hv
    · rw [m_parseV1_variables_eq] at hv
      obtain ⟨n, _, rfl⟩ := List.mem_map.1 hv
      exact parseVariableNode_exclusive V T none n
    · rw [m_parseV2_variables_eq] at hv
      obtain ⟨n, _, rfl⟩ := List.mem_map.1 hv
      exact parseVariableNode_exclusive V T _ n
  · intro var
    unfold m_exportShaderVariable
    simp only [XmlNode.attrs, List.filter_append]
    by_cases h1 : Nat.land var.Flags V.FlagInverse ≠ 0 <;>
      by_cases h2 : Nat.land var.Flags V.FlagLastFrame ≠ 0 <;>
      by_cases h3 : var.System ≠ SystemShaderVariable.None <;>
      by_cases h4 : var.value.Function ≠ FunctionShaderVariable.None <;>
      simp [h1, h2, h3, h4, List.filter]

/-- Instance of C17 on a node that carries both attributes: the system source is kept,
the function is none, and the node written for the variable has the `system` attribute
only. -/
theorem source_tags_exclusive_witness :
    (parseVariableNode sampleVariableTables wholeFloats none bothSourcesNode).System
      = SystemShaderVariable.Other 1 ∧
    (parseVariableNode sampleVariableTables wholeFloats none bothSourcesNode).value.Function
      = FunctionShaderVariable.None ∧
    (m_exportShaderVariable sampleVariableTables wholeFloats
      (parseVariableNode sampleVariableTables wholeFloats none bothSourcesNode)).attrs
      = [("type", "float"), ("name", "t"), ("system", "Time")] :=
  ⟨by decide,
   ((source_tags_exclusive sampleVariableTables wholeFloats).1 none
      bothSourcesNode).resolve_left (by decide),
   by decide⟩

/-! ## Clear colour channels of a render texture node -/

theorem m_parseV1_renderTexture_some {F : Type} (T : FloatText F) (S : StdText F)
    (rt rt1 : RenderTextureObject F) (objectNode : XmlNode)
    (h : parseRenderTextureSize S { rt with Format := GL_RGBA } objectNode = some rt1) :
    m_parseV1_renderTexture T S rt objectNode =
      some { rt1 with
        Clear := true
        ClearColor :=
          ⟨m_parseV1_channel T (objectNode.attr "r"), m_parseV1_channel T (objectNode.attr "g"),
           m_parseV1_channel T (objectNode.attr "b"),
           m_parseV1_channel T (objectNode.attr "a")⟩ } := by
  unfold m_parseV1_renderTexture
  rw [h]

theorem m_parseV1_renderTexture_colour {F : Type} (T : FloatText F) (S : StdText F)
    (rt rt2 : RenderTextureObject F) (objectNode : XmlNode)
    (h : m_parseV1_renderTexture T S rt objectNode = some rt2) :
    rt2.ClearColor =
      ⟨m_parseV1_channel T (objectNode.attr "r"), m_parseV1_channel T (objectNode.attr "g"),
       m_parseV1_channel T (objectNode.attr "b"), m_parseV1_channel T (objectNode.attr "a")⟩ := by
  unfold m_parseV1_renderTexture at h
  split at h
  · exact absurd h (by simp)
  · simp only [Option.some.injEq] at h
    rw [← h]

theorem m_parseV2_renderTexture_colour {F : Type} (N : Names) (T : FloatText F)
    (S : StdText F) (rt rt2 : RenderTextureObject F) (objectNode : XmlNode)
    (h : m_parseV2_renderTexture N T S rt objectNode = some rt2) :
    rt2.ClearColor =
      ⟨m_parseV2_channel T (objectNode.attr "r"), m_parseV2_channel T (objectNode.attr "g"),
       m_parseV2_channel T (objectNode.attr "b"), m_parseV2_channel T (objectNode.attr "a")⟩ := by
  unfold m_parseV2_renderTexture at h
  simp only at h
  split at h
  · exact absurd h (by simp)
  · simp only [Option.some.injEq] at h
    rw [← h]

theorem parseRenderTextureSize_ratio {F : Type} (S : StdText F) (rt : RenderTextureObject F)
    (objectNode : XmlNode) (x y : F) (hf : objectNode.attr "fsize" = none)
    (hx : S.stof (beforeComma (as_string (objectNode.attr "rsize"))) = some x)
    (hy : S.stof (afterComma (as_string (objectNode.attr "rsize"))) = some y) :
    parseRenderTextureSize S rt objectNode =
      some { rt with RatioSize := (x, y), FixedSize := (-1, -1) } := by
  unfold parseRenderTextureSize
  rw [hf]
  simp only [attrEmpty, Option.isNone_none, if_true]
  rw [hx, hy]

/-- The size of a render texture node is read exactly when no conversion throws. -/
theorem parseRenderTextureSize_isSome {F : Type} (S : StdText F)
    (rt : RenderTextureObject F) (objectNode : XmlNode) :
    (parseRenderTextureSize S rt objectNode).isSome =
      !renderTextureSizeThrows S objectNode := by
  unfold parseRenderTextureSize renderTextureSizeThrows
  by_cases hf : attrEmpty (objectNode.attr "fsize") = true
  · simp only [hf, if_true]
    rcases S.stof (beforeComma (as_string (objectNode.attr "rsize"))) with _ | x <;>
      rcases S.stof (afterComma (as_string (objectNode.attr "rsize"))) with _ | y <;> rfl
  · simp only [hf, Bool.false_eq_true, if_false]
    rcases stdStoi (beforeComma (as_string (objectNode.attr "fsize"))) with _ | x <;>
      rcases stdStoi (afterComma (as_string (objectNode.attr "fsize"))) with _ | y <;> rfl

/-- C14. For every render texture node, with a ratio size or a fixed size: when the size
of the node converts, `m_parseV1` returns a render texture whose clear colour channels
are those of `m_parseV1_channel` on the attributes `r`, `g`, `b` and `a`, and `m_parseV2`
one whose channels are those of `m_parseV2_channel`; when the size does not convert
neither reader returns (the exception is thrown before a channel is read). The v1 channel
of an attribute is its `int` value divided by 255, and 0 when the attribute is absent;
so `"255"` gives 1 on floats where 255 / 255 is 1, and `"128"` gives 128 / 255. The v2
channel is the `float` value of the attribute text, with no division, and 0 when
absent. -/
theorem v1_colour_divided_by_255 {F : Type} (N : Names) (T : FloatText F) (S : StdText F)
    (rt : RenderTextureObject F) (objectNode : XmlNode) :
    (renderTextureSizeThrows S objectNode = false →
      (∃ rt1, m_parseV1_renderTexture T S rt objectNode = some rt1 ∧
        rt1.ClearColor =
          ⟨m_parseV1_channel T (objectNode.attr "r"),
           m_parseV1_channel T (objectNode.attr "g"),
           m_parseV1_channel T (objectNode.attr "b"),
           m_parseV1_channel T (objectNode.attr "a")⟩) ∧
      (∃ rt2, m_parseV2_renderTexture N T S rt objectNode = some rt2 ∧
        rt2.ClearColor =
          ⟨m_parseV2_channel T (objectNode.attr "r"),
           m_parseV2_channel T (objectNode.attr "g"),
           m_parseV2_channel T (objectNode.attr "b"),
           m_parseV2_channel T (objectNode.attr "a")⟩)) ∧
    (renderTextureSizeThrows S objectNode = true →
      m_parseV1_renderTexture T S rt objectNode = none ∧
      m_parseV2_renderTexture N T S rt objectNode = none) ∧
    (∀ v : String,
      m_parseV1_channel T (some v) = T.div (T.ofInt (textAsInt v)) (T.ofInt 255) ∧
      m_parseV2_channel T (some v) = T.as_float v) ∧
    m_parseV1_channel T none = T.ofInt 0 ∧
    m_parseV2_channel T none = T.ofInt 0 ∧
    (T.div (T.ofInt 255) (T.ofInt 255) = T.ofInt 1 →
      m_parseV1_channel T (some "255") = T.ofInt 1) ∧
    m_parseV1_channel T (some "128") = T.div (T.ofInt 128) (T.ofInt 255) := by
  have hsome : ∀ rt0 : RenderTextureObject F, renderTextureSizeThrows S objectNode = false →
      ∃ rt1, parseRenderTextureSize S rt0 objectNode = some rt1 := by
    intro rt0 h
    have h1 := parseRenderTextureSize_isSome S rt0 objectNode
    rw [h] at h1
    exact Option.isSome_iff_exists.1 h1
  have hnone : ∀ rt0 : RenderTextureObject F, renderTextureSizeThrows S objectNode = true →
      parseRenderTextureSize S rt0 objectNode = none := by
    intro rt0 h
    have h1 := parseRenderTextureSize_isSome S rt0 objectNode
    rw [h] at h1
    cases hp : parseRenderTextureSize S rt0 objectNode with
    | none => rfl
    | some r =>
      rw [hp] at h1
      exact Bool.noConfusion h1
  refine ⟨?_, ?_, ?_, ?_, ?_, ?_, ?_⟩
  · intro h
    constructor
    · obtain ⟨rt1, h1⟩ := hsome { rt with Format := GL_RGBA } h
      rw [m_parseV1_renderTexture_some T S rt rt1 objectNode h1]
      exact ⟨_, rfl, rfl⟩
    · unfold m_parseV2_renderTexture
      simp only
      obtain ⟨rt1, h1⟩ := hsome
        (if (!attrEmpty (objectNode.attr "format")) = true then
          match findValue N.FORMAT_NAMES N.FORMAT_VALUES
              (as_string (objectNode.attr "format")) with
          | some v => { rt with Format := v }
          | none => rt
        else rt) h
      rw [h1]
      exact ⟨_, rfl, rfl⟩
  · intro h
    constructor
    · unfold m_parseV1_renderTexture
      rw [hnone _ h]
    · unfold m_parseV2_renderTexture
      simp only
      rw [hnone _ h]
  · intro v
    exact ⟨by simp [m_parseV1_channel, attrEmpty, as_int],
      by simp [m_parseV2_channel, attrEmpty, as_float]⟩
  · simp [m_parseV1_channel, attrEmpty]
  · simp [m_parseV2_channel, attrEmpty]
  · intro h
    have h255 : textAsInt "255" = 255 := by decide
    simp [m_parseV1_channel, attrEmpty, as_int, h255, h]
  · have h128 : textAsInt "128" = 128 := by decide
    simp [m_parseV1_channel, attrEmpty, as_int, h128]

/-- The channels `r="255" g="128"` read by `m_parseV1` on exact rationals, from a node
with the ratio size `1,1` and from a node with the fixed size `64,32`: the size converts
and the clear colour is (1, 128/255, 0, 0) in both. -/
theorem v1_colour_divided_by_255_witness :
    renderTextureSizeThrows rationalStd colouredTarget = false ∧
    (∃ rt1, m_parseV1_renderTexture rationalFloats rationalStd
        (freshRenderTexture rationalFloats) colouredTarget = some rt1 ∧
      rt1.ClearColor = ⟨1, 128 / 255, 0, 0⟩) ∧
    fixedTarget.attr "fsize" = some "64,32" ∧
    renderTextureSizeThrows rationalStd fixedTarget = false ∧
    (∃ rt1, m_parseV1_renderTexture rationalFloats rationalStd
        (freshRenderTexture rationalFloats) fixedTarget = some rt1 ∧
      rt1.FixedSize = (64, 32) ∧ rt1.ClearColor = ⟨1, 128 / 255, 0, 0⟩) := by
  have hc : renderTextureSizeThrows rationalStd colouredTarget = false := by
    have h1 : stdStoi (beforeComma (as_string (colouredTarget.attr "rsize"))) = some 1 := by
      decide
    have h2 : stdStoi (afterComma (as_string (colouredTarget.attr "rsize"))) = some 1 := by
      decide
    have hf : attrEmpty (colouredTarget.attr "fsize") = true := by decide
    simp [renderTextureSizeThrows, hf, rationalStd, h1, h2]
  have hx : stdStoi (beforeComma (as_string (fixedTarget.attr "fsize"))) = some 64 := by
    decide
  have hy : stdStoi (afterComma (as_string (fixedTarget.attr "fsize"))) = some 32 := by
    decide
  have hff : attrEmpty (fixedTarget.attr "fsize") = false := by decide
  have hf : renderTextureSizeThrows rationalStd fixedTarget = false := by
    simp [renderTextureSizeThrows, hff, hx, hy]
  have one : rationalFloats.div (rationalFloats.ofInt 255) (rationalFloats.ofInt 255)
      = rationalFloats.ofInt 1 := by
    simp [rationalFloats]
  have h := v1_colour_divided_by_255 sampleNames rationalFloats rationalStd
    (freshRenderTexture rationalFloats) colouredTarget
  have g := v1_colour_divided_by_255 sampleNames rationalFloats rationalStd
    (freshRenderTexture rationalFloats) fixedTarget
  refine ⟨hc, ?_, by decide, hf, ?_⟩
  · obtain ⟨rt1, h1, hcol⟩ := (h.1 hc).1
    refine ⟨rt1, h1, ?_⟩
    rw [hcol]
    have hr : colouredTarget.attr "r" = some "255" := by decide
    have hg : colouredTarget.attr "g" = some "128" := by decide
    have hb : colouredTarget.attr "b" = none := by decide
    have ha : colouredTarget.attr "a" = none := by decide
    rw [hr, hg, hb, ha, h.2.2.2.2.2.1 one, h.2.2.2.2.2.2, h.2.2.2.1]
    simp [rationalFloats]
  · obtain ⟨rt1, h1, hcol⟩ := (g.1 hf).1
    refine ⟨rt1, h1, ?_, ?_⟩
    · have hsize : parseRenderTextureSize rationalStd
          { freshRenderTexture rationalFloats with Format := GL_RGBA } fixedTarget =
          some { { freshRenderTexture rationalFloats with Format := GL_RGBA } with
            FixedSize := (64, 32) } := by
        unfold parseRenderTextureSize
        simp only [hff, Bool.false_eq_true, if_false, hx, hy]
      rw [m_parseV1_renderTexture_some rationalFloats rationalStd _ _ fixedTarget hsize] at h1
      simp only [Option.some.injEq] at h1
      rw [← h1]
    · rw [hcol]
      have hr : fixedTarget.attr "r" = some "255" := by decide
      have hg : fixedTarget.attr "g" = some "128" := by decide
      have hb : fixedTarget.attr "b" = none := by decide
      have ha : fixedTarget.attr "a" = none := by decide
      rw [hr, hg, hb, ha, g.2.2.2.2.2.1 one, g.2.2.2.2.2.2, g.2.2.2.1]
      simp [rationalFloats]

/-- C19. A render texture node with neither `fsize` nor `rsize`: both readers call
`std::stof` on the empty text, which throws, so neither returns a render texture. -/
theorem sizeless_target_throws :
    sizelessTarget.attr "fsize" = none ∧ sizelessTarget.attr "rsize" = none ∧
    wholeStd.stof "" = none ∧
    m_parseV1_renderTexture wholeFloats wholeStd (freshRenderTexture wholeFloats)
      sizelessTarget = none ∧
    m_parseV2_renderTexture sampleNames wholeFloats wholeStd (freshRenderTexture wholeFloats)
      sizelessTarget = none := by
  refine ⟨by decide, by decide, by decide, ?_, ?_⟩
  · have h : (m_parseV1_renderTexture wholeFloats wholeStd (freshRenderTexture wholeFloats)
        sizelessTarget).isNone = true := by decide
    exact Option.isNone_iff_eq_none.1 h
  · have h : (m_parseV2_renderTexture sampleNames wholeFloats wholeStd
        (freshRenderTexture wholeFloats) sizelessTarget).isNone = true := by decide
    exact Option.isNone_iff_eq_none.1 h

/-! ## Render target chains -/

theorem BindMap.get_insert_other (m : BindMap) (k j : Nat) (v : List String) (h : k ≠ j) :
    (m.insert k v).get j = m.get j := by
  induction m with
  | nil => simp [BindMap.insert, BindMap.get, h]
  | cons e rest ih =>
    unfold BindMap.insert
    split_ifs with hlt
    · simp only [BindMap.get]
      rw [List.find?_cons_of_neg _ (by simpa using h)]
    · by_cases he : e.1 = j
      · simp [BindMap.get, he]
      · simp only [BindMap.get] at ih ⊢
        rw [List.find?_cons_of_neg _ (by simpa using he),
          List.find?_cons_of_neg _ (by simpa using he)]
        exact ih

theorem BindMap.get_map_other (m : BindMap) (k j : Nat) (f : List String → List String)
    (h : k ≠ j) :
    BindMap.get (m.map (fun e => if e.1 = k then (e.1, f e.2) else e)) j = m.get j := by
  induction m with
  | nil => rfl
  | cons e rest ih =>
    by_cases he : e.1 = j
    · have hk : ¬ e.1 = k := fun hk => h (hk ▸ he)
      simp only [BindMap.get, List.map_cons, if_neg hk]
      rw [List.find?_cons_of_pos _ (by simpa using he),
        List.find?_cons_of_pos _ (by simpa using he)]
    · simp only [BindMap.get, List.map_cons] at ih ⊢
      by_cases hk : e.1 = k
      · rw [if_pos hk, List.find?_cons_of_neg _ (by simpa using he),
          List.find?_cons_of_neg _ (by simpa using he)]
        exact ih
      · rw [if_neg hk, List.find?_cons_of_neg _ (by simpa using he),
          List.find?_cons_of_neg _ (by simpa using he)]
        exact ih

/-- An update under one key leaves the entry of every other key as it was. -/
theorem BindMap.get_modify_other (m : BindMap) (k j : Nat) (f : List String → List String)
    (h : k ≠ j) : (m.modify k f).get j = m.get j := by
  unfold BindMap.modify
  split_ifs
  · exact BindMap.get_map_other m k j f h
  · exact BindMap.get_insert_other m k j _ h

theorem pushNames_get (targetName : XmlNode → String) (a b : Nat) (rtNodes : List XmlNode)
    (m : BindMap) :
    (rtNodes.foldl (fun fbos rtNode => fbos.modify a (fun v => v ++ [targetName rtNode]))
      m).get b = if a = b then m.get b ++ rtNodes.map targetName else m.get b := by
  induction rtNodes generalizing m with
  | nil => simp
  | cons x rest ih =>
    rw [List.foldl_cons, ih]
    by_cases hab : a = b
    · subst hab
      simp [BindMap.get_modify_self]
    · simp [hab, BindMap.get_modify_other _ _ _ _ hab]

theorem fbosFrom_get (targetName : XmlNode → String) (dataAddr : Nat → Nat)
    (hinj : Function.Injective dataAddr) (i : Nat) (ps : List XmlNode) (k : Nat)
    (m : BindMap) :
    ((ps.enumFrom k).foldl
      (fun fbos ip =>
        (ip.2.childrenNamed "rendertexture").foldl
          (fun fbos rtNode =>
            fbos.modify (dataAddr ip.1) (fun v => v ++ [targetName rtNode]))
          fbos)
      m).get (dataAddr i) =
    m.get (dataAddr i) ++
      (if k ≤ i then
        match ps[i - k]? with
        | some passNode => targetNames targetName passNode
        | none => []
      else []) := by
  induction ps generalizing k m with
  | nil => simp
  | cons p rest ih =>
    rw [List.enumFrom_cons, List.foldl_cons, ih, pushNames_get]
    by_cases hki : k = i
    · subst hki
      simp [targetNames]
    · have hne : ¬ dataAddr k = dataAddr i := fun h => hki (hinj h)
      rw [if_neg hne]
      by_cases hle : k ≤ i
      · have h1 : k + 1 ≤ i := by omega
        have h2 : i - k = (i - (k + 1)) + 1 := by omega
        rw [if_pos h1, if_pos hle, h2, List.getElem?_cons_succ]
      · have h1 : ¬ k + 1 ≤ i := by omega
        rw [if_neg h1, if_neg hle]

/-- The names `fbos` holds for the pass number `i` are the names of its `rendertexture`
children, when the pass records have distinct addresses. -/
theorem fbosOf_get (targetName : XmlNode → String) (dataAddr : Nat → Nat)
    (hinj : Function.Injective dataAddr) (projectNode : Option XmlNode) (i : Nat)
    (passNode : XmlNode) (hp : (passNodes projectNode)[i]? = some passNode) :
    (fbosOf targetName dataAddr projectNode).get (dataAddr i) =
      targetNames targetName passNode := by
  unfold fbosOf
  rw [List.enum, fbosFrom_get targetName dataAddr hinj i _ 0 []]
  unfold passNodes at hp
  simp [hp, BindMap.get]

theorem resolveChain_length (isDefault : String → Bool) (rendererTexture : GLenum)
    (GetTexture : String → GLenum) (names : List String) (k : Nat) (rts : List GLenum) :
    ((names.enumFrom k).foldl
      (fun rts p => rts.set p.1 (if isDefault p.2 then rendererTexture else GetTexture p.2))
      rts).length = rts.length := by
  induction names generalizing k rts with
  | nil => rfl
  | cons x rest ih => rw [List.enumFrom_cons, List.foldl_cons, ih, List.length_set]

theorem resolveChain_nil (isDefault : String → Bool) (rendererTexture : GLenum)
    (GetTexture : String → GLenum) (rts : List GLenum) :
    resolveChain isDefault rendererTexture GetTexture rts [] = rts := rfl

theorem initialRenderTextures_length (MAX_RENDER_TEXTURES : Nat) (rendererTexture : GLenum) :
    (initialRenderTextures MAX_RENDER_TEXTURES rendererTexture).length =
      MAX_RENDER_TEXTURES := by
  simp [initialRenderTextures]

theorem initialRenderTextures_get (MAX_RENDER_TEXTURES : Nat) (rendererTexture : GLenum)
    (j : Nat) (hj : j < MAX_RENDER_TEXTURES) :
    (initialRenderTextures MAX_RENDER_TEXTURES rendererTexture)[j]? =
      some (if j = 0 then rendererTexture else 0) := by
  unfold initialRenderTextures
  by_cases h0 : j = 0
  · subst h0
    rw [List.getElem?_set_self (by simpa using hj)]
    simp
  · rw [List.getElem?_set_ne (fun h => h0 h.symm)]
    simp [h0, List.getElem?_replicate, hj]

theorem initialRenderTextures_eq (MAX_RENDER_TEXTURES : Nat) (rendererTexture : GLenum)
    (h : 0 < MAX_RENDER_TEXTURES) :
    initialRenderTextures MAX_RENDER_TEXTURES rendererTexture =
      rendererTexture :: List.replicate (MAX_RENDER_TEXTURES - 1) 0 := by
  cases MAX_RENDER_TEXTURES with
  | zero => omega
  | succ n => simp [initialRenderTextures, List.replicate_succ]

theorem chainAddr_injective : Function.Injective chainAddr := by
  intro a b h
  unfold chainAddr at h
  omega

/-- C16. After either reader the count `RTCount` of a pass is the larger of 1 and the
number of its `rendertexture` children, and a pass without such a child has the count 1
and the array it was created with: the texture of the renderer at index 0 and 0 at the
other indices. -/
theorem rtcount_at_least_one (MAX_RENDER_TEXTURES : Nat) (rendererTexture : GLenum)
    (GetTexture : String → GLenum) (dataAddr : Nat → Nat)
    (hinj : Function.Injective dataAddr) (projectNode : Option XmlNode) (i : Nat)
    (passNode : XmlNode) (hp : (passNodes projectNode)[i]? = some passNode)
    (hmax : 0 < MAX_RENDER_TEXTURES) :
    RTCount passNode = max 1 (passNode.childrenNamed "rendertexture").length ∧
    (passNode.childrenNamed "rendertexture" = [] →
      RTCount passNode = 1 ∧
      m_parseV1_renderTextures MAX_RENDER_TEXTURES rendererTexture GetTexture dataAddr
          projectNode i =
        rendererTexture :: List.replicate (MAX_RENDER_TEXTURES - 1) 0 ∧
      m_parseV2_renderTextures MAX_RENDER_TEXTURES rendererTexture GetTexture dataAddr
          projectNode i =
        rendererTexture :: List.replicate (MAX_RENDER_TEXTURES - 1) 0) := by
  refine ⟨?_, ?_⟩
  · unfold RTCount
    simp only
    split_ifs with h
    · rw [h]
      rfl
    · omega
  · intro hnone
    refine ⟨by simp [RTCount, hnone], ?_, ?_⟩
    · unfold m_parseV1_renderTextures m_parseV1_fbos
      rw [fbosOf_get _ dataAddr hinj projectNode i passNode hp]
      simp only [targetNames, hnone, List.map_nil]
      rw [resolveChain_nil, initialRenderTextures_eq _ _ hmax]
    · unfold m_parseV2_renderTextures
      have hf : m_parseV2_fbos dataAddr projectNode =
          fbosOf m_parseV2_targetName dataAddr projectNode := rfl
      rw [hf, fbosOf_get _ dataAddr hinj projectNode i passNode hp]
      simp only [targetNames, hnone, List.map_nil]
      rw [resolveChain_nil, initialRenderTextures_eq _ _ hmax]

/-- The pass without reference of the example: count 1 and the array (5, 0, 0, 0); the
pass with two references has the count 2. -/
theorem rtcount_at_least_one_witness :
    Function.Injective chainAddr ∧
    (passNodes (some chainProject))[1]? = some chainPassB ∧ 0 < 4 ∧
    RTCount chainPassB = 1 ∧ RTCount chainPassA = 2 ∧
    m_parseV1_renderTextures 4 5 lookupRt chainAddr (some chainProject) 1 = [5, 0, 0, 0] ∧
    m_parseV2_renderTextures 4 5 lookupRt chainAddr (some chainProject) 1 = [5, 0, 0, 0] := by
  have h := rtcount_at_least_one 4 5 lookupRt chainAddr chainAddr_injective
    (some chainProject) 1 chainPassB rfl (by decide)
  have h2 := h.2 rfl
  exact ⟨chainAddr_injective, rfl, by decide, h2.1, by decide, h2.2.1, h2.2.2⟩

/-! ## A binding to a pass that does not exist -/

theorem findPass_none (passes : List PipelineItem) (passBindName : String)
    (h : ∀ pass ∈ passes, pass.Name ≠ passBindName) : findPass passes passBindName = none := by
  unfold findPass
  rw [List.find?_eq_none]
  intro pass hp
  simpa using h pass hp

/-- C21. A `bind` node whose pass name equals the name of no pass of the pipeline leaves
both slot tables and the calls issued so far as they were, so the binding loops that
follow issue the same `Bind` and `BindUniform` calls as without it, and the loop over the
`bind` nodes goes on: the nodes around it are read as if it were not there. -/
theorem unresolved_bind_dropped (passes : List PipelineItem) (name : String)
    (onMatch : List RegCall) (ubo : Bool) (st : ObjectsPhase) (bindNode : XmlNode)
    (h : ∀ pass ∈ passes, pass.Name ≠ as_string (bindNode.attr "name")) :
    (bindNodeStep passes name onMatch ubo st bindNode).boundTextures = st.boundTextures ∧
    (bindNodeStep passes name onMatch ubo st bindNode).boundUBOs = st.boundUBOs ∧
    (bindNodeStep passes name onMatch ubo st bindNode).calls = st.calls ∧
    bindObjects (bindNodeStep passes name onMatch ubo st bindNode).boundTextures =
      bindObjects st.boundTextures ∧
    bindBuffers (bindNodeStep passes name onMatch ubo st bindNode).boundUBOs =
      bindBuffers st.boundUBOs ∧
    ∀ (before after : List XmlNode) (st0 : ObjectsPhase),
      (before ++ bindNode :: after).foldl (bindNodeStep passes name onMatch ubo) st0 =
        (before ++ after).foldl (bindNodeStep passes name onMatch ubo) st0 := by
  have hnone := findPass_none passes _ h
  have hstep : ∀ s : ObjectsPhase, bindNodeStep passes name onMatch ubo s bindNode = s :=
    fun s => bindNodeStep_none passes name onMatch ubo s bindNode hnone
  rw [hstep st]
  refine ⟨rfl, rfl, rfl, rfl, rfl, ?_⟩
  intro before after st0
  rw [List.foldl_append, List.foldl_cons, hstep, List.foldl_append]

/-- The node that binds to `Ghost` in a pipeline whose only pass is `Main`: the tables
stay empty and the node after it is read. -/
theorem unresolved_bind_dropped_witness :
    (∀ pass ∈ mainPass, pass.Name ≠ as_string (ghostBind.attr "name")) ∧
    (bindNodeStep mainPass "tex" [] false
      { calls := [], boundTextures := [], boundUBOs := [] } ghostBind).boundTextures = [] ∧
    ([ghostBind, XmlNode.mk "bind" [("slot", "0"), ("name", "Main")] "" []].foldl
      (bindNodeStep mainPass "tex" [] false)
      { calls := [], boundTextures := [], boundUBOs := [] }).boundTextures =
      [(100, ["tex"])] := by
  have hg : ∀ pass ∈ mainPass, pass.Name ≠ as_string (ghostBind.attr "name") := by decide
  have h := unresolved_bind_dropped mainPass "tex" [] false
    { calls := [], boundTextures := [], boundUBOs := [] } ghostBind hg
  refine ⟨hg, h.1, ?_⟩
  have h2 := h.2.2.2.2.2 [] [XmlNode.mk "bind" [("slot", "0"), ("name", "Main")] "" []]
    { calls := [], boundTextures := [], boundUBOs := [] }
  rw [List.nil_append, List.nil_append] at h2
  rw [h2]
  decide

/-! ## The model cache -/

theorem LoadModel_hit (LoadFromFile : String → Bool) (GetProjectPath : String → String)
    (s : ModelCache) (file : String) (h : file ∈ s.m_models.map Prod.fst) :
    (LoadModel LoadFromFile GetProjectPath s file).2 = s := by
  unfold LoadModel
  cases hf : s.m_models.find? (fun mdl => mdl.1 = file) with
  | some mdl => rfl
  | none =>
    rw [List.find?_eq_none] at hf
    obtain ⟨e, he, rfl⟩ := List.mem_map.1 h
    exact absurd (hf e he) (by simp)

theorem LoadModel_miss (LoadFromFile : String → Bool) (GetProjectPath : String → String)
    (s : ModelCache) (file : String) (h : file ∉ s.m_models.map Prod.fst) :
    (LoadModel LoadFromFile GetProjectPath s file).2 =
      { m_models := s.m_models ++ [(file, s.m_models.length + 1)]
        loaded := s.loaded ++ [file] } := by
  unfold LoadModel
  cases hf : s.m_models.find? (fun mdl => mdl.1 = file) with
  | some mdl =>
    have hm := List.mem_of_find?_eq_some hf
    have hp := List.find?_some hf
    simp only [decide_eq_true_eq] at hp
    exact absurd (List.mem_map.2 ⟨mdl, hm, hp⟩) h
  | none =>
    simp only
    split_ifs <;> rfl

/-- The invariant of the cache: one entry per file, and the loader was called exactly
for the files of the entries, in their order. -/
theorem LoadModel_calls_inv (LoadFromFile : String → Bool)
    (GetProjectPath : String → String) (files : List String) (s : ModelCache)
    (hs : (s.m_models.map Prod.fst).Nodup ∧ s.loaded = s.m_models.map Prod.fst) :
    ((LoadModel_calls LoadFromFile GetProjectPath s files).m_models.map Prod.fst).Nodup ∧
    (LoadModel_calls LoadFromFile GetProjectPath s files).loaded =
      (LoadModel_calls LoadFromFile GetProjectPath s files).m_models.map Prod.fst ∧
    ∀ file, file ∈ (LoadModel_calls LoadFromFile GetProjectPath s files).loaded ↔
      (file ∈ s.loaded ∨ file ∈ files) := by
  induction files generalizing s with
  | nil => exact ⟨hs.1, hs.2, fun file => by simp [LoadModel_calls]⟩
  | cons f rest ih =>
    unfold LoadModel_calls
    rw [List.foldl_cons]
    by_cases hf : f ∈ s.m_models.map Prod.fst
    · rw [LoadModel_hit _ _ s f hf]
      obtain ⟨h1, h2, h3⟩ := ih s hs
      refine ⟨h1, h2, fun file => ?_⟩
      have := h3 file
      unfold LoadModel_calls at this
      rw [this]
      constructor
      · rintro (h | h)
        · exact Or.inl h
        · exact Or.inr (List.mem_cons_of_mem _ h)
      · rintro (h | h)
        · exact Or.inl h
        · rcases List.mem_cons.1 h with h | h
          · subst h
            rw [hs.2]
            exact Or.inl hf
          · exact Or.inr h
    · rw [LoadModel_miss _ _ s f hf]
      have hs1 : ((s.m_models ++ [(f, s.m_models.length + 1)]).map Prod.fst).Nodup ∧
          s.loaded ++ [f] = (s.m_models ++ [(f, s.m_models.length + 1)]).map Prod.fst := by
        constructor
        · rw [List.map_append, List.map_singleton]
          exact List.Nodup.append hs.1 (List.nodup_singleton _)
            (by
              intro a ha hb
              rw [List.mem_singleton] at hb
              subst hb
              exact hf ha)
        · rw [List.map_append, List.map_singleton, hs.2]
      obtain ⟨h1, h2, h3⟩ := ih
        { m_models := s.m_models ++ [(f, s.m_models.length + 1)], loaded := s.loaded ++ [f] }
        hs1
      refine ⟨h1, h2, fun file => ?_⟩
      have := h3 file
      unfold LoadModel_calls at this
      rw [this]
      simp only [List.mem_append, List.mem_singleton, List.mem_cons]
      tauto

/-- C22. Between two calls of `Open` the external loader is called at most once for
every file string and the cache holds at most one entry for it, whatever the sequence of
`LoadModel` calls: the loader is called exactly for the distinct files of the sequence.
`Open` empties the cache before it loads the document, so its result does not depend on
the cache it finds. -/
theorem model_cache_one_load_per_file {F : Type} (T : FloatText F)
    (LoadFromFile : String → Bool) (GetProjectPath : String → String)
    (files : List String) :
    (∀ file : String,
      (LoadModel_calls LoadFromFile GetProjectPath ModelCache.empty files).loaded.count file
        ≤ 1 ∧
      ((LoadModel_calls LoadFromFile GetProjectPath ModelCache.empty files).m_models.map
        Prod.fst).count file ≤ 1 ∧
      (file ∈ (LoadModel_calls LoadFromFile GetProjectPath ModelCache.empty files).loaded ↔
        file ∈ files)) ∧
    (∀ (file : String) (s : ProjectState F),
      (Open_begin file s).m_models = [] ∧
      (Open_clear T (Open_begin file s)).m_models = []) ∧
    (∀ (m_parseV1 m_parseV2 : Option XmlNode → ProjectState F → ProjectState F)
      (load_file : String → Option XmlNode) (file : String) (s : ProjectState F)
      (models : List (String × Nat)),
      Open T m_parseV1 m_parseV2 load_file file { s with m_models := models } =
        Open T m_parseV1 m_parseV2 load_file file s) := by
  obtain ⟨h1, h2, h3⟩ := LoadModel_calls_inv LoadFromFile GetProjectPath files
    ModelCache.empty ⟨List.nodup_nil, rfl⟩
  refine ⟨fun file => ⟨?_, ?_, ?_⟩, fun file s => ⟨rfl, rfl⟩, ?_⟩
  · rw [h2]
    exact List.nodup_iff_count_le_one.1 h1 file
  · exact List.nodup_iff_count_le_one.1 h1 file
  · rw [h3 file]
    simp [ModelCache.empty]
  · intro m_parseV1 m_parseV2 load_file file s models
    rfl

/-- The cache after five calls on three files: three entries, three loader calls. -/
theorem model_cache_one_load_per_file_witness :
    (LoadModel_calls failingLoader projPath ModelCache.empty
      ["a.obj", "b.obj", "a.obj", "c.obj", "b.obj"]).loaded = ["a.obj", "b.obj", "c.obj"] ∧
    (LoadModel_calls failingLoader projPath ModelCache.empty
      ["a.obj", "b.obj", "a.obj", "c.obj", "b.obj"]).loaded.count "a.obj" ≤ 1 :=
  ⟨by decide,
   ((model_cache_one_load_per_file wholeFloats failingLoader projPath
      ["a.obj", "b.obj", "a.obj", "c.obj", "b.obj"]).1 "a.obj").1⟩

/-- C23. Two model items of one pass name the same file, which the loader fails to load.
The first item keeps its null mesh reference and gets a message. For the second item
`LoadModel` finds the entry pushed by the first call and returns its model, which is not
null: the item gets that reference and no message is added, and the loader is not called
again. -/
theorem failed_model_cached :
    twiceFailingModel.1.Data = 0 ∧
    twiceFailingModel.1.m_msgs = [("Main", "Failed to load .obj model first")] ∧
    (LoadModel failingLoader projPath ModelCache.empty "bad.obj").1 = 0 ∧
    (LoadModel failingLoader projPath twiceFailingModel.1.cache "bad.obj").1 = 1 ∧
    twiceFailingModel.2.Data = 1 ∧
    twiceFailingModel.2.m_msgs = [("Main", "Failed to load .obj model first")] ∧
    twiceFailingModel.2.cache.loaded = ["bad.obj"] := by
  decide

/-! ## Path normalisation -/

/-- C26. The text `toGenericPath(p)` has the length of `p`; at every position it has a
slash where `p` has a backslash and the character of `p` elsewhere; it holds no
backslash; and normalising twice gives the same as normalising once. -/
theorem toGenericPath_replaces_backslashes (p : String) :
    (toGenericPath p).length = p.length ∧
    (∀ (i : Nat) (c : Char), p.data[i]? = some c →
      (toGenericPath p).data[i]? = some (if c = '\\' then '/' else c)) ∧
    (∀ i : Nat, p.data[i]? = none → (toGenericPath p).data[i]? = none) ∧
    '\\' ∉ (toGenericPath p).data ∧
    toGenericPath (toGenericPath p) = toGenericPath p := by
  refine ⟨?_, ?_, ?_, ?_, ?_⟩
  · show (p.data.map (fun c => if c = '\\' then '/' else c)).length = p.data.length
    exact List.length_map _ _
  · intro i c h
    simp [toGenericPath, List.getElem?_map, h]
  · intro i h
    simp [toGenericPath, List.getElem?_map, h]
  · simp only [toGenericPath, List.mem_map, not_exists, not_and]
    intro c _
    by_cases hc : c = '\\'
    · rw [if_pos hc]
      decide
    · rw [if_neg hc]
      exact hc
  · simp only [toGenericPath, List.map_map]
    congr 1
    apply List.map_congr_left
    intro c _
    by_cases hc : c = '\\'
    · simp [hc]
    · simp [hc]

/-- The path `a\b/c\d` becomes `a/b/c/d`. -/
theorem toGenericPath_replaces_backslashes_witness :
    toGenericPath "a\\b/c\\d" = "a/b/c/d" ∧
    (toGenericPath "a\\b/c\\d").data[1]? = some '/' ∧
    (toGenericPath "a\\b/c\\d").data[0]? = some 'a' :=
  ⟨by decide,
   (toGenericPath_replaces_backslashes "a\\b/c\\d").2.1 1 '\\' (by decide),
   (toGenericPath_replaces_backslashes "a\\b/c\\d").2.1 0 'a' (by decide)⟩

/-! ## `m_parseV1`: the fail operations of a depth and stencil item -/

theorem lastTagged_present {F : Type} (conv : String → F) (tag : String) (a b : F)
    (l : List XmlNode) (h : ∃ c ∈ l, c.name = tag) :
    lastTagged conv tag a l = lastTagged conv tag b l := by
  induction l generalizing a b with
  | nil => simp at h
  | cons c cs ih =>
    unfold lastTagged
    rw [List.foldl_cons, List.foldl_cons]
    by_cases hc : c.name = tag
    · rw [if_pos hc, if_pos hc]
    · rw [if_neg hc, if_neg hc]
      obtain ⟨x, hx, hxt⟩ := h
      rcases List.mem_cons.1 hx with hx | hx
      · subst hx
        exact absurd hxt hc
      · exact ih a b ⟨x, hx, hxt⟩

theorem lastTagged_congr_start {F : Type} (conv : String → F) (tag : String) (a b : F)
    (l : List XmlNode) (h : a = b) : lastTagged conv tag a l = lastTagged conv tag b l := by
  rw [h]

theorem depthStencilAttr_frontStencilFail {F : Type} (N : Names) (g : RenderState F)
    (c : XmlNode) :
    (m_parseV1_depthStencilAttr N g c).StencilFrontFaceOpStencilFail =
      if c.name = "frontfail" then m_toStencilOp N c.text
      else g.StencilFrontFaceOpStencilFail := by
  by_cases h : c.name = "frontfail"
  · simp [m_parseV1_depthStencilAttr, h]
  · simp only [m_parseV1_depthStencilAttr, apply_ite RenderState.StencilFrontFaceOpStencilFail,
      h, if_false, ite_self]

theorem depthStencilAttr_frontDepthFail {F : Type} (N : Names) (g : RenderState F)
    (c : XmlNode) :
    (m_parseV1_depthStencilAttr N g c).StencilFrontFaceOpDepthFail =
      if c.name = "frontfail" then m_toStencilOp N c.text
      else g.StencilFrontFaceOpDepthFail := by
  by_cases h : c.name = "frontfail"
  · simp [m_parseV1_depthStencilAttr, h]
  · simp only [m_parseV1_depthStencilAttr, apply_ite RenderState.StencilFrontFaceOpDepthFail,
      h, if_false, ite_self]

theorem depthStencilAttr_backStencilFail {F : Type} (N : Names) (g : RenderState F)
    (c : XmlNode) :
    (m_parseV1_depthStencilAttr N g c).StencilBackFaceOpStencilFail =
      if c.name = "backfail" then m_toStencilOp N c.text
      else g.StencilBackFaceOpStencilFail := by
  by_cases h : c.name = "backfail"
  · simp [m_parseV1_depthStencilAttr, h]
  · simp only [m_parseV1_depthStencilAttr, apply_ite RenderState.StencilBackFaceOpStencilFail,
      h, if_false, ite_self]

theorem depthStencilAttr_backDepthFail {F : Type} (N : Names) (g : RenderState F)
    (c : XmlNode) :
    (m_parseV1_depthStencilAttr N g c).StencilBackFaceOpDepthFail =
      if c.name = "backfail" then m_toStencilOp N c.text
      else g.StencilBackFaceOpDepthFail := by
  by_cases h : c.name = "backfail"
  · simp [m_parseV1_depthStencilAttr, h]
  · simp only [m_parseV1_depthStencilAttr, apply_ite RenderState.StencilBackFaceOpDepthFail,
      h, if_false, ite_self]

/-- C27. In the render state `m_parseV1` reads from a `depthstencil` item, the stencil
fail and the depth fail operation of the front face are both the operation named by the
last `frontfail` child, and those of the back face the operation named by the last
`backfail` child; without such a child each keeps the value of the constructor. So the two
fail operations of a face are equal when the item has that child, and in every case when
the constructor builds them equal. -/
theorem v1_stencil_fail_collapsed {F : Type} (N : Names) (fresh : RenderState F)
    (itemNode : XmlNode) :
    (m_parseV1_depthStencil N fresh itemNode).StencilFrontFaceOpStencilFail =
      lastTagged (m_toStencilOp N) "frontfail" fresh.StencilFrontFaceOpStencilFail
        itemNode.children ∧
    (m_parseV1_depthStencil N fresh itemNode).StencilFrontFaceOpDepthFail =
      lastTagged (m_toStencilOp N) "frontfail" fresh.StencilFrontFaceOpDepthFail
        itemNode.children ∧
    (m_parseV1_depthStencil N fresh itemNode).StencilBackFaceOpStencilFail =
      lastTagged (m_toStencilOp N) "backfail" fresh.StencilBackFaceOpStencilFail
        itemNode.children ∧
    (m_parseV1_depthStencil N fresh itemNode).StencilBackFaceOpDepthFail =
      lastTagged (m_toStencilOp N) "backfail" fresh.StencilBackFaceOpDepthFail
        itemNode.children ∧
    ((∃ c ∈ itemNode.children, c.name = "frontfail") →
      (m_parseV1_depthStencil N fresh itemNode).StencilFrontFaceOpStencilFail =
        (m_parseV1_depthStencil N fresh itemNode).StencilFrontFaceOpDepthFail) ∧
    ((∃ c ∈ itemNode.children, c.name = "backfail") →
      (m_parseV1_depthStencil N fresh itemNode).StencilBackFaceOpStencilFail =
        (m_parseV1_depthStencil N fresh itemNode).StencilBackFaceOpDepthFail) ∧
    (fresh.StencilFrontFaceOpStencilFail = fresh.StencilFrontFaceOpDepthFail →
      (m_parseV1_depthStencil N fresh itemNode).StencilFrontFaceOpStencilFail =
        (m_parseV1_depthStencil N fresh itemNode).StencilFrontFaceOpDepthFail) ∧
    (fresh.StencilBackFaceOpStencilFail = fresh.StencilBackFaceOpDepthFail →
      (m_parseV1_depthStencil N fresh itemNode).StencilBackFaceOpStencilFail =
        (m_parseV1_depthStencil N fresh itemNode).StencilBackFaceOpDepthFail) := by
  have h1 := foldl_lastTagged (m_parseV1_depthStencilAttr N)
    (fun g : RenderState F => g.StencilFrontFaceOpStencilFail) (m_toStencilOp N) "frontfail"
    (depthStencilAttr_frontStencilFail N) itemNode.children
    { fresh with StencilMask := 0xFF }
  have h2 := foldl_lastTagged (m_parseV1_depthStencilAttr N)
    (fun g : RenderState F => g.StencilFrontFaceOpDepthFail) (m_toStencilOp N) "frontfail"
    (depthStencilAttr_frontDepthFail N) itemNode.children
    { fresh with StencilMask := 0xFF }
  have h3 := foldl_lastTagged (m_parseV1_depthStencilAttr N)
    (fun g : RenderState F => g.StencilBackFaceOpStencilFail) (m_toStencilOp N) "backfail"
    (depthStencilAttr_backStencilFail N) itemNode.children
    { fresh with StencilMask := 0xFF }
  have h4 := foldl_lastTagged (m_parseV1_depthStencilAttr N)
    (fun g : RenderState F => g.StencilBackFaceOpDepthFail) (m_toStencilOp N) "backfail"
    (depthStencilAttr_backDepthFail N) itemNode.children
    { fresh with StencilMask := 0xFF }
  simp only at h1 h2 h3 h4
  unfold m_parseV1_depthStencil
  refine ⟨h1, h2, h3, h4, ?_, ?_, ?_, ?_⟩
  · intro h
    rw [h1, h2]
    exact lastTagged_present _ _ _ _ _ h
  · intro h
    rw [h3, h4]
    exact lastTagged_present _ _ _ _ _ h
  · intro h
    rw [h1, h2]
    exact lastTagged_congr_start _ _ _ _ _ h
  · intro h
    rw [h3, h4]
    exact lastTagged_congr_start _ _ _ _ _ h

/-- The item with the children `frontfail` Keep and `frontfail` Zero and no `backfail`:
both front fail operations are zero, the one named last, and the back fail operations
are those of the fresh record, which are equal. -/
theorem v1_stencil_fail_collapsed_witness :
    (∃ c ∈ failItem.children, c.name = "frontfail") ∧
    freshRenderState.StencilBackFaceOpStencilFail =
      freshRenderState.StencilBackFaceOpDepthFail ∧
    (m_parseV1_depthStencil stencilNames freshRenderState failItem
      ).StencilFrontFaceOpStencilFail = GL_ZERO ∧
    (m_parseV1_depthStencil stencilNames freshRenderState failItem
      ).StencilFrontFaceOpStencilFail =
      (m_parseV1_depthStencil stencilNames freshRenderState failItem
        ).StencilFrontFaceOpDepthFail ∧
    (m_parseV1_depthStencil stencilNames freshRenderState failItem
      ).StencilBackFaceOpStencilFail =
      (m_parseV1_depthStencil stencilNames freshRenderState failItem
        ).StencilBackFaceOpDepthFail := by
  have hc : ∃ c ∈ failItem.children, c.name = "frontfail" :=
    ⟨XmlNode.leaf "frontfail" "Zero", by simp [failItem, XmlNode.children], rfl⟩
  have hb : freshRenderState.StencilBackFaceOpStencilFail =
      freshRenderState.StencilBackFaceOpDepthFail := by decide
  have h := v1_stencil_fail_collapsed stencilNames freshRenderState failItem
  refine ⟨hc, hb, ?_, h.2.2.2.2.1 hc, h.2.2.2.2.2.2.2 hb⟩
  rw [h.1]
  decide

/-! ## Stores outside the slot table and outside the chain -/

/-- C28. A `bind` node of an existing pass with the slot -1: the comparison `size() <=
slot` is made in `size_t`, where the slot is 18446744073709551615, so the table is
resized to `slot + 1 = 0` names and the store at the slot falls outside it, for an empty
table and for one that held two names. -/
theorem negative_slot_outside_table :
    as_int (negativeBind.attr "slot") = -1 ∧
    (findPass mainPass (as_string (negativeBind.attr "name"))).isSome = true ∧
    toSizeT (-1) = 18446744073709551615 ∧
    growFor [] (-1) = [] ∧ slotInRange [] (-1) = false ∧
    growFor ["a", "b"] (-1) = [] ∧ slotInRange ["a", "b"] (-1) = false ∧
    ((bindNodeStep mainPass "tex" [] false
      { calls := [], boundTextures := [], boundUBOs := [] } negativeBind).boundTextures.get
        100).length = 0 := by
  decide

theorem passWithTargets_children (n : Nat) :
    (passWithTargets n).childrenNamed "rendertexture" =
      List.replicate n (XmlNode.mk "rendertexture" [] "" []) := by
  unfold passWithTargets XmlNode.childrenNamed
  simp only [XmlNode.children]
  rw [List.filter_eq_self]
  intro a ha
  rw [List.eq_of_mem_replicate ha]
  simp [XmlNode.name]

theorem resolveChain_indexes_eq (names : List String) :
    resolveChain_indexes names = List.range names.length := by
  unfold resolveChain_indexes
  rw [List.enum_map_fst]

/-- C29. A pass node with one `rendertexture` child more than `MAX_RENDER_TEXTURES`, for
any value of that constant: both readers set the count to `MAX_RENDER_TEXTURES + 1`, and
the closing loop stores at the index `MAX_RENDER_TEXTURES`, one past the last entry of
the array. -/
theorem chain_exceeds_capacity (MAX_RENDER_TEXTURES : Nat) (rendererTexture : GLenum) :
    RTCount (passWithTargets (MAX_RENDER_TEXTURES + 1)) = MAX_RENDER_TEXTURES + 1 ∧
    ¬ RTCount (passWithTargets (MAX_RENDER_TEXTURES + 1)) ≤ MAX_RENDER_TEXTURES ∧
    MAX_RENDER_TEXTURES ∈ resolveChain_indexes
      (targetNames m_parseV2_targetName (passWithTargets (MAX_RENDER_TEXTURES + 1))) ∧
    MAX_RENDER_TEXTURES ∈ resolveChain_indexes
      (targetNames m_parseV1_targetName (passWithTargets (MAX_RENDER_TEXTURES + 1))) ∧
    (initialRenderTextures MAX_RENDER_TEXTURES rendererTexture).length =
      MAX_RENDER_TEXTURES := by
  have hc := passWithTargets_children (MAX_RENDER_TEXTURES + 1)
  have hr : RTCount (passWithTargets (MAX_RENDER_TEXTURES + 1)) = MAX_RENDER_TEXTURES + 1 := by
    unfold RTCount
    simp only [hc, List.length_replicate]
    rw [if_neg (by omega)]
  refine ⟨hr, by omega, ?_, ?_, initialRenderTextures_length _ _⟩
  · rw [resolveChain_indexes_eq, targetNames, hc]
    simp
  · rw [resolveChain_indexes_eq, targetNames, hc]
    simp

/-! ## Items of a kind the v2 reader does not know -/

/-- C30. An item whose `type` attribute is `blend`, `depthstencil` or `rasterizer`, or
that has no `type` attribute, takes none of the three branches of `m_parseV2`: the tag
stays `Geometry` and the payload stays null, and the statements that follow read the
geometry type through that null pointer. The item loop of a pass with such items does not
come to an end. -/
theorem unknown_item_kind_null_payload :
    ((m_parseV2_itemData sampleRead
      (XmlNode.mk "item" [("name", "b"), ("type", "blend")] "" [])).1 = ItemType.Geometry ∧
     (m_parseV2_itemData sampleRead
      (XmlNode.mk "item" [("name", "b"), ("type", "blend")] "" [])).2.isNone = true) ∧
    ((m_parseV2_itemData sampleRead
      (XmlNode.mk "item" [("name", "d"), ("type", "depthstencil")] "" [])).1
        = ItemType.Geometry ∧
     (m_parseV2_itemData sampleRead
      (XmlNode.mk "item" [("name", "d"), ("type", "depthstencil")] "" [])).2.isNone
        = true) ∧
    ((m_parseV2_itemData sampleRead
      (XmlNode.mk "item" [("name", "r"), ("type", "rasterizer")] "" [])).1
        = ItemType.Geometry ∧
     (m_parseV2_itemData sampleRead
      (XmlNode.mk "item" [("name", "r"), ("type", "rasterizer")] "" [])).2.isNone = true) ∧
    ((m_parseV2_itemData sampleRead (XmlNode.mk "item" [("name", "n")] "" [])).1
        = ItemType.Geometry ∧
     (m_parseV2_itemData sampleRead (XmlNode.mk "item" [("name", "n")] "" [])).2.isNone
        = true) ∧
    (m_parseV2_item sampleRead "Main"
      (XmlNode.mk "item" [("name", "b"), ("type", "blend")] "" [])).isNone = true ∧
    (m_parseV2_items sampleRead "Main" v1KindsPass).isNone = true ∧
    (m_parseV2_pass sampleRead v1KindsPass).isNone = true := by
  decide

/-! ## Order of passes, items and variables -/

theorem find?_append_none {α : Type} (p : α → Bool) (l1 l2 : List α)
    (h : ∀ x ∈ l1, p x = false) : (l1 ++ l2).find? p = l2.find? p := by
  induction l1 with
  | nil => rfl
  | cons a rest ih =>
    rw [List.cons_append, List.find?_cons_of_neg _ (by simp [h a (List.mem_cons_self _ _)])]
    exact ih (fun x hx => h x (List.mem_cons_of_mem _ hx))

theorem SaveAs_shaders_name {F : Type} (W : SaveContext F) (passItem : PipelineItem)
    (passData : ShaderPass F) :
    ∀ x ∈ SaveAs_shaders W passItem passData, x.name = "shader" := by
  intro x hx
  unfold SaveAs_shaders at hx
  split_ifs at hx
  · simp only [List.cons_append, List.nil_append, List.mem_cons, List.mem_singleton,
      List.not_mem_nil, or_false] at hx
    rcases hx with h | h | h <;> rw [h] <;> rfl
  · simp only [List.append_nil, List.mem_cons, List.mem_singleton, List.not_mem_nil,
      or_false] at hx
    rcases hx with h | h <;> rw [h] <;> rfl

theorem SaveAs_renderTextures_name (MAX_RENDER_TEXTURES : Nat) (rendererTexture : GLenum)
    (nameOf : GLenum → String) (RenderTextures : List GLenum) :
    ∀ x ∈ SaveAs_renderTextures MAX_RENDER_TEXTURES rendererTexture nameOf RenderTextures,
      x.name = "rendertexture" := by
  intro x hx
  unfold SaveAs_renderTextures at hx
  obtain ⟨rtID, _, rfl⟩ := List.mem_map.1 hx
  split_ifs <;> rfl

theorem m_exportShaderVariables_name {F : Type} (V : VariableTables) (T : FloatText F)
    (vars : List (PassVariable F)) :
    ∀ x ∈ m_exportShaderVariables V T vars, x.name = "variables" := by
  intro x hx
  unfold m_exportShaderVariables at hx
  split_ifs at hx
  · rw [List.mem_singleton] at hx
    rw [hx]
    rfl
  · simp at hx

/-- The `items` child the reader finds in a written pass. -/
theorem SaveAs_pass_items {F : Type} [DecidableEq F] (W : SaveContext F)
    (pass : PipelineItem × ShaderPass F) :
    (SaveAs_pass W pass).child "items" =
      some (XmlNode.mk "items" [] "" (pass.2.Items.map (SaveAs_item W))) := by
  unfold SaveAs_pass XmlNode.child
  simp only [XmlNode.children]
  rw [List.append_assoc, List.append_assoc,
    find?_append_none _ _ _ (fun x hx => by
      simp [SaveAs_shaders_name W pass.1 pass.2 x hx]),
    find?_append_none _ _ _ (fun x hx => by
      simp [SaveAs_renderTextures_name _ _ _ _ x hx]),
    find?_append_none _ _ _ (fun x hx => by
      simp [m_exportShaderVariables_name _ _ _ x hx])]
  simp [SaveAs_macros, XmlNode.name]

/-- The `variable` nodes the reader finds in a written pass. -/
theorem SaveAs_pass_variables {F : Type} [DecidableEq F] (W : SaveContext F)
    (pass : PipelineItem × ShaderPass F) :
    childrenOf ((SaveAs_pass W pass).child "variables") "variable" =
      pass.2.Variables.map (m_exportShaderVariable W.V W.T) := by
  unfold SaveAs_pass XmlNode.child
  simp only [XmlNode.children]
  rw [List.append_assoc, List.append_assoc,
    find?_append_none _ _ _ (fun x hx => by
      simp [SaveAs_shaders_name W pass.1 pass.2 x hx]),
    find?_append_none _ _ _ (fun x hx => by
      simp [SaveAs_renderTextures_name _ _ _ _ x hx])]
  unfold m_exportShaderVariables
  by_cases hv : pass.2.Variables.length > 0
  · rw [if_pos hv]
    simp only [List.singleton_append, XmlNode.name, decide_True, List.find?_cons_of_pos,
      childrenOf, XmlNode.childrenNamed, XmlNode.children]
    rw [List.filter_eq_self]
    intro a ha
    obtain ⟨var, _, rfl⟩ := List.mem_map.1 ha
    simp [m_exportShaderVariable, XmlNode.name]
  · rw [if_neg hv]
    have hnil : pass.2.Variables = [] := List.length_eq_zero.1 (by omega)
    rw [hnil]
    simp [SaveAs_macros, XmlNode.name, childrenOf]

theorem parseVariableNode_Name {F : Type} (V : VariableTables) (T : FloatText F)
    (flags : Option Nat) (variableNode : XmlNode) :
    (parseVariableNode V T flags variableNode).Name = as_string (variableNode.attr "name") :=
  rfl

theorem m_exportShaderVariable_name {F : Type} (V : VariableTables) (T : FloatText F)
    (var : PassVariable F) :
    as_string ((m_exportShaderVariable V T var).attr "name") = var.Name := by
  simp [m_exportShaderVariable, XmlNode.attr, XmlNode.attrs, as_string]

theorem SaveAs_item_attrs {F : Type} [DecidableEq F] (W : SaveContext F)
    (item : PassItem F) :
    (SaveAs_item W item).name = "item" ∧
    (SaveAs_item W item).attr "name" = some item.Name ∧
    (SaveAs_item W item).attr "type" =
      some (match item.Data with
        | ItemPayload.geometry _ => "geometry"
        | ItemPayload.renderState _ => "renderstate"
        | ItemPayload.model _ => "model") := by
  unfold SaveAs_item
  cases item.Data with
  | geometry tData =>
    simp [SaveAs_geometry, XmlNode.attr, XmlNode.attrs, XmlNode.name]
  | renderState s =>
    simp [SaveAs_renderState, XmlNode.attr, XmlNode.attrs, XmlNode.name]
  | model data =>
    simp [SaveAs_model, XmlNode.attr, XmlNode.attrs, XmlNode.name]

/-- The call of `AddItem` the reader makes for a written item. -/
theorem m_parseV2_item_written {F : Type} [DecidableEq F] (W : SaveContext F)
    (R : ReadContext F) (name : String) (item : PassItem F) :
    ∃ call, m_parseV2_item R name (SaveAs_item W item) = some call ∧ call.name = name ∧
      call.itemName = item.Name ∧ call.itemType = item.Data.itemType ∧
      call.itemData.isSome = true := by
  obtain ⟨_, hn, ht⟩ := SaveAs_item_attrs W item
  unfold m_parseV2_item m_parseV2_itemData
  rw [hn, ht]
  cases item.Data with
  | geometry tData => simp [as_string, ItemPayload.itemType]
  | renderState s => simp [as_string, ItemPayload.itemType]
  | model data => simp [as_string, ItemPayload.itemType]

theorem m_parseV2_itemNodes_written {F : Type} [DecidableEq F] (W : SaveContext F)
    (R : ReadContext F) (name : String) (items : List (PassItem F)) :
    ∃ calls, m_parseV2_itemNodes R name (items.map (SaveAs_item W)) = some calls ∧
      calls.map (fun c => c.itemName) = items.map (fun i => i.Name) ∧
      calls.map (fun c => c.itemType) = items.map (fun i => i.Data.itemType) ∧
      ∀ c ∈ calls, c.name = name ∧ c.itemData.isSome = true := by
  induction items with
  | nil => exact ⟨[], rfl, rfl, rfl, fun c hc => by simp at hc⟩
  | cons item rest ih =>
    obtain ⟨calls, h1, h2, h3, h4⟩ := ih
    obtain ⟨call, c1, c2, c3, c4, c5⟩ := m_parseV2_item_written W R name item
    refine ⟨call :: calls, ?_, ?_, ?_, ?_⟩
    · rw [List.map_cons, m_parseV2_itemNodes, c1]
      simp only
      rw [h1]
      rfl
    · rw [List.map_cons, List.map_cons, h2, c3]
    · rw [List.map_cons, List.map_cons, h3, c4]
    · intro c hc
      rcases List.mem_cons.1 hc with h | h
      · rw [h]
        exact ⟨c2, c5⟩
      · exact h4 c h

theorem m_parseV2_passName_written {F : Type} [DecidableEq F] (W : SaveContext F)
    (uninitialisedName : String) (pass : PipelineItem × ShaderPass F) :
    m_parseV2_passName uninitialisedName (SaveAs_pass W pass) = pass.1.Name := by
  simp [m_parseV2_passName, SaveAs_pass, XmlNode.attr, XmlNode.attrs, attrEmpty, as_string]

/-- What the reader adds for a written pass. -/
theorem m_parseV2_pass_written {F : Type} [DecidableEq F] (W : SaveContext F)
    (R : ReadContext F) (pass : PipelineItem × ShaderPass F) :
    ∃ read, m_parseV2_pass R (SaveAs_pass W pass) = some read ∧ read.name = pass.1.Name ∧
      read.itemNames = pass.2.itemNames ∧ read.variableNames = pass.2.variableNames ∧
      read.Items.map (fun c => c.itemType) = pass.2.Items.map (fun i => i.Data.itemType) ∧
      ∀ c ∈ read.Items, c.name = pass.1.Name ∧ c.itemData.isSome = true := by
  obtain ⟨calls, h1, h2, h3, h4⟩ := m_parseV2_itemNodes_written W R pass.1.Name pass.2.Items
  have hitems : m_parseV2_items R pass.1.Name (SaveAs_pass W pass) = some calls := by
    unfold m_parseV2_items
    rw [SaveAs_pass_items]
    exact h1
  refine ⟨{ name := pass.1.Name
            Variables := m_parseV2_variables R.V R.T (SaveAs_pass W pass)
            Items := calls }, ?_, rfl, h2, ?_, h3, h4⟩
  · unfold m_parseV2_pass
    simp only
    rw [m_parseV2_passName_written, hitems]
    rfl
  · unfold PassRead.variableNames ShaderPass.variableNames
    simp only
    rw [m_parseV2_variables_eq, SaveAs_pass_variables, List.map_map, List.map_map]
    apply List.map_congr_left
    intro var _
    simp only [Function.comp]
    rw [parseVariableNode_Name, m_exportShaderVariable_name]

theorem m_parseV2_passNodes_written {F : Type} [DecidableEq F] (W : SaveContext F)
    (R : ReadContext F) (passItems : List (PipelineItem × ShaderPass F)) :
    ∃ read, m_parseV2_passNodes R (passItems.map (SaveAs_pass W)) = some read ∧
      read.map (fun p => p.name) = passItems.map (fun p => p.1.Name) ∧
      read.map (fun p => p.itemNames) = passItems.map (fun p => p.2.itemNames) ∧
      read.map (fun p => p.variableNames) = passItems.map (fun p => p.2.variableNames) ∧
      ∀ p ∈ read, ∀ c ∈ p.Items, c.name = p.name ∧ c.itemData.isSome = true := by
  induction passItems with
  | nil => exact ⟨[], rfl, rfl, rfl, rfl, fun p hp => by simp at hp⟩
  | cons pass rest ih =>
    obtain ⟨read, h1, h2, h3, h4, h5⟩ := ih
    obtain ⟨r, r1, r2, r3, r4, _, r6⟩ := m_parseV2_pass_written W R pass
    refine ⟨r :: read, ?_, ?_, ?_, ?_, ?_⟩
    · rw [List.map_cons, m_parseV2_passNodes, r1]
      simp only
      rw [h1]
      rfl
    · rw [List.map_cons, List.map_cons, h2, r2]
    · rw [List.map_cons, List.map_cons, h3, r3]
    · rw [List.map_cons, List.map_cons, h4, r4]
    · intro p hp
      rcases List.mem_cons.1 hp with h | h
      · rw [h, r2]
        exact r6
      · exact h5 p h

theorem passNodes_written {F : Type} [DecidableEq F] (W : SaveContext F)
    (passItems : List (PipelineItem × ShaderPass F))
    (objectChildren settingsChildren : List XmlNode) :
    passNodes (some (SaveAs_projectNode (SaveAs_pipeline W passItems) objectChildren
      settingsChildren)) = passItems.map (SaveAs_pass W) := by
  unfold passNodes SaveAs_projectNode SaveAs_pipeline
  simp only [childOf, XmlNode.child, XmlNode.children, XmlNode.name, decide_True,
    List.find?_cons_of_pos, childrenOf, XmlNode.childrenNamed]
  rw [List.filter_eq_self]
  intro a ha
  obtain ⟨p, _, rfl⟩ := List.mem_map.1 ha
  simp [SaveAs_pass, XmlNode.name]

theorem m_parseV2_itemNodes_order {F : Type} (R : ReadContext F) (name : String)
    (nodes : List XmlNode) (calls : List (AddItemCall F))
    (h : m_parseV2_itemNodes R name nodes = some calls) :
    calls.map (fun c => c.itemName) = nodes.map (fun n => as_string (n.attr "name")) := by
  induction nodes generalizing calls with
  | nil =>
    simp only [m_parseV2_itemNodes, Option.some.injEq] at h
    rw [← h]
    rfl
  | cons node rest ih =>
    rw [m_parseV2_itemNodes] at h
    cases hi : m_parseV2_item R name node with
    | none => rw [hi] at h; simp at h
    | some call =>
      rw [hi] at h
      simp only at h
      cases hr : m_parseV2_itemNodes R name rest with
      | none => rw [hr] at h; simp at h
      | some calls1 =>
        rw [hr] at h
        simp only [Option.map_some', Option.some.injEq] at h
        rw [← h, List.map_cons, List.map_cons, ih calls1 hr]
        congr 1
        unfold m_parseV2_item at hi
        simp only at hi
        split_ifs at hi
        simp only [Option.some.injEq] at hi
        rw [← hi]

theorem m_parseV2_passNodes_order {F : Type} (R : ReadContext F) (nodes : List XmlNode)
    (read : List (PassRead F)) (h : m_parseV2_passNodes R nodes = some read) :
    read.map (fun p => p.name) = nodes.map (m_parseV2_passName R.uninitialisedName) ∧
    read.map (fun p => p.itemNames) =
      nodes.map (fun n =>
        (allChildrenOf (n.child "items")).map (fun i => as_string (i.attr "name"))) ∧
    read.map (fun p => p.variableNames) =
      nodes.map (fun n =>
        (childrenOf (n.child "variables") "variable").map
          (fun v => as_string (v.attr "name"))) := by
  induction nodes generalizing read with
  | nil =>
    simp only [m_parseV2_passNodes, Option.some.injEq] at h
    rw [← h]
    exact ⟨rfl, rfl, rfl⟩
  | cons node rest ih =>
    rw [m_parseV2_passNodes] at h
    cases hp : m_parseV2_pass R node with
    | none => rw [hp] at h; simp at h
    | some pass =>
      rw [hp] at h
      simp only at h
      cases hr : m_parseV2_passNodes R rest with
      | none => rw [hr] at h; simp at h
      | some read1 =>
        rw [hr] at h
        simp only [Option.map_some', Option.some.injEq] at h
        obtain ⟨i1, i2, i3⟩ := ih read1 hr
        unfold m_parseV2_pass at hp
        simp only at hp
        cases hi : m_parseV2_items R (m_parseV2_passName R.uninitialisedName node) node with
        | none => rw [hi] at hp; simp at hp
        | some items =>
          rw [hi] at hp
          simp only [Option.map_some', Option.some.injEq] at hp
          rw [← h, ← hp]
          refine ⟨?_, ?_, ?_⟩
          · rw [List.map_cons, List.map_cons, i1]
          · rw [List.map_cons, List.map_cons, i2]
            congr 1
            exact m_parseV2_itemNodes_order R _ _ items hi
          · rw [List.map_cons, List.map_cons, i3]
            congr 1
            unfold PassRead.variableNames
            simp only
            rw [m_parseV2_variables_eq, List.map_map]
            rfl

/-- C24. The document `SaveAs` builds has the root version 2, so `Open` reads it with
`m_parseV2`, and it holds one `pass` node for every pass of the pipeline list in the order
of the list, each with its items and its variables in the order of their sequences. The
v2 reader adds passes, items and variables in document order whenever its pass loop comes
to an end. On the written document it does come to an end, and the names of the passes,
of the items of each pass and of the variables of each pass that it adds are those of the
live model, in the same order; every item is added to its own pass with a payload. -/
theorem order_preserved {F : Type} [DecidableEq F] (W : SaveContext F) (R : ReadContext F)
    (passItems : List (PipelineItem × ShaderPass F))
    (objectChildren settingsChildren : List XmlNode) :
    (SaveAs_projectNode (SaveAs_pipeline W passItems) objectChildren settingsChildren).attr
      "version" = some "2" ∧
    selectReader (projectVersion (some (SaveAs_projectNode (SaveAs_pipeline W passItems)
      objectChildren settingsChildren))) = some Reader.V2 ∧
    passNodes (some (SaveAs_projectNode (SaveAs_pipeline W passItems) objectChildren
      settingsChildren)) = passItems.map (SaveAs_pass W) ∧
    (∀ pass : PipelineItem × ShaderPass F,
      (SaveAs_pass W pass).attr "name" = some pass.1.Name ∧
      (allChildrenOf ((SaveAs_pass W pass).child "items")).map
        (fun i => as_string (i.attr "name")) = pass.2.itemNames ∧
      (childrenOf ((SaveAs_pass W pass).child "variables") "variable").map
        (fun v => as_string (v.attr "name")) = pass.2.variableNames) ∧
    (∀ (projectNode : Option XmlNode) (read : List (PassRead F)),
      m_parseV2_passes R projectNode = some read →
      read.map (fun p => p.name) =
        (passNodes projectNode).map (m_parseV2_passName R.uninitialisedName) ∧
      read.map (fun p => p.itemNames) =
        (passNodes projectNode).map (fun n =>
          (allChildrenOf (n.child "items")).map (fun i => as_string (i.attr "name"))) ∧
      read.map (fun p => p.variableNames) =
        (passNodes projectNode).map (fun n =>
          (childrenOf (n.child "variables") "variable").map
            (fun v => as_string (v.attr "name")))) ∧
    ∃ read, m_parseV2_passes R (some (SaveAs_projectNode (SaveAs_pipeline W passItems)
        objectChildren settingsChildren)) = some read ∧
      read.map (fun p => p.name) = passItems.map (fun p => p.1.Name) ∧
      read.map (fun p => p.itemNames) = passItems.map (fun p => p.2.itemNames) ∧
      read.map (fun p => p.variableNames) = passItems.map (fun p => p.2.variableNames) ∧
      ∀ p ∈ read, ∀ c ∈ p.Items, c.name = p.name ∧ c.itemData.isSome = true := by
  have h2t : intText 2 = "2" := by decide
  refine ⟨by simp [SaveAs_projectNode, XmlNode.attr, XmlNode.attrs, h2t], ?_,
    passNodes_written W passItems objectChildren settingsChildren, ?_, ?_, ?_⟩
  · have hv : projectVersion (some (SaveAs_projectNode (SaveAs_pipeline W passItems)
        objectChildren settingsChildren)) = 2 := by
      have h2 : textAsInt (intText 2) = 2 := by decide
      simp [projectVersion, attributeOf, SaveAs_projectNode, XmlNode.attr, XmlNode.attrs,
        attrEmpty, as_int, h2]
    rw [hv]
    rfl
  · intro pass
    refine ⟨by simp [SaveAs_pass, XmlNode.attr, XmlNode.attrs], ?_, ?_⟩
    · rw [SaveAs_pass_items]
      simp only [allChildrenOf, XmlNode.children, List.map_map, ShaderPass.itemNames]
      apply List.map_congr_left
      intro item _
      simp only [Function.comp]
      rw [(SaveAs_item_attrs W item).2.1]
      rfl
    · rw [SaveAs_pass_variables, List.map_map]
      unfold ShaderPass.variableNames
      apply List.map_congr_left
      intro var _
      simp only [Function.comp]
      exact m_exportShaderVariable_name W.V W.T var
  · intro projectNode read h
    exact m_parseV2_passNodes_order R (passNodes projectNode) read h
  · unfold m_parseV2_passes
    rw [passNodes_written]
    exact m_parseV2_passNodes_written W R passItems

/-- The pipeline of the examples, written and read back: the passes `Main` and `Post`,
the items `sphere`, `state`, `mesh` of `Main` and its variables `b`, `a`, in this order,
which is the order of the `pass` nodes of the document. -/
theorem order_preserved_witness :
    ∃ read, m_parseV2_passes sampleRead (some (SaveAs_projectNode
        (SaveAs_pipeline sampleSave orderedPipeline) [] [])) = some read ∧
      read.map (fun p => p.name) = ["Main", "Post"] ∧
      read.map (fun p => p.itemNames) = [["sphere", "state", "mesh"], []] ∧
      read.map (fun p => p.variableNames) = [["b", "a"], ["z"]] ∧
      read.map (fun p => p.name) =
        (passNodes (some (SaveAs_projectNode (SaveAs_pipeline sampleSave orderedPipeline)
          [] []))).map (m_parseV2_passName sampleRead.uninitialisedName) := by
  obtain ⟨read, h1, h2, h3, h4, _⟩ :=
    (order_preserved sampleSave sampleRead orderedPipeline [] []).2.2.2.2.2
  exact ⟨read, h1, h2, h3, h4,
    ((order_preserved sampleSave sampleRead orderedPipeline [] []).2.2.2.2.1 _ read h1).1⟩

/-! ## The side file of a buffer -/

end ed
